import Mathlib

/-!
# reverse-proxy-agent: a shallow embedding of the tunnel supervisor

The Go packages are embedded one namespace per package.  Go `int`, `State`
and `time.Duration` values are integers; `error` values are `Option`s
(`none` is `nil`); pointers that may be `nil` are `Option`s.
-/

set_option autoImplicit false

/-! ## Package `state` (src/pkg/state/state.go) -/

namespace state

/-- Go `type State int`: any integer is a `State` value. -/
abbrev State := Int

def StateStopped : State := 0
def StateConnecting : State := 1
def StateConnected : State := 2

/-- The method `State.String`. -/
def State.String (s : State) : String :=
  if s = StateStopped then "STOPPED"
  else if s = StateConnecting then "CONNECTING"
  else if s = StateConnected then "CONNECTED"
  else "UNKNOWN"

/-- The struct `StateMachine` (the mutex is not modelled). -/
structure StateMachine where
  state : State
  deriving DecidableEq, Repr

def NewStateMachine : StateMachine := { state := StateStopped }

def allowedTransition (src dst : State) : Bool :=
  if src = StateStopped then
    decide (dst = StateConnecting) || decide (dst = StateStopped)
  else if src = StateConnecting then
    decide (dst = StateConnected) || decide (dst = StateStopped)
  else if src = StateConnected then
    decide (dst = StateConnecting) || decide (dst = StateStopped) || decide (dst = StateConnected)
  else false

/-- The method `StateMachine.Transition`: the machine afterwards and the returned error. -/
def StateMachine.Transition (sm : StateMachine) (next : State) : StateMachine × Option String :=
  if !allowedTransition sm.state next then
    (sm, some ("invalid transition: " ++ State.String sm.state ++ " -> " ++ State.String next))
  else
    ({ sm with state := next }, none)

/-- A finite sequence of `Transition` calls, errors discarded. -/
def runTransitions (sm : StateMachine) : List State → StateMachine
  | [] => sm
  | n :: rest => runTransitions (sm.Transition n).1 rest

/-- The allowed transition table of the data model, as a list of pairs. -/
def allowedTable : List (State × State) :=
  [ (StateStopped, StateStopped), (StateStopped, StateConnecting),
    (StateConnecting, StateStopped), (StateConnecting, StateConnected),
    (StateConnected, StateStopped), (StateConnected, StateConnecting),
    (StateConnected, StateConnected) ]

/-- The three named states. -/
def isNamed (s : State) : Prop :=
  s = StateStopped ∨ s = StateConnecting ∨ s = StateConnected

instance (s : State) : Decidable (isNamed s) := by
  unfold isNamed; infer_instance

end state

/-! ## Go standard library: package `strings`

Go strings are modelled by Lean strings, that is by sequences of Unicode code points
(valid UTF-8). -/

namespace strings

/-- Go `unicode.ToLower`: ASCII letters are handled by arithmetic, every other code point is
looked up in the Unicode case tables, which are not part of this repository and are the
parameter `caseTable`. -/
def unicodeToLower (caseTable : Char → Char) (r : Char) : Char :=
  if r.toNat ≤ 127 then
    if 65 ≤ r.toNat ∧ r.toNat ≤ 90 then Char.ofNat (r.toNat + 32) else r
  else caseTable r

/-- Go `strings.ToLower`. -/
def ToLower (caseTable : Char → Char) (s : String) : String :=
  ⟨s.data.map (unicodeToLower caseTable)⟩

/-- Go `strings.Join`. -/
def Join (elems : List String) (sep : String) : String :=
  match elems with
  | [] => ""
  | [e] => e
  | e :: rest => e ++ sep ++ Join rest sep

/-- Whether `sub` occurs in `s` as a contiguous run, on code point lists. -/
def hasInfix : List Char → List Char → Bool
  | [], sub => sub.isEmpty
  | c :: cs, sub => sub.isPrefixOf (c :: cs) || hasInfix cs sub

/-- Go `strings.Contains`. -/
def Contains (s substr : String) : Bool :=
  hasInfix s.data substr.data

end strings

/-! ## Go standard library: the error returned by `exec.Cmd.Wait` -/

namespace exec

/-- A non-nil error of `cmd.Wait()`: either an `*exec.ExitError` carrying the exit code of the
child, or any other error. -/
inductive WaitError where
  | ExitError (exitCode : Int) (msg : String)
  | Other (msg : String)
  deriving DecidableEq, Repr

/-- The method `Error` of the error value. -/
def WaitError.Error : WaitError → String
  | .ExitError _ msg => msg
  | .Other msg => msg

end exec

/-! ## Package `sshutil` (src/apps/rpa/pkg/sshutil/sshutil.go) -/

namespace sshutil

/-- The struct `LineBuffer` (the mutex is not modelled). -/
structure LineBuffer where
  limit : Int
  lines : List String
  deriving DecidableEq, Repr

def NewLineBuffer (limit : Int) : LineBuffer := { limit := limit, lines := [] }

/-- The method `LineBuffer.Add`.  In the full branch `copy(b.lines, b.lines[1:])` shifts the
lines one place to the left and the last slot is overwritten. -/
def LineBuffer.Add (b : LineBuffer) (line : String) : LineBuffer :=
  if b.limit ≤ 0 then b
  else if (b.lines.length : Int) ≥ b.limit then
    { b with lines := b.lines.drop 1 ++ [line] }
  else
    { b with lines := b.lines ++ [line] }

def LineBuffer.Lines (b : LineBuffer) : List String := b.lines

def LineBuffer.JoinedLower (caseTable : Char → Char) (b : LineBuffer) : String :=
  strings.ToLower caseTable (strings.Join b.lines "\n")

def ClassifyExit (caseTable : Char → Char) (lines : Option LineBuffer) (exitCode : Int)
    (err : Option exec.WaitError) : String :=
  if err = none ∧ exitCode = 0 then "clean"
  else match lines with
  | none => "unknown"
  | some lines =>
    let text := lines.JoinedLower caseTable
    if strings.Contains text "permission denied" then "auth"
    else if strings.Contains text "host key verification failed" then "hostkey"
    else if strings.Contains text "could not resolve hostname" then "dns"
    else if strings.Contains text "name or service not known" then "dns"
    else if strings.Contains text "no route to host" then "network"
    else if strings.Contains text "connection refused" then "refused"
    else if strings.Contains text "operation timed out" then "timeout"
    else "unknown"

end sshutil

/-! ## Package `agent`: line buffer and classifier
(src/internal/agent/lines.go, src/internal/agent/agent.go) -/

namespace agent

/-- The struct `lineBuffer` (the mutex is not modelled). -/
structure lineBuffer where
  limit : Int
  lines : List String
  deriving DecidableEq, Repr

def newLineBuffer (limit : Int) : lineBuffer := { limit := limit, lines := [] }

/-- The method `lineBuffer.Add`. -/
def lineBuffer.Add (b : lineBuffer) (line : String) : lineBuffer :=
  if b.limit ≤ 0 then b
  else if (b.lines.length : Int) ≥ b.limit then
    { b with lines := b.lines.drop 1 ++ [line] }
  else
    { b with lines := b.lines ++ [line] }

def lineBuffer.Lines (b : lineBuffer) : List String := b.lines

def lineBuffer.JoinedLower (caseTable : Char → Char) (b : lineBuffer) : String :=
  strings.ToLower caseTable (strings.Join b.lines "\n")

def classifyExit (caseTable : Char → Char) (lines : Option lineBuffer) (exitCode : Int)
    (err : Option exec.WaitError) : String :=
  if err = none ∧ exitCode = 0 then "clean"
  else match lines with
  | none => "unknown"
  | some lines =>
    let text := lines.JoinedLower caseTable
    if strings.Contains text "permission denied" then "auth"
    else if strings.Contains text "host key verification failed" then "hostkey"
    else if strings.Contains text "could not resolve hostname" then "dns"
    else if strings.Contains text "name or service not known" then "dns"
    else if strings.Contains text "no route to host" then "network"
    else if strings.Contains text "connection refused" then "refused"
    else if strings.Contains text "operation timed out" then "timeout"
    else "unknown"

end agent

/-! ## The classifier rules as the specification lists them -/

namespace Spec

/-- The substring rules of the classifier in the order of the specification. -/
def classRules : List (String × String) :=
  [ ("permission denied", "auth"),
    ("host key verification failed", "hostkey"),
    ("could not resolve hostname", "dns"),
    ("name or service not known", "dns"),
    ("no route to host", "network"),
    ("connection refused", "refused"),
    ("operation timed out", "timeout") ]

/-- The class of the first rule whose substring occurs in `text`, `unknown` when none does. -/
def firstMatch (text : String) : String :=
  match classRules.find? (fun r => strings.Contains text r.1) with
  | some r => r.2
  | none => "unknown"

end Spec

/-! ## Go arithmetic: `int64` and `float64`

A finite `float64` value is modelled by the rational number it denotes.  Every float64
operation is the exact operation followed by rounding to 53 significant bits, ties to even
(the exponent range of the format is not modelled: no value of this program leaves it before
it leaves the `int64` range). -/

namespace goarith

/-- Two's-complement wrap-around of a mathematical integer into `int64`. -/
def wrapInt64 (x : Int) : Int :=
  (x + 2 ^ 63) % 2 ^ 64 - 2 ^ 63

/-- Rounding of a rational to the nearest integer, ties to the even one. -/
def roundHalfEven (q : ℚ) : ℤ :=
  let f := ⌊q⌋
  if q - f < 1 / 2 then f
  else if 1 / 2 < q - f then f + 1
  else if f % 2 = 0 then f else f + 1

/-- Rounding of a non-negative magnitude to 53 significant bits: with `2^e ≤ x < 2^(e+1)` the
result is the multiple of `2^(e-52)` nearest to `x`. -/
def roundMag (x : ℚ) : ℚ :=
  if x = 0 then 0
  else
    let k : ℤ := Int.log 2 x - 52
    (roundHalfEven (x / 2 ^ k) : ℚ) * 2 ^ k

/-- Rounding to `float64` (sign and magnitude). -/
def round64 (x : ℚ) : ℚ :=
  if x < 0 then - roundMag (-x) else roundMag x

/-- Go `float64(i)` for an integer `i`. -/
def ofInt (i : Int) : ℚ := round64 i

/-- Go `x * y` on `float64`. -/
def fmul (x y : ℚ) : ℚ := round64 (x * y)

/-- Go `x + y` on `float64`. -/
def fadd (x y : ℚ) : ℚ := round64 (x + y)

/-- Go `x - y` on `float64`. -/
def fsub (x y : ℚ) : ℚ := round64 (x - y)

/-- Truncation toward zero. -/
def truncate (x : ℚ) : Int :=
  if 0 ≤ x then ⌊x⌋ else ⌈x⌉

/-- Go `int64(x)` / `time.Duration(x)` for a `float64` `x`: truncation toward zero; when the
truncated value is not an `int64` the language leaves the result to the implementation, and it
is the parameter `ovf`. -/
def toInt64 (ovf : Int) (x : ℚ) : Int :=
  let t := truncate x
  if - 2 ^ 63 ≤ t ∧ t < 2 ^ 63 then t else ovf

end goarith

/-! ## Package `time` -/

namespace time

/-- Go `time.Duration`: a number of nanoseconds. -/
abbrev Duration := Int

def Millisecond : Duration := 1000000
def Second : Duration := 1000000000

end time

/-! ## Package `config`: the types (src/pkg/config/config.go) -/

namespace config

structure RestartConfig where
  MinDelayMs : Int
  MaxDelayMs : Int
  Factor : ℚ
  Jitter : ℚ
  DebounceMs : Int
  deriving DecidableEq

structure AgentConfig where
  Name : String
  LaunchdLabel : String
  RestartPolicy : String
  Restart : RestartConfig
  PeriodicRestartSec : Int
  SleepCheckSec : Int
  SleepGapSec : Int
  NetworkPollSec : Int
  deriving DecidableEq

structure SSHConfig where
  User : String
  Host : String
  Port : Int
  RemoteForward : String
  RemoteForwards : List String
  IdentityFile : String
  Options : List String
  deriving DecidableEq

structure LoggingConfig where
  Level : String
  Path : String
  deriving DecidableEq

structure Config where
  Agent : AgentConfig
  SSH : SSHConfig
  Logging : LoggingConfig
  deriving DecidableEq

end config

/-! ## Package `agent`: restart policy and backoff (src/internal/agent/restart.go) -/

namespace agent

inductive restartPolicy where
  | restartAlways
  | restartOnFailure
  deriving DecidableEq, Repr

open restartPolicy

def parseRestartPolicy (caseTable : Char → Char) (raw : String) : restartPolicy :=
  if strings.ToLower caseTable raw = "on-failure" then restartOnFailure else restartAlways

/-- The struct `backoff`.  The field `rng` is not stored: the sample that `rng.Float64()`
returns is an argument of `Next`. -/
structure backoff where
  min : time.Duration
  max : time.Duration
  factor : ℚ
  jitter : ℚ
  cur : time.Duration
  deriving DecidableEq

def newBackoff (cfg : config.RestartConfig) : backoff :=
  { min := goarith.wrapInt64 (cfg.MinDelayMs * time.Millisecond)
    max := goarith.wrapInt64 (cfg.MaxDelayMs * time.Millisecond)
    factor := cfg.Factor
    jitter := cfg.Jitter
    cur := 0 }

/-- The method `backoff.jittered`; `u` is the value of `b.rng.Float64()`, in `[0, 1)`. -/
def backoff.jittered (ovf : Int) (b : backoff) (u : ℚ) (d : time.Duration) : time.Duration :=
  if b.jitter ≤ 0 then d
  else
    let delta := goarith.fmul b.jitter (goarith.fsub (goarith.fmul u 2) 1)
    let out := goarith.toInt64 ovf (goarith.fmul (goarith.ofInt d) (goarith.fadd 1 delta))
    if out < 0 then 0 else out

/-- The method `backoff.Next`: the backoff afterwards and the returned delay. -/
def backoff.Next (ovf : Int) (b : backoff) (u : ℚ) : backoff × time.Duration :=
  if b.min ≤ 0 then (b, 0)
  else
    let b1 : backoff :=
      if b.cur = 0 then { b with cur := b.min }
      else
        let next := goarith.toInt64 ovf (goarith.fmul (goarith.ofInt b.cur) b.factor)
        let next := if b.max > 0 ∧ next > b.max then b.max else next
        { b with cur := next }
    (b1, b1.jittered ovf u b1.cur)

/-- The delay that `jittered` computes when the sampled value `b.rng.Float64()*2 - 1` is
`s`; the extreme values of the sample are `s = -1` and `s = 1`. -/
def backoff.jitteredAt (ovf : Int) (b : backoff) (s : ℚ) (d : time.Duration) : time.Duration :=
  let out := goarith.toInt64 ovf
    (goarith.fmul (goarith.ofInt d) (goarith.fadd 1 (goarith.fmul b.jitter s)))
  if out < 0 then 0 else out

def backoff.Reset (b : backoff) : backoff := { b with cur := 0 }

def backoff.ForceMax (b : backoff) : backoff :=
  if b.max ≤ 0 then { b with cur := b.min } else { b with cur := b.max }

def backoff.Current (b : backoff) : time.Duration := b.cur

/-- A sequence of `Next` calls without `Reset`, one RNG sample per call: the backoff after the
calls and the delays they returned, in order. -/
def backoff.runNext (ovf : Int) (b : backoff) : List ℚ → backoff × List time.Duration
  | [] => (b, [])
  | u :: us =>
    let r := b.Next ovf u
    let rest := backoff.runNext ovf r.1 us
    (rest.1, r.2 :: rest.2)

/-- The pre-jitter value `cur` after each call of a sequence of `Next` calls, in order. -/
def backoff.curTrace (ovf : Int) (b : backoff) : List ℚ → List time.Duration
  | [] => []
  | u :: us => (b.Next ovf u).1.cur :: backoff.curTrace ovf (b.Next ovf u).1 us

end agent

/-! ## Package `restart` (src/pkg/restart/restart.go), the shared copy -/

namespace restart

inductive Policy where
  | PolicyAlways
  | PolicyOnFailure
  deriving DecidableEq, Repr

open Policy

def ParsePolicy (caseTable : Char → Char) (raw : String) : Policy :=
  if strings.ToLower caseTable raw = "on-failure" then PolicyOnFailure else PolicyAlways

def Policy.Name (p : Policy) : String :=
  if p = PolicyOnFailure then "on-failure" else "always"

structure Backoff where
  min : time.Duration
  max : time.Duration
  factor : ℚ
  jitter : ℚ
  cur : time.Duration
  deriving DecidableEq

def NewBackoff (cfg : config.RestartConfig) : Backoff :=
  { min := goarith.wrapInt64 (cfg.MinDelayMs * time.Millisecond)
    max := goarith.wrapInt64 (cfg.MaxDelayMs * time.Millisecond)
    factor := cfg.Factor
    jitter := cfg.Jitter
    cur := 0 }

def Backoff.jittered (ovf : Int) (b : Backoff) (u : ℚ) (d : time.Duration) : time.Duration :=
  if b.jitter ≤ 0 then d
  else
    let delta := goarith.fmul b.jitter (goarith.fsub (goarith.fmul u 2) 1)
    let out := goarith.toInt64 ovf (goarith.fmul (goarith.ofInt d) (goarith.fadd 1 delta))
    if out < 0 then 0 else out

def Backoff.Next (ovf : Int) (b : Backoff) (u : ℚ) : Backoff × time.Duration :=
  if b.min ≤ 0 then (b, 0)
  else
    let b1 : Backoff :=
      if b.cur = 0 then { b with cur := b.min }
      else
        let next := goarith.toInt64 ovf (goarith.fmul (goarith.ofInt b.cur) b.factor)
        let next := if b.max > 0 ∧ next > b.max then b.max else next
        { b with cur := next }
    (b1, b1.jittered ovf u b1.cur)

def Backoff.Reset (b : Backoff) : Backoff := { b with cur := 0 }

def Backoff.ForceMax (b : Backoff) : Backoff :=
  if b.max ≤ 0 then { b with cur := b.min } else { b with cur := b.max }

def Backoff.Current (b : Backoff) : time.Duration := b.cur

def Backoff.runNext (ovf : Int) (b : Backoff) : List ℚ → Backoff × List time.Duration
  | [] => (b, [])
  | u :: us =>
    let r := b.Next ovf u
    let rest := Backoff.runNext ovf r.1 us
    (rest.1, r.2 :: rest.2)

def Backoff.curTrace (ovf : Int) (b : Backoff) : List ℚ → List time.Duration
  | [] => []
  | u :: us => (b.Next ovf u).1.cur :: Backoff.curTrace ovf (b.Next ovf u).1 us

/-- The same backoff seen as the agent's private copy of the struct. -/
def Backoff.toAgent (b : Backoff) : agent.backoff :=
  { min := b.min, max := b.max, factor := b.factor, jitter := b.jitter, cur := b.cur }

end restart

/-! ## Package `time`: instants -/

namespace time

/-- Go `time.Time`, as the number of nanoseconds since the zero instant of `time.Time`
(the value of an uninitialised `Time`). -/
abbrev Time := Int

def Time.IsZero (t : Time) : Bool := decide (t = 0)

/-- Go `t.Sub(u)`: the difference, saturated to the range of `Duration`. -/
def Time.Sub (t u : Time) : Duration :=
  let d := t - u
  if d < - 2 ^ 63 then - 2 ^ 63
  else if d > 2 ^ 63 - 1 then 2 ^ 63 - 1
  else d

end time

/-! ## Package `logging`: the logger handle -/

namespace logging

/-- A `*logging.Logger`; what it writes is recorded in the trace of the agent. -/
structure Logger where
  path : String
  deriving DecidableEq, Repr

end logging

/-! ## Package `agent`: the supervisor (src/internal/agent/agent.go) -/

namespace agent

open restartPolicy

/-- An argument of a `logger.Info` / `logger.Error` call. -/
inductive LogArg where
  | str (s : String)
  /-- The value `d.Round(time.Millisecond)` of a duration `d`. -/
  | roundedMs (d : time.Duration)
  deriving DecidableEq, Repr

/-- Signals sent to the child process. -/
inductive Signal where
  | Interrupt
  | SIGTERM
  | Kill
  deriving DecidableEq, Repr

/-- The actions of the supervisor that leave its own fields: log calls, signals to the child,
calls on the backoff, and the closing of the stop channel. -/
inductive Action where
  /-- A call `logger.Event(level, event, fields)`. -/
  | event (level event : String) (fields : List (String × String))
  /-- A call `logger.Info(format, args...)` or `logger.Error(format, args...)`. -/
  | message (level format : String) (args : List LogArg)
  /-- A call `cmd.Process.Signal(sig)` or `cmd.Process.Kill()`. -/
  | signal (sig : Signal)
  /-- A call `a.backoff.Reset()`. -/
  | backoffReset
  /-- A call `a.backoff.Next()`. -/
  | backoffNext
  /-- The call `close(a.stopCh)`. -/
  | closeStopCh
  deriving DecidableEq, Repr

/-- The `*exec.Cmd` of the child; `hasProcess` is `cmd.Process != nil`. -/
structure Cmd where
  hasProcess : Bool
  deriving DecidableEq, Repr

/-- The struct `Agent`.  `stopClosed` is whether `stopCh` has been closed; `trace` is the
list of actions performed so far (not a field of the Go struct); mutexes are not modelled. -/
structure Agent where
  cfg : config.Config
  sm : state.StateMachine
  cmd : Option Cmd
  logger : Option logging.Logger
  startSuccessCount : Int
  startFailureCount : Int
  exitSuccessCount : Int
  exitFailureCount : Int
  lastTriggerReason : String
  stopClosed : Bool
  restartCount : Int
  lastExit : String
  policy : restartPolicy
  backoff : backoff
  errLines : Option lineBuffer
  lastSuccess : time.Time
  lastClass : String
  lastTrigger : time.Time
  trace : List Action

/-- The constructor `New`. -/
def New (caseTable : Char → Char) (cfg : config.Config) : Agent :=
  { cfg := cfg
    sm := state.NewStateMachine
    cmd := none
    logger := none
    startSuccessCount := 0
    startFailureCount := 0
    exitSuccessCount := 0
    exitFailureCount := 0
    lastTriggerReason := ""
    stopClosed := false
    restartCount := 0
    lastExit := ""
    policy := parseRestartPolicy caseTable cfg.Agent.RestartPolicy
    backoff := newBackoff cfg.Agent.Restart
    errLines := none
    lastSuccess := 0
    lastClass := ""
    lastTrigger := 0
    trace := [] }

def Agent.State (a : Agent) : state.State := a.sm.state

def Agent.act (a : Agent) (x : Action) : Agent := { a with trace := a.trace ++ [x] }

def Agent.recordExit (a : Agent) (reason : String) : Agent := { a with lastExit := reason }

def Agent.setLastClass (a : Agent) (cls : String) : Agent := { a with lastClass := cls }

def Agent.setLastTriggerReason (a : Agent) (reason : String) : Agent :=
  { a with lastTriggerReason := reason }

def Agent.recordStartSuccess (a : Agent) : Agent :=
  { a with startSuccessCount := goarith.wrapInt64 (a.startSuccessCount + 1) }

def Agent.recordStartFailure (a : Agent) : Agent :=
  { a with startFailureCount := goarith.wrapInt64 (a.startFailureCount + 1) }

def Agent.recordExitSuccess (a : Agent) : Agent :=
  { a with exitSuccessCount := goarith.wrapInt64 (a.exitSuccessCount + 1) }

def Agent.recordExitFailure (a : Agent) : Agent :=
  { a with exitFailureCount := goarith.wrapInt64 (a.exitFailureCount + 1) }

def Agent.shouldRestart (a : Agent) (exitCode : Int) (err : Option exec.WaitError)
    (cls : String) : Bool :=
  if cls = "auth" ∨ cls = "hostkey" then false
  else
    match a.policy with
    | restartOnFailure => decide (err ≠ none ∨ exitCode ≠ 0)
    | _ => true

def Agent.policyName (a : Agent) : String :=
  if a.policy = restartOnFailure then "on-failure" else "always"

def formatExit (exitCode : Int) (err : Option exec.WaitError) : String :=
  match err with
  | none => "exit code 0"
  | some e => "exit code " ++ toString exitCode ++ " (" ++ e.Error ++ ")"

/-- The function `stderrSummary`.  Go counts bytes in `len(summary)` and `summary[:200]`; the
model counts code points, which is the same for ASCII output. -/
def stderrSummary (lines : Option lineBuffer) : String :=
  match lines with
  | none => ""
  | some lines =>
    let list := lines.Lines
    if list.length = 0 then ""
    else
      let start := if (list.length : Int) - 2 < 0 then 0 else list.length - 2
      let summary := String.intercalate " | " (list.drop start)
      if summary.length > 200 then String.mk (summary.data.take 200) else summary

/-- The method `Stop`.  `exitedInTime` is whether the child exits within the three seconds
that follow the interrupt. -/
def Agent.Stop (a : Agent) (exitedInTime : Bool) : Agent × Option String :=
  let a1 : Agent :=
    match a.cmd with
    | some cmd =>
      if cmd.hasProcess then
        let a2 := a.act (Action.signal Signal.Interrupt)
        if exitedInTime then a2 else a2.act (Action.signal Signal.Kill)
      else a
    | none => a
  let r := a1.sm.Transition state.StateStopped
  ({ a1 with sm := r.1 }, r.2)

/-- The method `sleepWithBackoff`.  `u` is the RNG sample of `Next`; `stopWins` is whether
the `select` takes the stop branch (a stop request arrives before the timer fires). -/
def Agent.sleepWithBackoff (ovf : Int) (a : Agent) (u : ℚ) (stopWins exitedInTime : Bool) :
    Agent × Option String :=
  let r := a.backoff.Next ovf u
  let a1 := ({ a with backoff := r.1 }).act Action.backoffNext
  let delay := r.2
  if delay ≤ 0 then (a1, none)
  else
    let a2 := a1.act (Action.message "INFO" "restart scheduled in %s" [LogArg.roundedMs delay])
    if stopWins then
      (a2.act (Action.message "INFO" "stop requested during backoff" [])).Stop exitedInTime
    else (a2, none)

/-- What one pass through the body of the `for` loop of `RunWithLogger` ends with. -/
inductive LoopStep where
  /-- The statement `return err`: the supervisor halts. -/
  | ret (err : Option String)
  /-- The end of the body or `continue`: the next pass starts with a new spawn. -/
  | next
  deriving DecidableEq, Repr

/-- The exit code that `RunWithLogger` derives from the result of `cmd.Wait()`. -/
def exitCodeOf (err : Option exec.WaitError) : Int :=
  match err with
  | none => 0
  | some (exec.WaitError.ExitError code _) => code
  | some (exec.WaitError.Other _) => -1

/-- The wait phase: the part of the loop body of `RunWithLogger` that follows
`err := cmd.Wait()`.  `err` is the result of `Wait`. -/
def Agent.waitPhase (caseTable : Char → Char) (ovf : Int) (a : Agent) (err : Option exec.WaitError)
    (u : ℚ) (stopWins exitedInTime : Bool) : Agent × LoopStep :=
  let exitCode := exitCodeOf err
  let a := if err ≠ none then a.recordExitFailure else a.recordExitSuccess
  let cls := classifyExit caseTable a.errLines exitCode err
  let a := a.setLastClass cls
  let exitMsg := formatExit exitCode err
  let exitMsg := if cls ≠ "clean" then exitMsg ++ " (" ++ cls ++ ")" else exitMsg
  let a := a.recordExit exitMsg
  let a :=
    if err ≠ none then
      let summary := stderrSummary a.errLines
      if summary ≠ "" then
        a.act (Action.event "ERROR" "ssh_exited"
          [("exit", exitMsg), ("class", cls), ("stderr", summary)])
      else
        a.act (Action.event "ERROR" "ssh_exited" [("exit", exitMsg), ("class", cls)])
    else
      a.act (Action.event "INFO" "ssh_exited" [("exit", exitMsg), ("class", cls)])
  let a := { a with sm := (a.sm.Transition state.StateStopped).1 }
  let a := { a with cmd := none }
  if !a.shouldRestart exitCode err cls then
    (a.act (Action.message "INFO" "restart policy: no restart (policy=%s, class=%s)"
      [LogArg.str a.policyName, LogArg.str cls]), LoopStep.ret none)
  else if cls = "auth" ∨ cls = "hostkey" then
    (a.act (Action.message "ERROR"
      "detected likely manual fix required; stopping auto-restart" []), LoopStep.ret none)
  else
    let a :=
      if err = none then ({ a with backoff := a.backoff.Reset }).act Action.backoffReset else a
    let a := { a with restartCount := goarith.wrapInt64 (a.restartCount + 1) }
    let r := a.sleepWithBackoff ovf u stopWins exitedInTime
    match r.2 with
    | some e => (r.1, LoopStep.ret (some e))
    | none => (r.1, LoopStep.next)

/-- The method `terminateProcess`. -/
def Agent.terminateProcess (a : Agent) : Agent :=
  match a.cmd with
  | some cmd => if cmd.hasProcess then a.act (Action.signal Signal.SIGTERM) else a
  | none => a

/-- The method `allowTrigger`; `now` is the value of `time.Now()`. -/
def Agent.allowTrigger (a : Agent) (window : time.Duration) (now : time.Time) : Agent × Bool :=
  if window ≤ 0 then (a, true)
  else if !a.lastTrigger.IsZero ∧ now.Sub a.lastTrigger < window then (a, false)
  else ({ a with lastTrigger := now }, true)

/-- The debounce window `time.Duration(a.cfg.Agent.Restart.DebounceMs) * time.Millisecond`. -/
def Agent.debounceWindow (a : Agent) : time.Duration :=
  goarith.wrapInt64 (a.cfg.Agent.Restart.DebounceMs * time.Millisecond)

/-- The method `requestRestart`; `now` is the value of `time.Now()`. -/
def Agent.requestRestart (a : Agent) (reason : String) (logger : Option logging.Logger)
    (now : time.Time) : Agent :=
  if a.State ≠ state.StateConnected then a
  else
    let a := a.setLastTriggerReason reason
    let r := a.allowTrigger a.debounceWindow now
    let a := r.1
    if !r.2 then
      if logger ≠ none then
        a.act (Action.event "INFO" "restart_skipped" [("reason", reason), ("detail", "debounced")])
      else a
    else
      let a :=
        if logger ≠ none then a.act (Action.event "INFO" "restart_triggered" [("reason", reason)])
        else a
      a.terminateProcess

def Agent.triggerRestart (a : Agent) (logger : logging.Logger) (reason : String)
    (now : time.Time) : Agent :=
  a.requestRestart reason (some logger) now

def Agent.RequestRestart (a : Agent) (reason : String) (now : time.Time) : Agent :=
  a.requestRestart reason a.logger now

/-- The body of the `case <-ticker.C` branch of `periodicRestartLoop`: one periodic tick. -/
def Agent.periodicTick (a : Agent) (now : time.Time) : Agent :=
  if a.State ≠ state.StateConnected then a
  else
    let r := a.allowTrigger a.debounceWindow now
    let a := r.1
    if !r.2 then
      a.act (Action.event "INFO" "restart_skipped" [("reason", "periodic"), ("detail", "debounced")])
    else
      let a := a.setLastTriggerReason "periodic"
      let a := a.act (Action.event "INFO" "restart_triggered" [("reason", "periodic")])
      a.terminateProcess

/-- A restart trigger: a call of `triggerRestart` by a monitor, a call of `RequestRestart`,
or a tick of the periodic ticker. -/
inductive Trigger where
  | monitor (reason : String)
  | request (reason : String)
  | periodic
  deriving DecidableEq, Repr

/-- The reason tag of a trigger. -/
def Trigger.reason : Trigger → String
  | Trigger.monitor reason => reason
  | Trigger.request reason => reason
  | Trigger.periodic => "periodic"

/-- The `restart_skipped` event of a debounced trigger. -/
def skippedEvent (t : Trigger) : Action :=
  Action.event "INFO" "restart_skipped" [("reason", t.reason), ("detail", "debounced")]

/-- The `restart_triggered` event of an accepted trigger. -/
def triggeredEvent (t : Trigger) : Action :=
  Action.event "INFO" "restart_triggered" [("reason", t.reason)]

/-- One trigger at the instant `now`.  The monitors and the ticker run inside
`RunWithLogger`, whose logger is the one stored by `setLogger`. -/
def Agent.fire (a : Agent) (l : logging.Logger) (t : Trigger) (now : time.Time) : Agent :=
  match t with
  | Trigger.monitor reason => a.triggerRestart l reason now
  | Trigger.request reason => a.RequestRestart reason now
  | Trigger.periodic => a.periodicTick now

/-- A sequence of triggers with their instants, in order. -/
def Agent.fireAll (a : Agent) (l : logging.Logger) : List (Trigger × time.Time) → Agent
  | [] => a
  | (t, now) :: rest => Agent.fireAll (a.fire l t now) l rest

/-- Whether an action is a logged event of the given name. -/
def isEvent (name : String) : Action → Bool
  | Action.event _ ev _ => ev == name
  | _ => false

/-- Whether an action is a signal sent to the child. -/
def isSignal : Action → Bool
  | Action.signal _ => true
  | _ => false

end agent

/-! ## Go standard library: `unicode.IsSpace` and `strings.TrimSpace` -/

namespace unicode

/-- Go `unicode.IsSpace`: the code points with the Unicode property White_Space. -/
def IsSpace (r : Char) : Bool :=
  let n := r.toNat
  if n ≤ 255 then
    decide (n = 9 ∨ n = 10 ∨ n = 11 ∨ n = 12 ∨ n = 13 ∨ n = 32 ∨ n = 133 ∨ n = 160)
  else
    decide (n = 5760 ∨ (8192 ≤ n ∧ n ≤ 8202) ∨ n = 8232 ∨ n = 8233 ∨ n = 8239 ∨ n = 8287 ∨
      n = 12288)

end unicode

namespace strings

/-- Go `strings.TrimSpace`: the string without its leading and trailing white space, as
`unicode.IsSpace` defines it.  Strings are sequences of Unicode code points (valid UTF-8). -/
def TrimSpace (s : String) : String :=
  ⟨(s.data.dropWhile unicode.IsSpace).rdropWhile unicode.IsSpace⟩

end strings

/-! ## Package `config`: the forward set (src/pkg/config/config.go)

A `*Config` is an `Option Config` (`none` is `nil`).  A function that writes through the
pointer returns the configuration afterwards.  A `nil` slice is the empty list. -/

namespace config

/-- The closure `add` of `NormalizeRemoteForwards`, which is also the body of the loop of
`SetRemoteForwards`: the slice `out` after the value has been handled.  The map `seen` holds
exactly the entries of `out`, so `seen[trimmed]` is membership in `out`. -/
def addForward (out : List String) (value : String) : List String :=
  let trimmed := strings.TrimSpace value
  if trimmed = "" then out
  else if trimmed ∈ out then out
  else out ++ [trimmed]

def NormalizeRemoteForwards (cfg : Option Config) : List String :=
  match cfg with
  | none => []
  | some cfg => cfg.SSH.RemoteForwards.foldl addForward (addForward [] cfg.SSH.RemoteForward)

def SetRemoteForwards (cfg : Option Config) (forwards : List String) : Option Config :=
  match cfg with
  | none => none
  | some cfg =>
    let trimmed := forwards.foldl addForward []
    match trimmed with
    | [] => some { cfg with SSH := { cfg.SSH with RemoteForward := "", RemoteForwards := [] } }
    | [x] => some { cfg with SSH := { cfg.SSH with RemoteForward := x, RemoteForwards := [] } }
    | x :: rest =>
      some { cfg with SSH := { cfg.SSH with RemoteForward := x, RemoteForwards := rest } }

end config

/-! ## Package `agent`: mutations of the forward set and stop requests
(src/internal/agent/agent.go) -/

namespace agent

/-- The configuration of the agent after `config.SetRemoteForwards(a.cfg, forwards)`. -/
def Agent.setForwards (a : Agent) (forwards : List String) : Agent :=
  match config.SetRemoteForwards (some a.cfg) forwards with
  | some cfg => { a with cfg := cfg }
  | none => a

def Agent.currentRemoteForwards (a : Agent) : List String :=
  config.NormalizeRemoteForwards (some a.cfg)

/-- The method `AddRemoteForward`: the agent afterwards, the boolean and the error returned.
`now` is the value of `time.Now()` inside `RequestRestart`. -/
def Agent.AddRemoteForward (a : Agent) (forward : String) (now : time.Time) :
    Agent × Bool × Option String :=
  let trimmed := strings.TrimSpace forward
  if trimmed = "" then (a, false, some "remote forward is required")
  else
    let current := config.NormalizeRemoteForwards (some a.cfg)
    if trimmed ∈ current then (a, false, none)
    else
      let current := current ++ [trimmed]
      let a := a.setForwards current
      let a := a.RequestRestart "remote forward added" now
      (a, true, none)

/-- The method `RemoveRemoteForward`. -/
def Agent.RemoveRemoteForward (a : Agent) (forward : String) (now : time.Time) :
    Agent × Bool × Option String :=
  let trimmed := strings.TrimSpace forward
  if trimmed = "" then (a, false, some "remote forward is required")
  else
    let current := config.NormalizeRemoteForwards (some a.cfg)
    let next := current.filter (fun existing => existing ≠ trimmed)
    let removed := current.any (fun existing => existing = trimmed)
    if !removed then (a, false, none)
    else if next.length = 0 then (a, false, some "at least one remote forward is required")
    else
      let a := a.setForwards next
      let a := a.RequestRestart "remote forward removed" now
      (a, true, none)

/-- The method `RequestStop`.  The first call closes `stopCh` and starts a goroutine that
calls `Stop`; the model runs that goroutine to completion at once.  `exitedInTime` is the
argument of `Stop`. -/
def Agent.RequestStop (a : Agent) (exitedInTime : Bool) : Agent :=
  if a.stopClosed then a
  else
    let a := ({ a with stopClosed := true }).act Action.closeStopCh
    (a.Stop exitedInTime).1

/-- The method `ClearRemoteForwards`. -/
def Agent.ClearRemoteForwards (a : Agent) (exitedInTime : Bool) : Agent × Bool :=
  let current := config.NormalizeRemoteForwards (some a.cfg)
  if current.length = 0 then (a, false)
  else
    let a := a.setForwards []
    (a.RequestStop exitedInTime, true)

end agent

/-! ## Package `config`: defaults and validation (src/pkg/config/config.go) -/

namespace strconv

/-- Go `strconv.Itoa`: the decimal form of an integer (also what the verb `%d` prints). -/
def Itoa (i : Int) : String := toString i

end strconv

namespace config

/-- The function `applyDefaults`; the configuration afterwards.  The `float64` literal `0.2` is
the double nearest to 1/5. -/
def applyDefaults (cfg : Config) : Config :=
  let cfg : Config :=
    if cfg.Agent.Name = "" then { cfg with Agent := { cfg.Agent with Name := "rpa-agent" } }
    else cfg
  let cfg : Config :=
    if cfg.Agent.LaunchdLabel = "" then
      { cfg with Agent := { cfg.Agent with LaunchdLabel := "com.rpa.agent" } }
    else cfg
  let cfg : Config :=
    if cfg.Agent.RestartPolicy = "" then
      { cfg with Agent := { cfg.Agent with RestartPolicy := "always" } }
    else cfg
  let cfg : Config :=
    if cfg.Agent.PeriodicRestartSec < 0 then
      { cfg with Agent := { cfg.Agent with PeriodicRestartSec := 0 } }
    else cfg
  let cfg : Config :=
    if cfg.Agent.SleepCheckSec = 0 then { cfg with Agent := { cfg.Agent with SleepCheckSec := 5 } }
    else cfg
  let cfg : Config :=
    if cfg.Agent.SleepGapSec = 0 then { cfg with Agent := { cfg.Agent with SleepGapSec := 30 } }
    else cfg
  let cfg : Config :=
    if cfg.Agent.NetworkPollSec = 0 then
      { cfg with Agent := { cfg.Agent with NetworkPollSec := 5 } }
    else cfg
  let cfg : Config :=
    if cfg.Agent.Restart.MinDelayMs = 0 then
      { cfg with Agent := { cfg.Agent with Restart := { cfg.Agent.Restart with MinDelayMs := 2000 } } }
    else cfg
  let cfg : Config :=
    if cfg.Agent.Restart.MaxDelayMs = 0 then
      { cfg with Agent := { cfg.Agent with Restart := { cfg.Agent.Restart with MaxDelayMs := 30000 } } }
    else cfg
  let cfg : Config :=
    if cfg.Agent.Restart.Factor = 0 then
      { cfg with Agent := { cfg.Agent with Restart := { cfg.Agent.Restart with Factor := 2 } } }
    else cfg
  let cfg : Config :=
    if cfg.Agent.Restart.Jitter = 0 then
      { cfg with Agent := { cfg.Agent with
                            Restart := { cfg.Agent.Restart with Jitter := goarith.round64 (1 / 5) } } }
    else cfg
  let cfg : Config :=
    if cfg.Agent.Restart.DebounceMs = 0 then
      { cfg with Agent := { cfg.Agent with Restart := { cfg.Agent.Restart with DebounceMs := 2000 } } }
    else cfg
  let cfg : Config :=
    if cfg.SSH.Port = 0 then { cfg with SSH := { cfg.SSH with Port := 22 } } else cfg
  let cfg : Config :=
    if cfg.SSH.Options.length = 0 then
      { cfg with SSH := { cfg.SSH with
                          Options := ["ServerAliveInterval=30", "ServerAliveCountMax=3"] } }
    else cfg
  let cfg : Config :=
    if cfg.Logging.Level = "" then { cfg with Logging := { cfg.Logging with Level := "info" } }
    else cfg
  let cfg : Config :=
    if cfg.Logging.Path = "" then
      { cfg with Logging := { cfg.Logging with Path := "~/.rpa/logs/agent.log" } }
    else cfg
  cfg

/-- The function `ApplyDefaults`; the configuration behind the pointer afterwards. -/
def ApplyDefaults (cfg : Option Config) : Option Config :=
  match cfg with
  | none => none
  | some cfg => some (applyDefaults cfg)

/-- The function `Validate`: the message of the returned error, `none` for `nil`.
`Quote` is `strconv.Quote`, what the verb `%q` prints.  `Factor` and `Jitter` are finite
values here; a NaN, which the comparisons `<` and `>` never reject, is not a value of the
model. -/
def Validate (caseTable : Char → Char) (Quote : String → String) (cfg : Option Config) :
    Option String :=
  match cfg with
  | none => some "config is nil"
  | some cfg =>
    if strings.TrimSpace cfg.SSH.Host = "" then some "ssh.host is required"
    else if strings.TrimSpace cfg.SSH.User = "" then some "ssh.user is required"
    else if (NormalizeRemoteForwards (some cfg)).length = 0 then
      some "ssh.remote_forward or ssh.remote_forwards is required"
    else if cfg.SSH.Port ≤ 0 then
      some ("ssh.port must be > 0 (got " ++ strconv.Itoa cfg.SSH.Port ++ ")")
    else if ¬ (strings.ToLower caseTable cfg.Agent.RestartPolicy = "always" ∨
        strings.ToLower caseTable cfg.Agent.RestartPolicy = "on-failure") then
      some ("agent.restart_policy must be always or on-failure (got " ++
        Quote cfg.Agent.RestartPolicy ++ ")")
    else if cfg.Agent.Restart.MinDelayMs < 0 ∨ cfg.Agent.Restart.MaxDelayMs < 0 then
      some "agent.restart min/max delay must be >= 0"
    else if cfg.Agent.Restart.MaxDelayMs > 0 ∧
        cfg.Agent.Restart.MinDelayMs > cfg.Agent.Restart.MaxDelayMs then
      some "agent.restart min delay must be <= max delay"
    else if cfg.Agent.Restart.Factor < 1 then some "agent.restart factor must be >= 1.0"
    else if cfg.Agent.Restart.Jitter < 0 ∨ cfg.Agent.Restart.Jitter > 1 then
      some "agent.restart jitter must be between 0 and 1"
    else if cfg.Agent.Restart.DebounceMs < 0 then some "agent.restart debounce_ms must be >= 0"
    else if cfg.Agent.PeriodicRestartSec < 0 then
      some "agent.periodic_restart_sec must be >= 0"
    else if cfg.Agent.SleepCheckSec < 0 then some "agent.sleep_check_sec must be >= 0"
    else if cfg.Agent.SleepGapSec < 0 then some "agent.sleep_gap_sec must be >= 0"
    else if cfg.Agent.NetworkPollSec < 0 then some "agent.network_poll_sec must be >= 0"
    else none

end config

/-! ## Package `agent`: the ssh command line (src/internal/agent/ssh.go) -/

namespace os

/-- What the command builder reads from its environment: the result of `os.UserHomeDir()`
(`none` when it returns an error), the function `filepath.Join` on two elements, and the string
that the byte slice `path[2:]` denotes when byte 2 falls inside a multi-byte character. -/
structure Env where
  UserHomeDir : Option String
  Join : String → String → String
  brokenSlice : String → String

end os

namespace agent

/-- The byte slice `path[2:]`.  When the first two characters are ASCII it is the string
without them. -/
def sliceFrom2 (env : os.Env) (path : String) : String :=
  match path.data with
  | a :: b :: rest => if a.toNat < 128 ∧ b.toNat < 128 then ⟨rest⟩ else env.brokenSlice path
  | _ => env.brokenSlice path

/-- The function `expandTilde`.  The test `path[0] != '~'` compares the first byte, which is
`~` exactly when the first character is. -/
def expandTilde (env : os.Env) (path : String) : String :=
  if path = "" ∨ path.data.head? ≠ some '~' then path
  else
    match env.UserHomeDir with
    | none => path
    | some home =>
      if path = "~" then home
      else env.Join home (sliceFrom2 env path)

/-- The loop that appends the pair `flag, value` for every value that is not blank. -/
def appendPairs (flag : String) (args : List String) (values : List String) : List String :=
  values.foldl
    (fun args value => if strings.TrimSpace value = "" then args else args ++ [flag, value])
    args

/-- The function `buildSSHCommand`: the error message, or the field `Args` of the command that
`exec.Command("ssh", args...)` returns (the program name, then `args`). -/
def buildSSHCommand (caseTable : Char → Char) (Quote : String → String) (env : os.Env)
    (cfg : Option config.Config) (remoteForwards : List String) : Except String (List String) :=
  match config.Validate caseTable Quote cfg, cfg with
  | some err, _ => Except.error err
  | none, none => Except.error "config is nil"
  | none, some cfg =>
    let args := ["-N", "-T", "-o", "ExitOnForwardFailure=yes", "-o", "BatchMode=yes"]
    let args := appendPairs "-R" args remoteForwards
    let args :=
      if cfg.SSH.IdentityFile ≠ "" then args ++ ["-i", expandTilde env cfg.SSH.IdentityFile]
      else args
    let args := appendPairs "-o" args cfg.SSH.Options
    let args := if cfg.SSH.Port > 0 then args ++ ["-p", strconv.Itoa cfg.SSH.Port] else args
    let userHost :=
      if cfg.SSH.User ≠ "" then cfg.SSH.User ++ "@" ++ cfg.SSH.Host else cfg.SSH.Host
    let args := args ++ [userHost]
    Except.ok ("ssh" :: args)

/-- A call of `AddRemoteForward` or of `RemoveRemoteForward` with its argument. -/
inductive ForwardCall where
  | add (forward : String)
  | remove (forward : String)
  deriving DecidableEq, Repr

/-- One call at the instant `now`: the supervisor afterwards and what the call returns. -/
def Agent.forwardCall (a : Agent) (c : ForwardCall) (now : time.Time) :
    Agent × Bool × Option String :=
  match c with
  | ForwardCall.add forward => a.AddRemoteForward forward now
  | ForwardCall.remove forward => a.RemoveRemoteForward forward now

/-- A sequence of calls with their instants, in order: the supervisor afterwards and the
booleans returned. -/
def Agent.forwardCalls (a : Agent) : List (ForwardCall × time.Time) → Agent × List Bool
  | [] => (a, [])
  | (c, now) :: rest =>
    let r := a.forwardCall c now
    let rs := Agent.forwardCalls r.1 rest
    (rs.1, r.2.1 :: rs.2)

end agent

/-! ## The forward set and the line ring as the specification describes them -/

namespace Spec

/-- The list with only the first occurrence of each entry, in the original order. -/
def firstOccurrences (xs : List String) : List String :=
  (xs.reverse.dedup).reverse

/-- The canonical form of a list of forwards: every entry trimmed, the empty ones dropped,
the first occurrence of each remaining string kept. -/
def normalize (xs : List String) : List String :=
  firstOccurrences ((xs.map strings.TrimSpace).filter (fun x => x ≠ ""))

/-- A list of forwards in canonical form: no duplicate, no empty entry, no entry with leading or
trailing white space. -/
def Canonical (xs : List String) : Prop :=
  xs.Nodup ∧ ∀ x ∈ xs, x ≠ "" ∧ strings.TrimSpace x = x

instance (xs : List String) : Decidable (Canonical xs) := by
  unfold Canonical
  infer_instance

/-- The stored representation of the forward set is canonical: the scalar field is the first
entry of the normalized list and the list field holds the remaining entries. -/
def storedCanonical (cfg : config.Config) : Prop :=
  cfg.SSH.RemoteForward = (config.NormalizeRemoteForwards (some cfg)).headD "" ∧
  cfg.SSH.RemoteForwards = (config.NormalizeRemoteForwards (some cfg)).tail

instance (cfg : config.Config) : Decidable (storedCanonical cfg) := by
  unfold storedCanonical
  infer_instance

/-- The values that are not blank, each preceded by the flag. -/
def flagPairs (flag : String) (values : List String) : List String :=
  (values.filter (fun v => strings.TrimSpace v ≠ "")).flatMap (fun v => [flag, v])

/-- The last `n` entries of a list, in order. -/
def lastN (n : Nat) (xs : List String) : List String :=
  xs.drop (xs.length - n)

end Spec

/-! ## Concrete inputs used in the examples -/

namespace Examples

/-- A restart record with `min_delay_ms = max_delay_ms = 2000000000001`, `factor = 1`,
`jitter = 0`; it satisfies the bounds of the data model. -/
def longRestartConfig : config.RestartConfig :=
  { MinDelayMs := 2000000000001
    MaxDelayMs := 2000000000001
    Factor := 1
    Jitter := 0
    DebounceMs := 0 }

/-- The backoff that `newBackoff` builds from `longRestartConfig`. -/
def longBackoff : agent.backoff :=
  { min := 2000000000001000000
    max := 2000000000001000000
    factor := 1
    jitter := 0
    cur := 0 }

/-- A configuration that `Validate` accepts, with the given debounce window. -/
def sampleConfig (debounceMs : Int) : config.Config :=
  { Agent :=
      { Name := "rpa-agent"
        LaunchdLabel := "com.rpa.agent"
        RestartPolicy := "always"
        Restart :=
          { MinDelayMs := 100
            MaxDelayMs := 400
            Factor := 2
            Jitter := 0
            DebounceMs := debounceMs }
        PeriodicRestartSec := 0
        SleepCheckSec := 5
        SleepGapSec := 30
        NetworkPollSec := 5 }
    SSH :=
      { User := "tunnel"
        Host := "bastion.example.org"
        Port := 22
        RemoteForward := "8080:localhost:22"
        RemoteForwards := []
        IdentityFile := ""
        Options := [] }
    Logging :=
      { Level := "info"
        Path := "~/.rpa/logs/agent.log" } }

def sampleLogger : logging.Logger := { path := "/tmp/agent.log" }

/-- A supervisor inside `RunWithLogger` whose child is running: the FSM is CONNECTED, the
child handle and the logger are set, and the stderr buffer holds `stderr`. -/
def connectedAgent (debounceMs : Int) (stderr : List String) : agent.Agent :=
  { agent.New id (sampleConfig debounceMs) with
    sm := { state := state.StateConnected }
    cmd := some { hasProcess := true }
    logger := some sampleLogger
    startSuccessCount := 1
    errLines := some { limit := 10, lines := stderr }
    lastSuccess := 1700000000000000000 }

/-- The backoff of scenario S4: `min = 100 ms`, `max = 400 ms`, `factor = 2`, `jitter = 0`. -/
def s4Backoff : agent.backoff :=
  { min := 100000000
    max := 400000000
    factor := 2
    jitter := 0
    cur := 0 }

/-- The sample configuration with the given scalar and list forward fields. -/
def forwardConfig (scalar : String) (list : List String) : config.Config :=
  { sampleConfig 1000 with
    SSH := { (sampleConfig 1000).SSH with RemoteForward := scalar, RemoteForwards := list } }

/-- A CONNECTED supervisor (`debounce_ms = 1000`) whose configuration holds the given
forwards. -/
def forwardAgent (scalar : String) (list : List String) : agent.Agent :=
  { connectedAgent 1000 [] with cfg := forwardConfig scalar list }

/-- A CONNECTED supervisor with `debounce_ms = 1000` whose periodic ticker runs
(`periodic_restart_sec = 3600`). -/
def periodicAgent : agent.Agent :=
  { connectedAgent 1000 [] with
    cfg := { sampleConfig 1000 with
             Agent := { (sampleConfig 1000).Agent with PeriodicRestartSec := 3600 } } }

/-- The configuration whose fields are all zero-valued. -/
def zeroConfig : config.Config :=
  { Agent :=
      { Name := ""
        LaunchdLabel := ""
        RestartPolicy := ""
        Restart := { MinDelayMs := 0, MaxDelayMs := 0, Factor := 0, Jitter := 0, DebounceMs := 0 }
        PeriodicRestartSec := 0
        SleepCheckSec := 0
        SleepGapSec := 0
        NetworkPollSec := 0 }
    SSH :=
      { User := ""
        Host := ""
        Port := 0
        RemoteForward := ""
        RemoteForwards := []
        IdentityFile := ""
        Options := [] }
    Logging := { Level := "", Path := "" } }

/-- The sample configuration with the given user, identity file and options. -/
def sshConfig (user identity : String) (options : List String) : config.Config :=
  { sampleConfig 1000 with
    SSH := { (sampleConfig 1000).SSH with
             User := user, IdentityFile := identity, Options := options } }

/-- An environment with home directory `/home/tunnel`; `Join` puts a slash between its
arguments. -/
def sampleEnv : os.Env :=
  { UserHomeDir := some "/home/tunnel"
    Join := fun dir name => dir ++ "/" ++ name
    brokenSlice := fun path => path }

end Examples

/-! ## Theorems -/

namespace state

theorem allowedTransition_iff_mem (s n : State) :
    allowedTransition s n = true ↔ (s, n) ∈ allowedTable := by
  unfold allowedTransition allowedTable StateStopped StateConnecting StateConnected
  by_cases h0 : s = 0
  · subst h0; simp; tauto
  · by_cases h1 : s = 1
    · subst h1; simp; tauto
    · by_cases h2 : s = 2
      · subst h2; simp; tauto
      · simp [h0, h1, h2]

theorem allowedTransition_named (s n : State) (h : allowedTransition s n = true) :
    isNamed s ∧ isNamed n := by
  rw [allowedTransition_iff_mem] at h
  simp [allowedTable, isNamed] at h ⊢
  rcases h with h | h | h | h | h | h | h <;> simp [h]

theorem Transition_ok (sm : StateMachine) (n : State) (h : allowedTransition sm.state n = true) :
    sm.Transition n = ({ sm with state := n }, none) := by
  simp [StateMachine.Transition, h]

theorem Transition_err (sm : StateMachine) (n : State) (h : allowedTransition sm.state n = false) :
    (sm.Transition n).1 = sm ∧ (sm.Transition n).2 ≠ none := by
  simp [StateMachine.Transition, h]

theorem runTransitions_named (calls : List State) (sm : StateMachine) (h : isNamed sm.state) :
    isNamed (runTransitions sm calls).state := by
  induction calls generalizing sm with
  | nil => simpa [runTransitions] using h
  | cons n rest ih =>
    simp only [runTransitions]
    apply ih
    cases hn : allowedTransition sm.state n with
    | true =>
      rw [Transition_ok sm n hn]
      exact (allowedTransition_named _ _ hn).2
    | false =>
      rw [(Transition_err sm n hn).1]
      exact h

end state

/-- C1: for every current state `s` and requested state `n` among STOPPED, CONNECTING,
CONNECTED, `Transition n` returns nil and sets the state to `n` exactly when `(s, n)` is one of
the seven pairs of the allowed table; for the other pairs it returns an error and the state is
still `s`. -/
theorem C1_transition_table (s n : state.State) (hs : state.isNamed s) (hn : state.isNamed n) :
    let r := (state.StateMachine.mk s).Transition n
    ((r.2 = none ∧ r.1.state = n) ↔ (s, n) ∈ state.allowedTable) ∧
    ((s, n) ∉ state.allowedTable → r.2 ≠ none ∧ r.1.state = s) ∧
    (((s, n) ∉ state.allowedTable) ↔
      ((s = state.StateStopped ∧ n = state.StateConnected) ∨
       (s = state.StateConnecting ∧ n = state.StateConnecting))) := by
  intro r
  have key := state.allowedTransition_iff_mem s n
  refine ⟨?_, ?_, ?_⟩
  · cases h : state.allowedTransition s n with
    | true =>
      have := state.Transition_ok ⟨s⟩ n h
      simp only [r, this]
      simp [← key, h]
    | false =>
      have := state.Transition_err ⟨s⟩ n h
      constructor
      · intro hr; exact absurd hr.1 this.2
      · intro hm; rw [← key, h] at hm; exact absurd hm (by simp)
  · intro hm
    have h : state.allowedTransition s n = false := by
      cases h : state.allowedTransition s n with
      | true => exact absurd (key.mp h) hm
      | false => rfl
    have := state.Transition_err ⟨s⟩ n h
    exact ⟨this.2, by simp only [r]; rw [this.1]⟩
  · simp only [state.isNamed, state.StateStopped, state.StateConnecting,
      state.StateConnected] at hs hn
    rcases hs with hs | hs | hs <;> rcases hn with hn | hn | hn <;> subst hs <;> subst hn <;>
      decide

/-- C1, at the pairs CONNECTING->CONNECTED (allowed) and CONNECTING->CONNECTING (refused). -/
theorem C1_transition_table_witness :
    (((state.StateMachine.mk 1).Transition 2).2 = none ∧
      ((state.StateMachine.mk 1).Transition 2).1.state = 2) ∧
    (((state.StateMachine.mk 1).Transition 1).2 ≠ none ∧
      ((state.StateMachine.mk 1).Transition 1).1.state = 1) :=
  ⟨(C1_transition_table 1 2 (by decide) (by decide)).1.mpr (by decide),
   (C1_transition_table 1 1 (by decide) (by decide)).2.1 (by decide)⟩

/-- C2: starting from `NewStateMachine`, after every finite sequence of `Transition` calls with
arbitrary integer arguments the state is one of STOPPED, CONNECTING, CONNECTED, and every call
that returned nil moved the state along a pair of the allowed table. -/
theorem C2_fsm_guard (calls : List state.State) (x : state.State) :
    let sm := state.runTransitions state.NewStateMachine calls
    state.isNamed sm.state ∧
    state.isNamed (sm.Transition x).1.state ∧
    ((sm.Transition x).2 ≠ none ∨
      ((sm.state, x) ∈ state.allowedTable ∧ (sm.Transition x).1.state = x)) := by
  intro sm
  have h0 : state.isNamed sm.state :=
    state.runTransitions_named calls _ (Or.inl rfl)
  refine ⟨h0, ?_, ?_⟩
  · cases h : state.allowedTransition sm.state x with
    | true =>
      rw [state.Transition_ok sm x h]
      exact (state.allowedTransition_named _ _ h).2
    | false =>
      rw [(state.Transition_err sm x h).1]
      exact h0
  · cases h : state.allowedTransition sm.state x with
    | true =>
      right
      rw [state.Transition_ok sm x h]
      exact ⟨(state.allowedTransition_iff_mem _ _).mp h, rfl⟩
    | false =>
      left
      exact (state.Transition_err sm x h).2

namespace agent

theorem classifyExit_eq_firstMatch (caseTable : Char → Char) (b : lineBuffer) (exitCode : Int)
    (err : Option exec.WaitError) (h : ¬ (err = none ∧ exitCode = 0)) :
    classifyExit caseTable (some b) exitCode err = Spec.firstMatch (b.JoinedLower caseTable) := by
  simp only [classifyExit, if_neg h, Spec.firstMatch, Spec.classRules]
  generalize b.JoinedLower caseTable = text
  split_ifs <;> simp [List.find?, *]

theorem classifyExit_ne_clean (caseTable : Char → Char) (lines : Option lineBuffer)
    (exitCode : Int) (err : Option exec.WaitError) (h : ¬ (err = none ∧ exitCode = 0)) :
    classifyExit caseTable lines exitCode err ≠ "clean" := by
  simp only [classifyExit, if_neg h]
  repeat' split
  all_goals decide

end agent

namespace sshutil

theorem ClassifyExit_eq_firstMatch (caseTable : Char → Char) (b : LineBuffer) (exitCode : Int)
    (err : Option exec.WaitError) (h : ¬ (err = none ∧ exitCode = 0)) :
    ClassifyExit caseTable (some b) exitCode err = Spec.firstMatch (b.JoinedLower caseTable) := by
  simp only [ClassifyExit, if_neg h, Spec.firstMatch, Spec.classRules]
  generalize b.JoinedLower caseTable = text
  split_ifs <;> simp [List.find?, *]

theorem ClassifyExit_ne_clean (caseTable : Char → Char) (lines : Option LineBuffer)
    (exitCode : Int) (err : Option exec.WaitError) (h : ¬ (err = none ∧ exitCode = 0)) :
    ClassifyExit caseTable lines exitCode err ≠ "clean" := by
  simp only [ClassifyExit, if_neg h]
  repeat' split
  all_goals decide

end sshutil

namespace strings

theorem hasInfix_iff (s sub : List Char) : hasInfix s sub = true ↔ sub <:+: s := by
  induction s with
  | nil => simp [hasInfix, List.isEmpty_iff]
  | cons c cs ih =>
    simp only [hasInfix, Bool.or_eq_true, ih, List.infix_cons_iff, List.isPrefixOf_iff_prefix]

end strings

/-- C3: for a non-nil line buffer and an exit that is not (no error and exit code 0),
`classifyExit` and its copy `sshutil.ClassifyExit` return the class of the first rule, in the
order of the specification, whose substring occurs in the lowercased newline-join of the
buffered lines, and `unknown` when none occurs; buffers with the same lowercased join get the
same class, and stderr "Permission denied (publickey)." with exit code 255 is classified
`auth`. -/
theorem C3_classify_first_rule (caseTable : Char → Char) (b : agent.lineBuffer)
    (b' : sshutil.LineBuffer) (exitCode : Int) (err : Option exec.WaitError)
    (h : ¬ (err = none ∧ exitCode = 0)) :
    agent.classifyExit caseTable (some b) exitCode err
        = Spec.firstMatch (strings.ToLower caseTable (strings.Join b.lines "\n")) ∧
    sshutil.ClassifyExit caseTable (some b') exitCode err
        = Spec.firstMatch (strings.ToLower caseTable (strings.Join b'.lines "\n")) ∧
    (∀ b2 : agent.lineBuffer,
        strings.ToLower caseTable (strings.Join b2.lines "\n")
          = strings.ToLower caseTable (strings.Join b.lines "\n") →
        agent.classifyExit caseTable (some b2) exitCode err
          = agent.classifyExit caseTable (some b) exitCode err) ∧
    agent.classifyExit caseTable (some ⟨10, ["Permission denied (publickey)."]⟩) 255
        (some (exec.WaitError.ExitError 255 "exit status 255")) = "auth" ∧
    sshutil.ClassifyExit caseTable (some ⟨10, ["Permission denied (publickey)."]⟩) 255
        (some (exec.WaitError.ExitError 255 "exit status 255")) = "auth" := by
  refine ⟨agent.classifyExit_eq_firstMatch caseTable b exitCode err h,
    sshutil.ClassifyExit_eq_firstMatch caseTable b' exitCode err h, ?_, rfl, rfl⟩
  intro b2 hb
  rw [agent.classifyExit_eq_firstMatch caseTable b2 exitCode err h,
    agent.classifyExit_eq_firstMatch caseTable b exitCode err h]
  simp only [agent.lineBuffer.JoinedLower, hb]

/-- C3, at a buffer where two rules match (the earlier one wins, in upper case) and at a
buffer of the shared copy. -/
theorem C3_classify_first_rule_witness :
    agent.classifyExit id (some ⟨10, ["ssh: connect to host h port 22: Connection refused",
        "PERMISSION DENIED (publickey)."]⟩) 255 (some (exec.WaitError.ExitError 255 "exit status 255")) = "auth" ∧
    sshutil.ClassifyExit id (some ⟨10, ["ssh: Could not resolve hostname h"]⟩) (-1)
        (some (exec.WaitError.Other "signal: killed")) = "dns" :=
  ⟨(C3_classify_first_rule id ⟨10, ["ssh: connect to host h port 22: Connection refused",
        "PERMISSION DENIED (publickey)."]⟩ ⟨10, ["ssh: Could not resolve hostname h"]⟩ 255
        (some (exec.WaitError.ExitError 255 "exit status 255")) (by decide)).1.trans (by decide),
   (C3_classify_first_rule id ⟨10, []⟩ ⟨10, ["ssh: Could not resolve hostname h"]⟩ (-1)
        (some (exec.WaitError.Other "signal: killed")) (by decide)).2.1.trans (by decide)⟩

/-- C4: `classifyExit` (and its copy `sshutil.ClassifyExit`) returns "clean" if and only if
there is no error and the exit code is 0, whatever the buffered stderr lines contain. -/
theorem C4_clean_iff (caseTable : Char → Char) (lines : Option agent.lineBuffer)
    (lines' : Option sshutil.LineBuffer) (exitCode : Int) (err : Option exec.WaitError) :
    (agent.classifyExit caseTable lines exitCode err = "clean" ↔ (err = none ∧ exitCode = 0)) ∧
    (sshutil.ClassifyExit caseTable lines' exitCode err = "clean"
      ↔ (err = none ∧ exitCode = 0)) := by
  constructor
  · constructor
    · intro hc
      by_contra hne
      exact agent.classifyExit_ne_clean caseTable lines exitCode err hne hc
    · intro hc
      simp [agent.classifyExit, hc]
  · constructor
    · intro hc
      by_contra hne
      exact sshutil.ClassifyExit_ne_clean caseTable lines' exitCode err hne hc
    · intro hc
      simp [sshutil.ClassifyExit, hc]

namespace goarith

theorem roundHalfEven_intCast (n : ℤ) : roundHalfEven (n : ℚ) = n := by
  simp [roundHalfEven]

theorem floor_le_roundHalfEven (q : ℚ) : ⌊q⌋ ≤ roundHalfEven q := by
  unfold roundHalfEven
  simp only []
  split_ifs <;> omega

theorem roundHalfEven_le_floor_succ (q : ℚ) : roundHalfEven q ≤ ⌊q⌋ + 1 := by
  unfold roundHalfEven
  simp only []
  split_ifs <;> omega

theorem roundHalfEven_mono {p q : ℚ} (h : p ≤ q) : roundHalfEven p ≤ roundHalfEven q := by
  have hf : ⌊p⌋ ≤ ⌊q⌋ := Int.floor_mono h
  rcases lt_or_eq_of_le hf with hlt | heq
  · calc roundHalfEven p ≤ ⌊p⌋ + 1 := roundHalfEven_le_floor_succ p
      _ ≤ ⌊q⌋ := hlt
      _ ≤ roundHalfEven q := floor_le_roundHalfEven q
  · unfold roundHalfEven
    simp only []
    rw [heq]
    split_ifs <;> first | omega | (exfalso; linarith)

theorem le_roundHalfEven {a : ℤ} {q : ℚ} (h : (a : ℚ) ≤ q) : a ≤ roundHalfEven q := by
  have := roundHalfEven_mono h
  rwa [roundHalfEven_intCast] at this

theorem roundHalfEven_le {a : ℤ} {q : ℚ} (h : q ≤ (a : ℚ)) : roundHalfEven q ≤ a := by
  have := roundHalfEven_mono h
  rwa [roundHalfEven_intCast] at this

theorem two_zpow_pos (k : ℤ) : (0 : ℚ) < 2 ^ k := zpow_pos (by norm_num) k

/-- The scaled magnitude lies in `[2^52, 2^53)`. -/
theorem scaled_bounds {x : ℚ} (hx : 0 < x) :
    (2 : ℚ) ^ (52 : ℤ) ≤ x / 2 ^ (Int.log 2 x - 52) ∧
      x / 2 ^ (Int.log 2 x - 52) < 2 ^ (53 : ℤ) := by
  have h1 : (2 : ℚ) ^ Int.log 2 x ≤ x := by
    have := Int.zpow_log_le_self (b := 2) (by norm_num) hx
    simpa using this
  have h2 : x < (2 : ℚ) ^ (Int.log 2 x + 1) := by
    have := Int.lt_zpow_succ_log_self (b := 2) (by norm_num) x
    simpa using this
  have hk := two_zpow_pos (Int.log 2 x - 52)
  constructor
  · rw [le_div_iff₀ hk, ← zpow_add₀ (by norm_num : (2 : ℚ) ≠ 0)]
    simpa using h1
  · rw [div_lt_iff₀ hk, ← zpow_add₀ (by norm_num : (2 : ℚ) ≠ 0)]
    have : (53 : ℤ) + (Int.log 2 x - 52) = Int.log 2 x + 1 := by ring
    rw [this]
    exact h2

theorem roundMag_bounds {x : ℚ} (hx : 0 < x) :
    (2 : ℚ) ^ Int.log 2 x ≤ roundMag x ∧ roundMag x ≤ 2 ^ (Int.log 2 x + 1) := by
  obtain ⟨h1, h2⟩ := scaled_bounds hx
  have hk := two_zpow_pos (Int.log 2 x - 52)
  have e1 : (2 : ℚ) ^ Int.log 2 x = 2 ^ (52 : ℤ) * 2 ^ (Int.log 2 x - 52) := by
    rw [← zpow_add₀ (by norm_num : (2 : ℚ) ≠ 0)]; congr 1; ring
  have e2 : (2 : ℚ) ^ (Int.log 2 x + 1) = 2 ^ (53 : ℤ) * 2 ^ (Int.log 2 x - 52) := by
    rw [← zpow_add₀ (by norm_num : (2 : ℚ) ≠ 0)]; congr 1; ring
  have c1 : ((2 ^ 52 : ℤ) : ℚ) ≤ x / 2 ^ (Int.log 2 x - 52) := by
    have : ((2 ^ 52 : ℤ) : ℚ) = (2 : ℚ) ^ (52 : ℤ) := by norm_num
    rw [this]; exact h1
  have c2 : x / 2 ^ (Int.log 2 x - 52) ≤ ((2 ^ 53 : ℤ) : ℚ) := by
    have : ((2 ^ 53 : ℤ) : ℚ) = (2 : ℚ) ^ (53 : ℤ) := by norm_num
    rw [this]; exact h2.le
  have r1 := le_roundHalfEven c1
  have r2 := roundHalfEven_le c2
  have r1q : (2 : ℚ) ^ (52 : ℤ) ≤ (roundHalfEven (x / 2 ^ (Int.log 2 x - 52)) : ℚ) := by
    calc (2 : ℚ) ^ (52 : ℤ) = ((2 ^ 52 : ℤ) : ℚ) := by norm_num
      _ ≤ _ := Int.cast_le.mpr r1
  have r2q : (roundHalfEven (x / 2 ^ (Int.log 2 x - 52)) : ℚ) ≤ (2 : ℚ) ^ (53 : ℤ) := by
    calc (roundHalfEven (x / 2 ^ (Int.log 2 x - 52)) : ℚ) ≤ ((2 ^ 53 : ℤ) : ℚ) :=
          Int.cast_le.mpr r2
      _ = (2 : ℚ) ^ (53 : ℤ) := by norm_num
  simp only [roundMag, if_neg hx.ne']
  rw [e1, e2]
  exact ⟨mul_le_mul_of_nonneg_right r1q hk.le, mul_le_mul_of_nonneg_right r2q hk.le⟩

theorem roundMag_nonneg (x : ℚ) (hx : 0 ≤ x) : 0 ≤ roundMag x := by
  rcases hx.eq_or_lt with h | h
  · simp [roundMag, ← h]
  · exact le_trans (two_zpow_pos _).le (roundMag_bounds h).1

theorem roundMag_mono {x y : ℚ} (hx : 0 ≤ x) (h : x ≤ y) : roundMag x ≤ roundMag y := by
  rcases hx.eq_or_lt with h0 | h0
  · rw [← h0]
    simpa [roundMag] using roundMag_nonneg y (le_trans hx h)
  · have hy : 0 < y := lt_of_lt_of_le h0 h
    have hlog : Int.log 2 x ≤ Int.log 2 y := Int.log_mono_right h0 h
    rcases lt_or_eq_of_le hlog with hlt | heq
    · calc roundMag x ≤ 2 ^ (Int.log 2 x + 1) := (roundMag_bounds h0).2
        _ ≤ 2 ^ Int.log 2 y := zpow_le_zpow_right₀ (by norm_num) hlt
        _ ≤ roundMag y := (roundMag_bounds hy).1
    · simp only [roundMag, if_neg h0.ne', if_neg hy.ne', heq]
      have hk := two_zpow_pos (Int.log 2 y - 52)
      apply mul_le_mul_of_nonneg_right _ hk.le
      exact Int.cast_le.mpr (roundHalfEven_mono (div_le_div_of_nonneg_right h hk.le))

theorem round64_mono {x y : ℚ} (h : x ≤ y) : round64 x ≤ round64 y := by
  unfold round64
  by_cases hx : x < 0
  · by_cases hy : y < 0
    · simp only [if_pos hx, if_pos hy]
      exact neg_le_neg (roundMag_mono (by linarith) (by linarith))
    · simp only [if_pos hx, if_neg hy]
      have h1 := roundMag_nonneg (-x) (by linarith)
      have h2 := roundMag_nonneg y (by linarith)
      linarith
  · have hy : ¬ y < 0 := by linarith
    simp only [if_neg hx, if_neg hy]
    exact roundMag_mono (by linarith) h

/-- A magnitude with at most 53 significant bits is not changed by rounding. -/
theorem roundMag_exact (n : ℕ) (j : ℤ) (hn : n < 2 ^ 53) :
    roundMag ((n : ℚ) * 2 ^ j) = (n : ℚ) * 2 ^ j := by
  rcases Nat.eq_zero_or_pos n with h0 | hpos
  · simp [roundMag, h0]
  have hj := two_zpow_pos j
  have hx : (0 : ℚ) < (n : ℚ) * 2 ^ j := mul_pos (by exact_mod_cast hpos) hj
  set x : ℚ := (n : ℚ) * 2 ^ j with hxdef
  have h1 : (2 : ℚ) ^ Int.log 2 x ≤ x := by
    have := Int.zpow_log_le_self (b := 2) (by norm_num) hx
    simpa using this
  have hlt : x < (2 : ℚ) ^ (53 + j) := by
    rw [zpow_add₀ (by norm_num : (2 : ℚ) ≠ 0)]
    apply mul_lt_mul_of_pos_right _ hj
    calc ((n : ℕ) : ℚ) < ((2 ^ 53 : ℕ) : ℚ) := by exact_mod_cast hn
      _ = (2 : ℚ) ^ (53 : ℤ) := by norm_num
  have he : Int.log 2 x < 53 + j := by
    have := lt_of_le_of_lt h1 hlt
    exact (zpow_lt_zpow_iff_right₀ (by norm_num : (1 : ℚ) < 2)).mp this
  have hk : Int.log 2 x - 52 ≤ j := by omega
  obtain ⟨m, hm⟩ := Int.eq_ofNat_of_zero_le (sub_nonneg.mpr hk)
  have hq : x / 2 ^ (Int.log 2 x - 52) = (((n * 2 ^ m : ℕ) : ℤ) : ℚ) := by
    rw [div_eq_iff (two_zpow_pos _).ne']
    have : j = (m : ℤ) + (Int.log 2 x - 52) := by omega
    rw [hxdef]
    conv_lhs => rw [this, zpow_add₀ (by norm_num : (2 : ℚ) ≠ 0)]
    push_cast
    rw [zpow_natCast]
    ring
  simp only [roundMag, if_neg hx.ne']
  rw [hq, roundHalfEven_intCast]
  rw [← hq]
  exact div_mul_cancel₀ _ (two_zpow_pos _).ne'

theorem round64_intCast (c : ℤ) (hc : |c| < 2 ^ 53) : round64 (c : ℚ) = c := by
  unfold round64
  have key : ∀ n : ℕ, n < 2 ^ 53 → roundMag (n : ℚ) = n := by
    intro n hn
    have := roundMag_exact n 0 hn
    simpa using this
  by_cases h : (c : ℚ) < 0
  · have hc0 : c < 0 := by exact_mod_cast h
    rw [if_pos h]
    have e : (-(c : ℚ)) = ((c.natAbs : ℕ) : ℚ) := by
      rw [Nat.cast_natAbs, abs_of_neg hc0]; push_cast; ring
    rw [e, key _ (by have := abs_lt.mp hc; omega)]
    linarith
  · have hc0 : 0 ≤ c := by
      have : (0 : ℚ) ≤ c := by linarith
      exact_mod_cast this
    rw [if_neg h]
    have e : (c : ℚ) = ((c.natAbs : ℕ) : ℚ) := by
      rw [Nat.cast_natAbs, abs_of_nonneg hc0]
    rw [e, key _ (by have := abs_lt.mp hc; omega)]

theorem round64_two_pow_53 : round64 ((2 : ℚ) ^ (53 : ℕ)) = 2 ^ (53 : ℕ) := by
  unfold round64
  rw [if_neg (by norm_num)]
  have := roundMag_exact 1 53 (by norm_num)
  norm_num at this ⊢
  exact this

end goarith

namespace goarith

theorem log_two_eq {x : ℚ} {e : ℤ} (hx : 0 < x) (h1 : (2 : ℚ) ^ e ≤ x) (h2 : x < 2 ^ (e + 1)) :
    Int.log 2 x = e := by
  have a1 : e ≤ Int.log 2 x := by
    have := (Int.zpow_le_iff_le_log (b := 2) (by norm_num) hx (x := e)).mp (by simpa using h1)
    exact this
  have a2 : Int.log 2 x < e + 1 := by
    have := (Int.lt_zpow_iff_log_lt (b := 2) (by norm_num) hx (x := e + 1)).mp (by simpa using h2)
    exact this
  omega

/-- Evaluation of a rounding that goes down: the scaled magnitude is less than one half above
the integer `f`. -/
theorem roundMag_eval_down {x : ℚ} {e f : ℤ} (hx : 0 < x) (h1 : (2 : ℚ) ^ e ≤ x)
    (h2 : x < 2 ^ (e + 1)) (hf : (f : ℚ) ≤ x / 2 ^ (e - 52))
    (hf2 : x / 2 ^ (e - 52) < f + 1 / 2) : roundMag x = f * 2 ^ (e - 52) := by
  have hlog := log_two_eq hx h1 h2
  simp only [roundMag, if_neg hx.ne', hlog]
  congr 1
  have hfl : ⌊x / 2 ^ (e - 52)⌋ = f := by
    rw [Int.floor_eq_iff]
    constructor
    · exact hf
    · linarith
  unfold roundHalfEven
  simp only [hfl]
  rw [if_pos (by linarith)]

theorem truncate_intCast (c : ℤ) : truncate (c : ℚ) = c := by
  unfold truncate
  split_ifs <;> simp

theorem truncate_mono {x y : ℚ} (h : x ≤ y) : truncate x ≤ truncate y := by
  unfold truncate
  split_ifs with hx hy hy
  · exact Int.floor_mono h
  · exact absurd (le_trans hx h) hy
  · calc ⌈x⌉ ≤ 0 := by
          have : x ≤ ((0 : ℤ) : ℚ) := by push_cast; linarith
          exact Int.ceil_le.mpr this
      _ ≤ ⌊y⌋ := Int.floor_nonneg.mpr hy
  · exact Int.ceil_mono h

theorem toInt64_of_range (ovf : Int) (x : ℚ) (lo hi : ℤ) (h1 : (lo : ℚ) ≤ x) (h2 : x ≤ hi)
    (hlo : - 2 ^ 63 ≤ lo) (hhi : hi < 2 ^ 63) :
    toInt64 ovf x = truncate x ∧ lo ≤ truncate x ∧ truncate x ≤ hi := by
  have a := truncate_mono h1
  have b := truncate_mono h2
  rw [truncate_intCast] at a b
  refine ⟨?_, a, b⟩
  unfold toInt64
  simp only []
  rw [if_pos]
  constructor <;> omega

/-- One multiplication step of the backoff in the exact range: the product of a positive
duration `c` and a factor `f ≥ 1` with `c * f < 2^53` converts to a duration between `c` and
`2^53`. -/
theorem mul_step (ovf : Int) (c : ℤ) (f : ℚ) (hc : 0 < c) (hf : 1 ≤ f)
    (hr : (c : ℚ) * f < 2 ^ 53) :
    toInt64 ovf (fmul (ofInt c) f) = truncate (round64 ((c : ℚ) * f)) ∧
    c ≤ truncate (round64 ((c : ℚ) * f)) ∧ truncate (round64 ((c : ℚ) * f)) ≤ 2 ^ 53 := by
  have hcq : (0 : ℚ) < c := by exact_mod_cast hc
  have hcf : (c : ℚ) ≤ c * f := by nlinarith
  have hc53 : |c| < 2 ^ 53 := by
    rw [abs_of_pos hc]
    have : (c : ℚ) < ((2 ^ 53 : ℤ) : ℚ) := by push_cast; linarith
    exact_mod_cast this
  have e1 : ofInt c = c := round64_intCast c hc53
  have lo : (c : ℚ) ≤ round64 ((c : ℚ) * f) := by
    have := round64_mono hcf
    rwa [round64_intCast c hc53] at this
  have hi : round64 ((c : ℚ) * f) ≤ ((2 ^ 53 : ℤ) : ℚ) := by
    have := round64_mono hr.le
    rw [round64_two_pow_53] at this
    push_cast
    exact this
  have := toInt64_of_range ovf (round64 ((c : ℚ) * f)) c (2 ^ 53) lo hi (by omega) (by norm_num)
  simp only [fmul, e1]
  exact this

/-- With an integer factor the product is exact. -/
theorem mul_step_int (ovf : Int) (c : ℤ) (f : ℕ) (hc : 0 ≤ c)
    (hr : c * (f : ℤ) < 2 ^ 53) :
    toInt64 ovf (fmul (ofInt c) (f : ℚ)) = c * f := by
  have hfn : (0 : ℤ) ≤ f := Int.natCast_nonneg f
  have hcf : 0 ≤ c * (f : ℤ) := mul_nonneg hc hfn
  rcases Nat.eq_zero_or_pos f with hf0 | hfpos
  · subst hf0
    have z : round64 0 = 0 := by simp [round64, roundMag]
    simp [fmul, z, toInt64, truncate]
  have hc53 : |c| < 2 ^ 53 := by
    rw [abs_of_nonneg hc]
    have : (1 : ℤ) ≤ f := by exact_mod_cast hfpos
    nlinarith
  have hcf53 : |c * (f : ℤ)| < 2 ^ 53 := by rwa [abs_of_nonneg hcf]
  have e1 : ofInt c = c := round64_intCast c hc53
  have e2 : round64 ((c : ℚ) * (f : ℚ)) = ((c * (f : ℤ) : ℤ) : ℚ) := by
    have := round64_intCast (c * (f : ℤ)) hcf53
    push_cast at this ⊢
    exact this
  simp only [fmul, e1, e2, toInt64, truncate_intCast]
  rw [if_pos]
  constructor <;> omega

end goarith

namespace restart

theorem Next_toAgent (ovf : Int) (b : Backoff) (u : ℚ) :
    (b.Next ovf u).1.toAgent = (b.toAgent.Next ovf u).1 ∧
    (b.Next ovf u).2 = (b.toAgent.Next ovf u).2 := by
  unfold Backoff.Next agent.backoff.Next Backoff.toAgent Backoff.jittered agent.backoff.jittered
  simp only []
  split_ifs <;> simp

theorem curTrace_toAgent (ovf : Int) (us : List ℚ) (b : Backoff) :
    b.curTrace ovf us = b.toAgent.curTrace ovf us := by
  induction us generalizing b with
  | nil => rfl
  | cons u us ih =>
    simp only [Backoff.curTrace, agent.backoff.curTrace]
    rw [ih, (Next_toAgent ovf b u).1]
    congr 1
    rw [← (Next_toAgent ovf b u).1]
    rfl

theorem runNext_toAgent (ovf : Int) (us : List ℚ) (b : Backoff) :
    (b.runNext ovf us).2 = (b.toAgent.runNext ovf us).2 := by
  induction us generalizing b with
  | nil => rfl
  | cons u us ih =>
    simp only [Backoff.runNext, agent.backoff.runNext]
    rw [ih, (Next_toAgent ovf b u).1, (Next_toAgent ovf b u).2]

end restart

namespace agent

theorem Next_params (ovf : Int) (b : backoff) (u : ℚ) :
    (b.Next ovf u).1.min = b.min ∧ (b.Next ovf u).1.max = b.max ∧
    (b.Next ovf u).1.factor = b.factor ∧ (b.Next ovf u).1.jitter = b.jitter := by
  unfold backoff.Next
  simp only []
  split_ifs <;> simp

theorem Next_cur_of_zero (ovf : Int) (b : backoff) (u : ℚ) (hmin : 0 < b.min)
    (h0 : b.cur = 0) : (b.Next ovf u).1.cur = b.min := by
  unfold backoff.Next
  simp [not_le.mpr hmin, h0]

theorem Next_cur_of_pos (ovf : Int) (b : backoff) (u : ℚ) (hmin : 0 < b.min)
    (h0 : b.cur ≠ 0) :
    (b.Next ovf u).1.cur =
      if b.max > 0 ∧ goarith.toInt64 ovf (goarith.fmul (goarith.ofInt b.cur) b.factor) > b.max
      then b.max
      else goarith.toInt64 ovf (goarith.fmul (goarith.ofInt b.cur) b.factor) := by
  unfold backoff.Next
  simp only [not_le.mpr hmin, h0, if_false]

theorem Next_delay (ovf : Int) (b : backoff) (u : ℚ) (hmin : 0 < b.min) :
    (b.Next ovf u).2 = (b.Next ovf u).1.jittered ovf u (b.Next ovf u).1.cur := by
  unfold backoff.Next
  simp only [not_le.mpr hmin, if_false]

/-- One `Next` call in the exact range keeps the invariant and does not decrease `cur`. -/
theorem Next_step (ovf : Int) (b : backoff) (u : ℚ) (hmin : 0 < b.min) (hf : 1 ≤ b.factor)
    (hmax : 0 < b.max → b.min ≤ b.max) (hcur : 0 ≤ b.cur) (hcap : 0 < b.max → b.cur ≤ b.max)
    (hr : (b.cur : ℚ) * b.factor < 2 ^ 53) :
    b.cur ≤ (b.Next ovf u).1.cur ∧ 0 < (b.Next ovf u).1.cur ∧
    (0 < b.max → (b.Next ovf u).1.cur ≤ b.max) := by
  by_cases h0 : b.cur = 0
  · rw [Next_cur_of_zero ovf b u hmin h0]
    exact ⟨by rw [h0]; exact hmin.le, hmin, hmax⟩
  · have hpos : 0 < b.cur := lt_of_le_of_ne hcur (Ne.symm h0)
    obtain ⟨e, lo, _⟩ := goarith.mul_step ovf b.cur b.factor hpos hf hr
    rw [Next_cur_of_pos ovf b u hmin h0, e]
    split_ifs with hc
    · exact ⟨hcap hc.1, hc.1, fun _ => le_refl _⟩
    · refine ⟨lo, lt_of_lt_of_le hpos lo, ?_⟩
      intro hm
      by_contra hgt
      exact hc ⟨hm, not_le.mp hgt⟩

theorem curTrace_chain (ovf : Int) (us : List ℚ) (b : backoff) (hmin : 0 < b.min)
    (hf : 1 ≤ b.factor) (hmax : 0 < b.max → b.min ≤ b.max) (hcur : 0 ≤ b.cur)
    (hcap : 0 < b.max → b.cur ≤ b.max) (hr0 : (b.cur : ℚ) * b.factor < 2 ^ 53)
    (hr : ∀ c ∈ b.curTrace ovf us, (c : ℚ) * b.factor < 2 ^ 53) :
    List.Chain (· ≤ ·) b.cur (b.curTrace ovf us) ∧
    (0 < b.max → ∀ c ∈ b.curTrace ovf us, c ≤ b.max) := by
  induction us generalizing b with
  | nil => simp [backoff.curTrace]
  | cons u us ih =>
    obtain ⟨p1, p2, p3, _⟩ := Next_params ovf b u
    obtain ⟨s1, s2, s3⟩ := Next_step ovf b u hmin hf hmax hcur hcap hr0
    simp only [backoff.curTrace, List.mem_cons, forall_eq_or_imp] at hr ⊢
    have := ih (b.Next ovf u).1 (by rw [p1]; exact hmin) (by rw [p3]; exact hf)
      (by rw [p1, p2]; exact hmax) s2.le (by rw [p2]; exact s3) (by rw [p3]; exact hr.1)
      (by rw [p3]; exact hr.2)
    rw [p2] at this
    exact ⟨List.Chain.cons s1 this.1, fun hm => ⟨s3 hm, this.2 hm⟩⟩

end agent

namespace agent

theorem jittered_of_nonpos (ovf : Int) (b : backoff) (u : ℚ) (d : time.Duration)
    (hj : b.jitter ≤ 0) : b.jittered ovf u d = d := by
  simp [backoff.jittered, hj]

theorem runNext_delays_eq_curTrace (ovf : Int) (us : List ℚ) (b : backoff) (hmin : 0 < b.min)
    (hj : b.jitter ≤ 0) : (b.runNext ovf us).2 = b.curTrace ovf us := by
  induction us generalizing b with
  | nil => rfl
  | cons u us ih =>
    obtain ⟨p1, _, _, p4⟩ := Next_params ovf b u
    simp only [backoff.runNext, backoff.curTrace]
    rw [ih _ (by rw [p1]; exact hmin) (by rw [p4]; exact hj), Next_delay ovf b u hmin,
      jittered_of_nonpos ovf _ u _ (by rw [p4]; exact hj)]

theorem Next_cur_int (ovf : Int) (b : backoff) (u : ℚ) (f : ℕ) (hfac : b.factor = (f : ℚ))
    (hmin : 0 < b.min) (hpos : 0 < b.cur) (hmax : 0 < b.max)
    (hr : b.cur * (f : ℤ) < 2 ^ 53) :
    (b.Next ovf u).1.cur = min (b.cur * (f : ℤ)) b.max := by
  rw [Next_cur_of_pos ovf b u hmin (ne_of_gt hpos), hfac,
    goarith.mul_step_int ovf b.cur f hpos.le hr]
  by_cases h : b.cur * (f : ℤ) > b.max
  · rw [if_pos ⟨hmax, h⟩, min_eq_right (le_of_lt h)]
  · rw [if_neg (fun hc => h hc.2), min_eq_left (not_lt.mp h)]

theorem min_mul_min (a M : ℤ) (f : ℕ) (hM : 0 ≤ M) (hf : 1 ≤ f) :
    min (min a M * (f : ℤ)) M = min (a * (f : ℤ)) M := by
  have hf1 : (1 : ℤ) ≤ f := by exact_mod_cast hf
  rcases le_total a M with h | h
  · rw [min_eq_left h]
  · rw [min_eq_right h]
    have h1 : M ≤ M * (f : ℤ) := by nlinarith
    have h2 : M ≤ a * (f : ℤ) := by nlinarith
    rw [min_eq_right h1, min_eq_right h2]

theorem curTrace_int (ovf : Int) (f : ℕ) (hf : 1 ≤ f) (m : ℤ) (hm : 0 < m) (us : List ℚ)
    (b : backoff) (j : ℕ) (hfac : b.factor = (f : ℚ)) (hmin : 0 < b.min) (hmax : 0 < b.max)
    (hr : b.max * (f : ℤ) < 2 ^ 53) (hcur : b.cur = min (m * (f : ℤ) ^ j) b.max) :
    b.curTrace ovf us =
      (List.range us.length).map (fun i => min (m * (f : ℤ) ^ (j + 1 + i)) b.max) := by
  induction us generalizing b j with
  | nil => rfl
  | cons u us ih =>
    obtain ⟨p1, p2, p3, _⟩ := Next_params ovf b u
    have hf1 : (1 : ℤ) ≤ f := by exact_mod_cast hf
    have hfpos : (0 : ℤ) < f := by linarith
    have hpow : 0 < m * (f : ℤ) ^ j := mul_pos hm (pow_pos hfpos j)
    have hpos : 0 < b.cur := by rw [hcur]; exact lt_min hpow hmax
    have hle : b.cur ≤ b.max := by rw [hcur]; exact min_le_right _ _
    have hr1 : b.cur * (f : ℤ) < 2 ^ 53 :=
      lt_of_le_of_lt (mul_le_mul_of_nonneg_right hle hfpos.le) hr
    have hn : (b.Next ovf u).1.cur = min (m * (f : ℤ) ^ (j + 1)) b.max := by
      rw [Next_cur_int ovf b u f hfac hmin hpos hmax hr1, hcur, min_mul_min _ _ f hmax.le hf]
      congr 1
      ring
    have := ih (b.Next ovf u).1 (j + 1) (by rw [p3]; exact hfac) (by rw [p1]; exact hmin)
      (by rw [p2]; exact hmax) (by rw [p2]; exact hr) (by rw [p2]; exact hn)
    simp only [backoff.curTrace, List.length_cons, List.range_succ_eq_map, List.map_cons,
      List.map_map]
    rw [this, hn, p2]
    congr 1
    apply List.map_congr_left
    intro i _
    simp only [Function.comp, Nat.succ_eq_add_one]
    congr 2
    ring

theorem curTrace_int_fresh (ovf : Int) (f : ℕ) (hf : 1 ≤ f) (us : List ℚ) (b : backoff)
    (hfac : b.factor = (f : ℚ)) (hmin : 0 < b.min) (hmm : b.min ≤ b.max)
    (hr : b.max * (f : ℤ) < 2 ^ 53) (hcur : b.cur = 0) :
    b.curTrace ovf us =
      (List.range us.length).map (fun i => min (b.min * (f : ℤ) ^ i) b.max) := by
  cases us with
  | nil => rfl
  | cons u us =>
    obtain ⟨p1, p2, p3, _⟩ := Next_params ovf b u
    have hmax : 0 < b.max := lt_of_lt_of_le hmin hmm
    have hn : (b.Next ovf u).1.cur = b.min := Next_cur_of_zero ovf b u hmin hcur
    have := curTrace_int ovf f hf b.min hmin us (b.Next ovf u).1 0 (by rw [p3]; exact hfac)
      (by rw [p1]; exact hmin) (by rw [p2]; exact hmax) (by rw [p2]; exact hr)
      (by rw [hn, p2, pow_zero, mul_one, min_eq_left hmm])
    simp only [backoff.curTrace, List.length_cons, List.range_succ_eq_map, List.map_cons,
      List.map_map]
    rw [this, hn, p2, pow_zero, mul_one, min_eq_left hmm]
    congr 1
    apply List.map_congr_left
    intro i _
    simp only [Function.comp, Nat.succ_eq_add_one]
    congr 2
    ring

end agent

namespace goarith

/-- The duration 2000000000001 ms in nanoseconds is not a float64: it rounds down by 64. -/
theorem round64_inexact :
    round64 (2000000000001000000 : ℚ) = 2000000000000999936 := by
  unfold round64
  rw [if_neg (by norm_num)]
  have := roundMag_eval_down (x := 2000000000001000000) (e := 60) (f := 7812500000003906)
    (by norm_num) (by norm_num) (by norm_num) (by norm_num) (by norm_num)
  rw [this]
  norm_num

theorem round64_rounded :
    round64 (2000000000000999936 : ℚ) = 2000000000000999936 := by
  unfold round64
  rw [if_neg (by norm_num)]
  have := roundMag_exact 7812500000003906 8 (by norm_num)
  norm_num at this
  exact this

theorem mul_one_inexact (ovf : Int) :
    toInt64 ovf (fmul (ofInt 2000000000001000000) 1) = 2000000000000999936 := by
  have e1 : ofInt 2000000000001000000 = 2000000000000999936 := by
    unfold ofInt
    push_cast
    exact round64_inexact
  have e2 : fmul 2000000000000999936 1 = ((2000000000000999936 : ℤ) : ℚ) := by
    unfold fmul
    rw [mul_one, round64_rounded]
    norm_num
  rw [e1, e2]
  unfold toInt64
  simp only [truncate_intCast]
  rw [if_pos (by norm_num)]

end goarith

namespace agent

theorem Next_eq (ovf : Int) (b : backoff) (u : ℚ) :
    (b.Next ovf u).1 = { b with cur := (b.Next ovf u).1.cur } := by
  unfold backoff.Next
  simp only []
  split_ifs <;> rfl

theorem newBackoff_long : newBackoff Examples.longRestartConfig = Examples.longBackoff := by
  simp [newBackoff, Examples.longRestartConfig, Examples.longBackoff, goarith.wrapInt64,
    time.Millisecond]

/-- Two `Next` calls on the backoff built from `min_delay_ms = max_delay_ms = 2000000000001`,
`factor = 1`, `jitter = 0`: the second call lowers `cur` by 64 ns. -/
theorem curTrace_inexact (ovf : Int) :
    backoff.curTrace ovf Examples.longBackoff [0, 0]
      = [2000000000001000000, 2000000000000999936] := by
  have h1 : (backoff.Next ovf Examples.longBackoff 0).1
      = { Examples.longBackoff with cur := 2000000000001000000 } := by
    rw [Next_eq, Next_cur_of_zero _ _ _ (by decide) rfl]
    rfl
  have h2 : (backoff.Next ovf { Examples.longBackoff with cur := 2000000000001000000 } 0).1.cur
      = 2000000000000999936 := by
    rw [Next_cur_of_pos _ _ _ (by decide) (by decide)]
    simp only [Examples.longBackoff, goarith.mul_one_inexact]
    rw [if_neg (by decide)]
  simp only [backoff.curTrace, h1, h2]

end agent

/-- C7 fails as stated: the backoff built from `min_delay_ms = max_delay_ms = 2000000000001`
and `factor = 1` satisfies the bounds of the data model, and its second `Next` lowers `cur`
from 2000000000001000000 ns to 2000000000000999936 ns (`float64(cur)` rounds down by 64). -/
theorem C7_counterexample :
    agent.newBackoff Examples.longRestartConfig = Examples.longBackoff ∧
    (0 < Examples.longBackoff.min ∧ 1 ≤ Examples.longBackoff.factor ∧
      (0 < Examples.longBackoff.max → Examples.longBackoff.min ≤ Examples.longBackoff.max) ∧
      Examples.longBackoff.cur = 0) ∧
    agent.backoff.curTrace (-9223372036854775808) Examples.longBackoff [0, 0]
      = [2000000000001000000, 2000000000000999936] ∧
    ¬ List.Chain' (· ≤ ·)
      (agent.backoff.curTrace (-9223372036854775808) Examples.longBackoff [0, 0]) := by
  refine ⟨agent.newBackoff_long, ⟨by decide, by norm_num [Examples.longBackoff],
    fun _ => by decide, rfl⟩, agent.curTrace_inexact _, ?_⟩
  rw [agent.curTrace_inexact]
  intro h
  have h2 := List.chain'_pair.mp h
  exact absurd h2 (by decide)

/-- C7 (amended): for every backoff with `min > 0`, `factor ≥ 1` and `min ≤ max` when
`max > 0`, and every sequence of `Next` calls without `Reset` on a fresh or reset backoff
during which `cur × factor` stays below `2^53` ns, the pre-jitter value `cur` after each call is
greater than or equal to `cur` after the previous call, and when `max > 0` it never exceeds
`max`; the same holds for the shared copy `restart.Backoff`. -/
theorem C7_backoff_monotone (ovf : Int) (b : agent.backoff) (us : List ℚ)
    (hmin : 0 < b.min) (hf : 1 ≤ b.factor) (hmax : 0 < b.max → b.min ≤ b.max)
    (hfresh : b.cur = 0)
    (hr : ∀ c ∈ b.curTrace ovf us, (c : ℚ) * b.factor < 2 ^ 53) :
    (List.Chain' (· ≤ ·) (b.curTrace ovf us) ∧
      (0 < b.max → ∀ c ∈ b.curTrace ovf us, c ≤ b.max)) ∧
    (∀ B : restart.Backoff, B.toAgent = b →
      List.Chain' (· ≤ ·) (B.curTrace ovf us) ∧
      (0 < B.max → ∀ c ∈ B.curTrace ovf us, c ≤ B.max)) := by
  have key := agent.curTrace_chain ovf us b hmin hf hmax (by rw [hfresh])
    (fun _ => by rw [hfresh]; exact le_trans hmin.le (hmax ‹_›))
    (by rw [hfresh]; norm_num) hr
  have hc : List.Chain' (· ≤ ·) (b.curTrace ovf us) :=
    List.Chain'.tail (show List.Chain' (· ≤ ·) (b.cur :: b.curTrace ovf us) from key.1)
  refine ⟨⟨hc, key.2⟩, ?_⟩
  intro B hB
  rw [restart.curTrace_toAgent, hB]
  have hm : B.max = b.max := by rw [← hB]; rfl
  rw [hm]
  exact ⟨hc, key.2⟩

/-- C7 (amended), at five `Next` calls of the backoff of scenario S4. -/
theorem C7_backoff_monotone_witness :
    List.Chain' (· ≤ ·)
        (agent.backoff.curTrace (-9223372036854775808) Examples.s4Backoff [0, 0, 0, 0, 0]) ∧
    (0 < Examples.s4Backoff.max →
      ∀ c ∈ agent.backoff.curTrace (-9223372036854775808) Examples.s4Backoff [0, 0, 0, 0, 0],
        c ≤ Examples.s4Backoff.max) :=
  (C7_backoff_monotone (-9223372036854775808) Examples.s4Backoff [0, 0, 0, 0, 0]
    (by decide) (by norm_num [Examples.s4Backoff]) (fun _ => by decide) rfl
    (by
      rw [agent.curTrace_int_fresh _ 2 (by decide) _ _ (by norm_num [Examples.s4Backoff])
        (by decide) (by decide) (by decide) rfl]
      intro c hc
      simp only [Examples.s4Backoff, List.length_cons, List.length_nil, List.range,
        List.range.loop, List.map, List.mem_cons, List.mem_singleton] at hc
      rcases hc with h | h | h | h | h | h
      all_goals first | (subst h; norm_num [Examples.s4Backoff]) | simp at h)).1

/-- C9 fails as stated: with jitter 0, factor 1 and `min = max = 2000000000001` ms the second
`Next` returns 2000000000000999936 ns and not `min(min × 1, max)`. -/
theorem C9_counterexample :
    (Examples.longBackoff.jitter = 0 ∧ Examples.longBackoff.factor = ((1 : ℕ) : ℚ) ∧
      0 < Examples.longBackoff.min ∧ Examples.longBackoff.min ≤ Examples.longBackoff.max ∧
      Examples.longBackoff.cur = 0) ∧
    (agent.backoff.runNext (-9223372036854775808) Examples.longBackoff [0, 0]).2
      = [2000000000001000000, 2000000000000999936] ∧
    (agent.backoff.runNext (-9223372036854775808) Examples.longBackoff [0, 0]).2
      ≠ (List.range 2).map
          (fun i => min (Examples.longBackoff.min * ((1 : ℕ) : ℤ) ^ i) Examples.longBackoff.max) := by
  have h := agent.runNext_delays_eq_curTrace (-9223372036854775808) [0, 0] Examples.longBackoff
    (by decide) (by norm_num [Examples.longBackoff])
  rw [agent.curTrace_inexact] at h
  refine ⟨⟨rfl, by norm_num [Examples.longBackoff], by decide, by decide, rfl⟩, h, ?_⟩
  rw [h]
  decide

/-- C9 (amended): with jitter 0, an integer factor `f ≥ 1`, `0 < min ≤ max` and
`max × f < 2^53` ns, the k-th `Next` call on a fresh backoff returns
`min(min × f^(k-1), max)` for every `k ≥ 1` (the list of returned delays is the list of these
values); the same holds for the shared copy `restart.Backoff`. -/
theorem C9_backoff_geometric (ovf : Int) (b : agent.backoff) (f : ℕ) (us : List ℚ)
    (hj : b.jitter = 0) (hfac : b.factor = (f : ℚ)) (hf : 1 ≤ f) (hmin : 0 < b.min)
    (hmm : b.min ≤ b.max) (hr : b.max * (f : ℤ) < 2 ^ 53) (hfresh : b.cur = 0) :
    (b.runNext ovf us).2
      = (List.range us.length).map (fun i => min (b.min * (f : ℤ) ^ i) b.max) ∧
    (∀ B : restart.Backoff, B.toAgent = b →
      (B.runNext ovf us).2
        = (List.range us.length).map (fun i => min (B.min * (f : ℤ) ^ i) B.max)) := by
  have key : (b.runNext ovf us).2
      = (List.range us.length).map (fun i => min (b.min * (f : ℤ) ^ i) b.max) := by
    rw [agent.runNext_delays_eq_curTrace ovf us b hmin (le_of_eq hj)]
    exact agent.curTrace_int_fresh ovf f hf us b hfac hmin hmm hr hfresh
  refine ⟨key, ?_⟩
  intro B hB
  rw [restart.runNext_toAgent, hB, key]
  have h1 : B.min = b.min := by rw [← hB]; rfl
  have h2 : B.max = b.max := by rw [← hB]; rfl
  rw [h1, h2]

/-- C9 (amended), at scenario S4: the delays are 100, 200, 400, 400, 400 ms. -/
theorem C9_backoff_geometric_witness :
    (agent.backoff.runNext (-9223372036854775808) Examples.s4Backoff [0, 0, 0, 0, 0]).2
      = [100000000, 200000000, 400000000, 400000000, 400000000] :=
  (C9_backoff_geometric (-9223372036854775808) Examples.s4Backoff 2 [0, 0, 0, 0, 0] rfl
    (by norm_num [Examples.s4Backoff]) (by decide) (by decide) (by decide) (by decide) rfl).1.trans
    (by decide)

namespace agent

theorem shouldRestart_terminal (a : Agent) (exitCode : Int) (err : Option exec.WaitError)
    (cls : String) (h : cls = "auth" ∨ cls = "hostkey") :
    a.shouldRestart exitCode err cls = false := by
  simp [Agent.shouldRestart, h]

end agent

/-- C5: in the wait phase, for every restart policy, exit code and error, when the exit of the
child is classified `auth` or `hostkey` the loop returns without incrementing
`restart_count`, without resetting or advancing the backoff, and without another spawn. -/
theorem C5_terminal_classes_halt (caseTable : Char → Char) (ovf : Int) (a : agent.Agent)
    (err : Option exec.WaitError) (u : ℚ) (stopWins exitedInTime : Bool)
    (h : agent.classifyExit caseTable a.errLines (agent.exitCodeOf err) err = "auth" ∨
         agent.classifyExit caseTable a.errLines (agent.exitCodeOf err) err = "hostkey") :
    let r := a.waitPhase caseTable ovf err u stopWins exitedInTime
    r.2 = agent.LoopStep.ret none ∧
    r.1.restartCount = a.restartCount ∧
    r.1.backoff = a.backoff ∧
    r.1.trace.filter (fun x => x = agent.Action.backoffReset ∨ x = agent.Action.backoffNext)
      = a.trace.filter (fun x => x = agent.Action.backoffReset ∨ x = agent.Action.backoffNext) ∧
    r.1.lastClass = agent.classifyExit caseTable a.errLines (agent.exitCodeOf err) err := by
  intro r
  have hs : ∀ b : agent.Agent, b.shouldRestart (agent.exitCodeOf err) err
      (agent.classifyExit caseTable a.errLines (agent.exitCodeOf err) err) = false :=
    fun b => agent.shouldRestart_terminal b _ _ _ h
  simp only [r, agent.Agent.waitPhase, agent.Agent.recordExitFailure,
    agent.Agent.recordExitSuccess, agent.Agent.setLastClass, agent.Agent.recordExit,
    agent.Agent.act]
  by_cases he : err = none
  · simp [he, hs, agent.shouldRestart_terminal _ _ _ _ (he ▸ h)]
  · by_cases hsum : agent.stderrSummary a.errLines = ""
    · simp [he, hs, hsum]
    · simp [he, hs, hsum]

/-- C5, at scenario S2: stderr "Permission denied (publickey)." and exit code 255. -/
theorem C5_terminal_classes_halt_witness :
    ((Examples.connectedAgent 2000 ["Permission denied (publickey)."]).waitPhase id
        (-9223372036854775808) (some (exec.WaitError.ExitError 255 "exit status 255")) 0
        false true).2 = agent.LoopStep.ret none ∧
    ((Examples.connectedAgent 2000 ["Permission denied (publickey)."]).waitPhase id
        (-9223372036854775808) (some (exec.WaitError.ExitError 255 "exit status 255")) 0
        false true).1.restartCount = 0 :=
  ⟨(C5_terminal_classes_halt id (-9223372036854775808)
      (Examples.connectedAgent 2000 ["Permission denied (publickey)."])
      (some (exec.WaitError.ExitError 255 "exit status 255")) 0 false true
      (Or.inl (by decide))).1,
   (C5_terminal_classes_halt id (-9223372036854775808)
      (Examples.connectedAgent 2000 ["Permission denied (publickey)."])
      (some (exec.WaitError.ExitError 255 "exit status 255")) 0 false true
      (Or.inl (by decide))).2.1⟩

/-- C6: for every child exit whose class is neither `auth` nor `hostkey`, `shouldRestart`
returns true under policy always for every exit code and error, and under policy on-failure
it returns true if and only if there was an error or the exit code is not 0; the policy
strings "always" and "on-failure" parse to these two policies. -/
theorem C6_should_restart (caseTable : Char → Char) (a : agent.Agent) (exitCode : Int)
    (err : Option exec.WaitError) (cls : String) (h1 : cls ≠ "auth") (h2 : cls ≠ "hostkey") :
    (a.policy = agent.restartPolicy.restartAlways →
      a.shouldRestart exitCode err cls = true) ∧
    (a.policy = agent.restartPolicy.restartOnFailure →
      (a.shouldRestart exitCode err cls = true ↔ (err ≠ none ∨ exitCode ≠ 0))) ∧
    agent.parseRestartPolicy caseTable "always" = agent.restartPolicy.restartAlways ∧
    agent.parseRestartPolicy caseTable "on-failure" = agent.restartPolicy.restartOnFailure := by
  refine ⟨?_, ?_, rfl, rfl⟩
  · intro hp
    simp [agent.Agent.shouldRestart, h1, h2, hp]
  · intro hp
    simp [agent.Agent.shouldRestart, h1, h2, hp]

/-- C6, at a clean exit under both policies. -/
theorem C6_should_restart_witness :
    (Examples.connectedAgent 2000 []).shouldRestart 0 none "clean" = true ∧
    (({ Examples.connectedAgent 2000 [] with
          policy := agent.restartPolicy.restartOnFailure } : agent.Agent).shouldRestart
        0 none "clean" = true ↔ ((none : Option exec.WaitError) ≠ none ∨ (0 : Int) ≠ 0)) :=
  ⟨(C6_should_restart id (Examples.connectedAgent 2000 []) 0 none "clean"
      (by decide) (by decide)).1 rfl,
   (C6_should_restart id { Examples.connectedAgent 2000 [] with
      policy := agent.restartPolicy.restartOnFailure } 0 none "clean"
      (by decide) (by decide)).2.1 rfl⟩

namespace goarith

theorem wrapInt64_of_range (x : Int) (h1 : - 2 ^ 63 ≤ x) (h2 : x < 2 ^ 63) :
    wrapInt64 x = x := by
  unfold wrapInt64
  omega

end goarith

namespace agent

theorem allowTrigger_skip (a : Agent) (window : time.Duration) (now : time.Time)
    (hw : 0 < window) (h0 : a.lastTrigger ≠ 0) (hlt : now - a.lastTrigger < window) :
    a.allowTrigger window now = (a, false) := by
  have hs : time.Time.Sub now a.lastTrigger < window := by
    unfold time.Time.Sub
    simp only []
    split_ifs with c1 c2
    · exact lt_trans (by norm_num) hw
    · exact lt_of_lt_of_le (by linarith) hlt.le
    · exact hlt
  simp [Agent.allowTrigger, not_le.mpr hw, time.Time.IsZero, h0, hs]

theorem allowTrigger_accept (a : Agent) (window : time.Duration) (now : time.Time)
    (hw : 0 < window) (h : a.lastTrigger = 0 ∨ window ≤ time.Time.Sub now a.lastTrigger) :
    a.allowTrigger window now = ({ a with lastTrigger := now }, true) := by
  unfold Agent.allowTrigger
  rw [if_neg (not_le.mpr hw), if_neg]
  rintro ⟨c1, c2⟩
  rcases h with h | h
  · simp [time.Time.IsZero, h] at c1
  · exact absurd c2 (not_lt.mpr h)

/-- A trigger inside the debounce window is skipped. -/
theorem fire_skip (a : Agent) (l : logging.Logger) (t : Trigger) (now : time.Time)
    (hconn : a.State = state.StateConnected) (hlog : a.logger = some l)
    (hw : 0 < a.debounceWindow) (h0 : a.lastTrigger ≠ 0)
    (hlt : now - a.lastTrigger < a.debounceWindow) :
    (a.fire l t now).trace = a.trace ++ [skippedEvent t] ∧
    (a.fire l t now).lastTrigger = a.lastTrigger ∧
    (a.fire l t now).State = a.State ∧
    (a.fire l t now).logger = a.logger ∧
    (a.fire l t now).cfg = a.cfg ∧
    (a.fire l t now).cmd = a.cmd := by
  have hconn' : a.sm.state = state.StateConnected := hconn
  cases t with
  | monitor reason =>
    have h := allowTrigger_skip (a.setLastTriggerReason reason)
      (a.setLastTriggerReason reason).debounceWindow now hw h0 hlt
    have hc : (a.setLastTriggerReason reason).State = a.State := rfl
    simp only [Agent.fire, Agent.triggerRestart, Agent.requestRestart, h, hconn, ne_eq,
      not_true_eq_false, if_false, Bool.not_false, if_true, reduceCtorEq, not_false_eq_true]
    simp [Agent.act, Agent.setLastTriggerReason, skippedEvent, Trigger.reason, Agent.State,
      hconn', hlog]
  | request reason =>
    have h := allowTrigger_skip (a.setLastTriggerReason reason)
      (a.setLastTriggerReason reason).debounceWindow now hw h0 hlt
    simp only [Agent.fire, Agent.RequestRestart, Agent.requestRestart, h, hconn, hlog, ne_eq,
      not_true_eq_false, if_false, Bool.not_false, if_true, reduceCtorEq, not_false_eq_true]
    simp [Agent.act, Agent.setLastTriggerReason, skippedEvent, Trigger.reason, Agent.State,
      hconn', hlog]
  | periodic =>
    have h := allowTrigger_skip a a.debounceWindow now hw h0 hlt
    simp only [Agent.fire, Agent.periodicTick, h, hconn, ne_eq,
      not_true_eq_false, if_false, Bool.not_false, if_true]
    simp [Agent.act, skippedEvent, Trigger.reason, Agent.State, hconn', hlog]

/-- A trigger that passes the debounce test is accepted. -/
theorem fire_accept (a : Agent) (l : logging.Logger) (t : Trigger) (now : time.Time)
    (hconn : a.State = state.StateConnected) (hlog : a.logger = some l)
    (hw : 0 < a.debounceWindow)
    (h : a.lastTrigger = 0 ∨ a.debounceWindow ≤ time.Time.Sub now a.lastTrigger) :
    (a.fire l t now).trace = a.trace ++ triggeredEvent t ::
      (if a.cmd = some { hasProcess := true } then [Action.signal Signal.SIGTERM] else []) ∧
    (a.fire l t now).lastTrigger = now ∧
    (a.fire l t now).State = a.State ∧
    (a.fire l t now).logger = a.logger ∧
    (a.fire l t now).cfg = a.cfg ∧
    (a.fire l t now).cmd = a.cmd := by
  have hconn' : a.sm.state = state.StateConnected := hconn
  have hcmd : a.cmd = none ∨ a.cmd = some { hasProcess := false } ∨
      a.cmd = some { hasProcess := true } := by
    rcases hc : a.cmd with _ | ⟨_ | _⟩ <;> simp
  cases t with
  | monitor reason =>
    have h := allowTrigger_accept (a.setLastTriggerReason reason)
      (a.setLastTriggerReason reason).debounceWindow now hw h
    simp only [Agent.fire, Agent.triggerRestart, Agent.requestRestart, h, hconn, ne_eq,
      not_true_eq_false, if_false, Bool.not_true, if_true, reduceCtorEq, not_false_eq_true,
      Bool.false_eq_true]
    rcases hcmd with hc | hc | hc <;>
    simp [Agent.act, Agent.setLastTriggerReason, triggeredEvent, Trigger.reason, Agent.State,
      Agent.terminateProcess, hc, hconn', hlog]
  | request reason =>
    have h := allowTrigger_accept (a.setLastTriggerReason reason)
      (a.setLastTriggerReason reason).debounceWindow now hw h
    simp only [Agent.fire, Agent.RequestRestart, Agent.requestRestart, h, hconn, hlog, ne_eq,
      not_true_eq_false, if_false, Bool.not_true, if_true, reduceCtorEq, not_false_eq_true,
      Bool.false_eq_true]
    rcases hcmd with hc | hc | hc <;>
    simp [Agent.act, Agent.setLastTriggerReason, triggeredEvent, Trigger.reason, Agent.State,
      Agent.terminateProcess, hc, hconn', hlog]
  | periodic =>
    have h := allowTrigger_accept a a.debounceWindow now hw h
    simp only [Agent.fire, Agent.periodicTick, h, hconn, ne_eq,
      not_true_eq_false, if_false, Bool.not_true, if_true, Bool.false_eq_true]
    rcases hcmd with hc | hc | hc <;>
    simp [Agent.act, triggeredEvent, Trigger.reason, Agent.State, Agent.terminateProcess,
      Agent.setLastTriggerReason, hc, hconn', hlog]

theorem debounceWindow_congr (a b : Agent) (h : a.cfg = b.cfg) :
    a.debounceWindow = b.debounceWindow := by
  simp [Agent.debounceWindow, h]

/-- A run of triggers that all fall inside the window opened at `a.lastTrigger`. -/
theorem fireAll_skip (l : logging.Logger) (rest : List (Trigger × time.Time)) (a : Agent)
    (hconn : a.State = state.StateConnected) (hlog : a.logger = some l)
    (hw : 0 < a.debounceWindow) (h0 : a.lastTrigger ≠ 0)
    (hlt : ∀ p ∈ rest, p.2 - a.lastTrigger < a.debounceWindow) :
    (a.fireAll l rest).trace = a.trace ++ rest.map (fun p => skippedEvent p.1) ∧
    (a.fireAll l rest).lastTrigger = a.lastTrigger ∧
    (a.fireAll l rest).State = a.State := by
  induction rest generalizing a with
  | nil => simp [Agent.fireAll]
  | cons p rest ih =>
    obtain ⟨t, now⟩ := p
    simp only [List.mem_cons, forall_eq_or_imp] at hlt
    obtain ⟨f1, f2, f3, f4, f5, _⟩ := fire_skip a l t now hconn hlog hw h0 hlt.1
    have hd := debounceWindow_congr _ _ f5
    have := ih (a.fire l t now) (by rw [f3]; exact hconn) (by rw [f4]; exact hlog)
      (by rw [hd]; exact hw) (by rw [f2]; exact h0) (by rw [f2, hd]; exact hlt.2)
    simp only [Agent.fireAll, List.map_cons]
    rw [this.1, this.2.1, this.2.2, f1, f2, f3]
    simp

end agent

namespace agent

theorem isEvent_skipped (t : Trigger) :
    isEvent "restart_triggered" (skippedEvent t) = false ∧
    isEvent "restart_skipped" (skippedEvent t) = true ∧
    isSignal (skippedEvent t) = false := by
  refine ⟨?_, ?_, rfl⟩ <;> simp [isEvent, skippedEvent]

theorem isEvent_triggered (t : Trigger) :
    isEvent "restart_triggered" (triggeredEvent t) = true ∧
    isEvent "restart_skipped" (triggeredEvent t) = false ∧
    isSignal (triggeredEvent t) = false := by
  refine ⟨?_, ?_, rfl⟩ <;> simp [isEvent, triggeredEvent]

theorem isEvent_signal (name : String) (sig : Signal) :
    isEvent name (Action.signal sig) = false := rfl

theorem countP_skipped (rest : List (Trigger × time.Time)) :
    (rest.map (fun p => skippedEvent p.1)).countP (isEvent "restart_triggered") = 0 ∧
    (rest.map (fun p => skippedEvent p.1)).countP (isEvent "restart_skipped") = rest.length ∧
    (rest.map (fun p => skippedEvent p.1)).countP isSignal = 0 := by
  induction rest with
  | nil => simp
  | cons p rest ih =>
    obtain ⟨h1, h2, h3⟩ := isEvent_skipped p.1
    simp only [List.map_cons, List.countP_cons, h1, h2, h3, ih.1, ih.2.1, ih.2.2,
      List.length_cons]
    simp

end agent

/-- C10 fails as stated: with `debounce_ms = 18446744073710` the window
`time.Duration(debounce_ms) * time.Millisecond` wraps around to 448384 ns, the first trigger
is accepted and sets `last_trigger_at`, and a second trigger 1 ms later is accepted too. -/
theorem C10_counterexample :
    0 < (Examples.connectedAgent 18446744073710 []).cfg.Agent.Restart.DebounceMs ∧
    (Examples.connectedAgent 18446744073710 []).State = state.StateConnected ∧
    (Examples.connectedAgent 18446744073710 []).debounceWindow = 448384 ∧
    ((Examples.connectedAgent 18446744073710 []).fire Examples.sampleLogger
        (agent.Trigger.monitor "sleep") 1700000000000000000).lastTrigger
      = 1700000000000000000 ∧
    (1700000000001000000 - 1700000000000000000 : Int)
      < (Examples.connectedAgent 18446744073710 []).cfg.Agent.Restart.DebounceMs * 1000000 ∧
    ((Examples.connectedAgent 18446744073710 []).fireAll Examples.sampleLogger
        [(agent.Trigger.monitor "sleep", 1700000000000000000),
         (agent.Trigger.monitor "wake", 1700000000001000000)]).lastTrigger
      = 1700000000001000000 ∧
    ((Examples.connectedAgent 18446744073710 []).fireAll Examples.sampleLogger
        [(agent.Trigger.monitor "sleep", 1700000000000000000),
         (agent.Trigger.monitor "wake", 1700000000001000000)]).trace
      = [agent.triggeredEvent (agent.Trigger.monitor "sleep"),
         agent.Action.signal agent.Signal.SIGTERM,
         agent.triggeredEvent (agent.Trigger.monitor "wake"),
         agent.Action.signal agent.Signal.SIGTERM] := by
  refine ⟨by decide, by decide, by decide, by decide, by decide, by decide, by decide⟩

/-- C10 (amended): with `debounce_ms = w`, `0 < w` and `w` milliseconds representable as a
`Duration` (`w × 10^6 < 2^63`), and the FSM in CONNECTED throughout: if a restart trigger
passes the debounce test at the instant `t1` (it logs `restart_triggered`, signals the child
and `last_trigger_at` becomes `t1`), then every further trigger at an instant `t2` with
`t2 - t1 < w` ms is skipped (`restart_skipped` with detail "debounced", no signal) and leaves
`last_trigger_at` at `t1`; the burst yields exactly one `restart_triggered`. -/
theorem C10_debounce (a : agent.Agent) (l : logging.Logger) (first : agent.Trigger)
    (t1 : time.Time) (rest : List (agent.Trigger × time.Time))
    (hconn : a.State = state.StateConnected) (hlog : a.logger = some l)
    (hw : 0 < a.cfg.Agent.Restart.DebounceMs)
    (hwmax : a.cfg.Agent.Restart.DebounceMs * 1000000 < 2 ^ 63)
    (ht1 : t1 ≠ 0)
    (hacc : a.lastTrigger = 0 ∨
      a.cfg.Agent.Restart.DebounceMs * 1000000 ≤ time.Time.Sub t1 a.lastTrigger)
    (hrest : ∀ p ∈ rest, p.2 - t1 < a.cfg.Agent.Restart.DebounceMs * 1000000) :
    let a1 := a.fire l first t1
    let a2 := a1.fireAll l rest
    a1.lastTrigger = t1 ∧
    a1.trace = a.trace ++ agent.triggeredEvent first ::
      (if a.cmd = some { hasProcess := true } then [agent.Action.signal agent.Signal.SIGTERM]
       else []) ∧
    a2.lastTrigger = t1 ∧
    a2.trace = a1.trace ++ rest.map (fun p => agent.skippedEvent p.1) ∧
    (a2.trace.drop a.trace.length).countP (agent.isEvent "restart_triggered") = 1 ∧
    (a2.trace.drop a.trace.length).countP (agent.isEvent "restart_skipped") = rest.length ∧
    (a2.trace.drop a1.trace.length).countP agent.isSignal = 0 := by
  intro a1 a2
  have hwin : a.debounceWindow = a.cfg.Agent.Restart.DebounceMs * 1000000 := by
    unfold agent.Agent.debounceWindow time.Millisecond
    exact goarith.wrapInt64_of_range _ (by linarith) hwmax
  have hwpos : 0 < a.debounceWindow := by rw [hwin]; linarith
  obtain ⟨f1, f2, f3, f4, f5, _⟩ := agent.fire_accept a l first t1 hconn hlog hwpos
    (by rw [hwin]; exact hacc)
  have hd : a1.debounceWindow = a.debounceWindow := agent.debounceWindow_congr _ _ f5
  obtain ⟨g1, g2, _⟩ := agent.fireAll_skip l rest a1 (by rw [f3]; exact hconn)
    (by rw [f4]; exact hlog) (by rw [hd]; exact hwpos) (by rw [f2]; exact ht1)
    (by rw [f2, hd, hwin]; exact hrest)
  obtain ⟨c1, c2, c3⟩ := agent.countP_skipped rest
  obtain ⟨e1, e2, _⟩ := agent.isEvent_triggered first
  refine ⟨f2, f1, by rw [g2, f2], g1, ?_, ?_, ?_⟩
  · show (a2.trace.drop a.trace.length).countP _ = 1
    rw [g1, f1, List.append_assoc, List.drop_left]
    split_ifs <;>
      simp [List.countP_cons, List.countP_append, c1, e1, agent.isEvent_signal]
  · show (a2.trace.drop a.trace.length).countP _ = rest.length
    rw [g1, f1, List.append_assoc, List.drop_left]
    split_ifs <;>
      simp [List.countP_cons, List.countP_append, c2, e2, agent.isEvent_signal]
  · show (a2.trace.drop a1.trace.length).countP _ = 0
    rw [g1, List.drop_left]
    exact c3

/-- C10 (amended), at scenario S3: `sleep`, `wake`, `network change` within 200 ms with
`debounce_ms = 1000` give one `restart_triggered` and two `restart_skipped`. -/
theorem C10_debounce_witness :
    (((Examples.connectedAgent 1000 []).fire Examples.sampleLogger
        (agent.Trigger.monitor "sleep") 1700000000000000000).fireAll Examples.sampleLogger
        [(agent.Trigger.monitor "wake", 1700000000100000000),
         (agent.Trigger.monitor "network change", 1700000000200000000)]).lastTrigger
      = 1700000000000000000 ∧
    (((((Examples.connectedAgent 1000 []).fire Examples.sampleLogger
        (agent.Trigger.monitor "sleep") 1700000000000000000).fireAll Examples.sampleLogger
        [(agent.Trigger.monitor "wake", 1700000000100000000),
         (agent.Trigger.monitor "network change", 1700000000200000000)]).trace.drop
        (Examples.connectedAgent 1000 []).trace.length).countP
        (agent.isEvent "restart_triggered") = 1) ∧
    (((((Examples.connectedAgent 1000 []).fire Examples.sampleLogger
        (agent.Trigger.monitor "sleep") 1700000000000000000).fireAll Examples.sampleLogger
        [(agent.Trigger.monitor "wake", 1700000000100000000),
         (agent.Trigger.monitor "network change", 1700000000200000000)]).trace.drop
        (Examples.connectedAgent 1000 []).trace.length).countP
        (agent.isEvent "restart_skipped") = 2) :=
  have h := C10_debounce (Examples.connectedAgent 1000 []) Examples.sampleLogger
    (agent.Trigger.monitor "sleep") 1700000000000000000
    [(agent.Trigger.monitor "wake", 1700000000100000000),
     (agent.Trigger.monitor "network change", 1700000000200000000)]
    (by decide) (by decide) (by decide) (by decide) (by decide) (Or.inl (by decide))
    (by decide)
  ⟨h.2.2.1, h.2.2.2.2.1, h.2.2.2.2.2.1⟩

namespace goarith

theorem round64_zero : round64 0 = 0 := by
  simp [round64, roundMag]

theorem round64_neg (x : ℚ) : round64 (-x) = - round64 x := by
  unfold round64
  rcases lt_trichotomy x 0 with h | h | h
  · rw [if_neg (by linarith), if_pos h, neg_neg]
  · subst h
    simp [roundMag]
  · rw [if_pos (by linarith), if_neg (by linarith), neg_neg]

/-- A value `n × 2^j` with `|n| < 2^53` is a float64 and is not changed by rounding. -/
theorem round64_dyadic (n : ℤ) (j : ℤ) (hn : |n| < 2 ^ 53) :
    round64 ((n : ℚ) * 2 ^ j) = (n : ℚ) * 2 ^ j := by
  have key : ∀ m : ℕ, m < 2 ^ 53 → round64 ((m : ℚ) * 2 ^ j) = (m : ℚ) * 2 ^ j := by
    intro m hm
    unfold round64
    have : ¬ ((m : ℚ) * 2 ^ j < 0) := by
      have := two_zpow_pos j
      have hm0 : (0 : ℚ) ≤ m := Nat.cast_nonneg m
      nlinarith [mul_nonneg hm0 this.le]
    rw [if_neg this]
    exact roundMag_exact m j hm
  rcases le_or_lt 0 n with h | h
  · have e : (n : ℚ) = ((n.natAbs : ℕ) : ℚ) := by
      rw [Nat.cast_natAbs, abs_of_nonneg h]
    rw [e]
    exact key _ (by have := abs_lt.mp hn; omega)
  · have e : (n : ℚ) = - ((n.natAbs : ℕ) : ℚ) := by
      rw [Nat.cast_natAbs, abs_of_neg h]; push_cast; ring
    rw [e, neg_mul, round64_neg]
    rw [key _ (by have := abs_lt.mp hn; omega)]

theorem round64_of_eq {x : ℚ} (n : ℤ) (j : ℤ) (hx : x = (n : ℚ) * 2 ^ j) (hn : |n| < 2 ^ 53) :
    round64 x = x := by
  rw [hx]
  exact round64_dyadic n j hn

theorem round64_nonneg {x : ℚ} (h : 0 ≤ x) : 0 ≤ round64 x := by
  have := round64_mono h
  rwa [round64_zero] at this

theorem round64_le_of_le_int {x : ℚ} (c : ℤ) (hc : |c| < 2 ^ 53) (h : x ≤ c) :
    round64 x ≤ c := by
  have := round64_mono h
  rwa [round64_intCast c hc] at this

theorem round64_ge_of_ge_int {x : ℚ} (c : ℤ) (hc : |c| < 2 ^ 53) (h : (c : ℚ) ≤ x) :
    (c : ℚ) ≤ round64 x := by
  have := round64_mono h
  rwa [round64_intCast c hc] at this

theorem round64_two_pow_54 : round64 ((2 : ℚ) ^ (54 : ℕ)) = 2 ^ (54 : ℕ) := by
  have := round64_dyadic 1 54 (by norm_num)
  norm_num at this ⊢
  exact this

end goarith

namespace agent

/-- The value of `rng.Float64()*2 - 1` in float64 lies in `[-1, 1]`. -/
theorem sample_range (u : ℚ) (h0 : 0 ≤ u) (h1 : u < 1) :
    -1 ≤ goarith.fsub (goarith.fmul u 2) 1 ∧ goarith.fsub (goarith.fmul u 2) 1 ≤ 1 := by
  have a1 : (0 : ℚ) ≤ goarith.fmul u 2 := goarith.round64_nonneg (by linarith)
  have a2 : goarith.fmul u 2 ≤ 2 := by
    have := goarith.round64_le_of_le_int (x := u * 2) 2 (by norm_num) (by push_cast; linarith)
    simpa [goarith.fmul] using this
  constructor
  · have := goarith.round64_ge_of_ge_int (x := goarith.fmul u 2 - 1) (-1) (by norm_num)
      (by push_cast; linarith)
    simpa [goarith.fsub] using this
  · have := goarith.round64_le_of_le_int (x := goarith.fmul u 2 - 1) 1 (by norm_num)
      (by push_cast; linarith)
    simpa [goarith.fsub] using this

/-- The float64 product that `jittered` converts to a duration, as a function of the sample. -/
theorem jitter_product_mono (j : ℚ) (d : ℤ) (hj : 0 ≤ j) (hd : 0 ≤ d) {s s' : ℚ} (h : s ≤ s') :
    goarith.fmul (goarith.ofInt d) (goarith.fadd 1 (goarith.fmul j s)) ≤
      goarith.fmul (goarith.ofInt d) (goarith.fadd 1 (goarith.fmul j s')) := by
  have hd0 : (0 : ℚ) ≤ goarith.ofInt d := goarith.round64_nonneg (by exact_mod_cast hd)
  have h1 : goarith.fmul j s ≤ goarith.fmul j s' :=
    goarith.round64_mono (mul_le_mul_of_nonneg_left h hj)
  have h2 : goarith.fadd 1 (goarith.fmul j s) ≤ goarith.fadd 1 (goarith.fmul j s') :=
    goarith.round64_mono (by linarith)
  exact goarith.round64_mono (mul_le_mul_of_nonneg_left h2 hd0)

theorem jitter_product_range (j : ℚ) (d : ℤ) (hj : 0 ≤ j) (hj1 : j ≤ 1) (hd : 0 ≤ d)
    (hd53 : d < 2 ^ 53) {s : ℚ} (hs : -1 ≤ s) (hs1 : s ≤ 1) :
    ((0 : ℤ) : ℚ) ≤ goarith.fmul (goarith.ofInt d) (goarith.fadd 1 (goarith.fmul j s)) ∧
    goarith.fmul (goarith.ofInt d) (goarith.fadd 1 (goarith.fmul j s)) ≤ ((2 ^ 54 : ℤ) : ℚ) := by
  have hdq : (0 : ℚ) ≤ d := by exact_mod_cast hd
  have e : goarith.ofInt d = d := goarith.round64_intCast d (by rw [abs_of_nonneg hd]; exact hd53)
  have hd53q : (d : ℚ) < 2 ^ 53 := by exact_mod_cast hd53
  have m1 : (-1 : ℚ) ≤ goarith.fmul j s := by
    have := goarith.round64_ge_of_ge_int (x := j * s) (-1) (by norm_num)
      (by push_cast; nlinarith)
    simpa [goarith.fmul] using this
  have m2 : goarith.fmul j s ≤ 1 := by
    have := goarith.round64_le_of_le_int (x := j * s) 1 (by norm_num) (by push_cast; nlinarith)
    simpa [goarith.fmul] using this
  have a1 : (0 : ℚ) ≤ goarith.fadd 1 (goarith.fmul j s) :=
    goarith.round64_nonneg (by linarith)
  have a2 : goarith.fadd 1 (goarith.fmul j s) ≤ 2 := by
    have := goarith.round64_le_of_le_int (x := 1 + goarith.fmul j s) 2 (by norm_num)
      (by push_cast; linarith)
    simpa [goarith.fadd] using this
  rw [e]
  constructor
  · push_cast
    exact goarith.round64_nonneg (mul_nonneg hdq a1)
  · have hle : (d : ℚ) * goarith.fadd 1 (goarith.fmul j s) ≤ 2 ^ (54 : ℕ) := by
      have : (d : ℚ) * goarith.fadd 1 (goarith.fmul j s) ≤ 2 ^ 53 * 2 := by
        apply mul_le_mul hd53q.le a2 a1 (by norm_num)
      calc _ ≤ (2 : ℚ) ^ 53 * 2 := this
        _ = 2 ^ (54 : ℕ) := by norm_num
    have := goarith.round64_mono hle
    rw [goarith.round64_two_pow_54] at this
    push_cast
    exact this

/-- In the range of the data model the conversion in `jitteredAt` does not overflow and is
not negative. -/
theorem jitteredAt_eq (ovf : Int) (b : backoff) (d : ℤ) (hj : 0 ≤ b.jitter) (hj1 : b.jitter ≤ 1)
    (hd : 0 ≤ d) (hd53 : d < 2 ^ 53) {s : ℚ} (hs : -1 ≤ s) (hs1 : s ≤ 1) :
    b.jitteredAt ovf s d =
      goarith.truncate (goarith.fmul (goarith.ofInt d) (goarith.fadd 1 (goarith.fmul b.jitter s)))
    ∧ 0 ≤ b.jitteredAt ovf s d := by
  obtain ⟨r1, r2⟩ := jitter_product_range b.jitter d hj hj1 hd hd53 hs hs1
  obtain ⟨t1, t2, _⟩ := goarith.toInt64_of_range ovf _ 0 (2 ^ 54) r1 r2 (by norm_num)
    (by norm_num)
  unfold backoff.jitteredAt
  simp only [t1]
  rw [if_neg (not_lt.mpr t2)]
  exact ⟨rfl, t2⟩

theorem jitteredAt_mono (ovf : Int) (b : backoff) (d : ℤ) (hj : 0 ≤ b.jitter)
    (hj1 : b.jitter ≤ 1) (hd : 0 ≤ d) (hd53 : d < 2 ^ 53) {s s' : ℚ} (hs : -1 ≤ s)
    (hss : s ≤ s') (hs1 : s' ≤ 1) :
    b.jitteredAt ovf s d ≤ b.jitteredAt ovf s' d := by
  rw [(jitteredAt_eq ovf b d hj hj1 hd hd53 hs (le_trans hss hs1)).1,
    (jitteredAt_eq ovf b d hj hj1 hd hd53 (le_trans hs hss) hs1).1]
  exact goarith.truncate_mono (jitter_product_mono b.jitter d hj hd hss)

theorem jittered_eq_jitteredAt (ovf : Int) (b : backoff) (u : ℚ) (d : time.Duration)
    (hj : 0 < b.jitter) :
    b.jittered ovf u d = b.jitteredAt ovf (goarith.fsub (goarith.fmul u 2) 1) d := by
  unfold backoff.jittered backoff.jitteredAt
  rw [if_neg (not_le.mpr hj)]

theorem Reset_Next_cur (ovf : Int) (b : backoff) (u : ℚ) (hmin : 0 < b.min) :
    (b.Reset.Next ovf u).1.cur = b.min ∧
    (b.Reset.Next ovf u).2 = b.Reset.jittered ovf u b.min := by
  have h1 : (b.Reset.Next ovf u).1.cur = b.min :=
    Next_cur_of_zero ovf b.Reset u hmin rfl
  refine ⟨h1, ?_⟩
  rw [Next_delay ovf b.Reset u hmin, h1]
  have := Next_eq ovf b.Reset u
  rw [this]
  rfl

end agent

namespace goarith

theorem roundHalfEven_err (q : ℚ) : |(roundHalfEven q : ℚ) - q| ≤ 1 / 2 := by
  have h1 := Int.floor_le q
  have h2 := Int.lt_floor_add_one q
  unfold roundHalfEven
  simp only []
  rw [abs_le]
  split_ifs <;> constructor <;> push_cast <;> linarith

theorem roundMag_err {x : ℚ} (hx : 0 < x) : |roundMag x - x| ≤ x / 2 ^ 53 := by
  have hk := two_zpow_pos (Int.log 2 x - 52)
  have h1 : (2 : ℚ) ^ Int.log 2 x ≤ x := by
    have := Int.zpow_log_le_self (b := 2) (by norm_num) hx
    simpa using this
  have hsplit : (2 : ℚ) ^ Int.log 2 x = 2 ^ (52 : ℤ) * 2 ^ (Int.log 2 x - 52) := by
    rw [← zpow_add₀ (by norm_num : (2 : ℚ) ≠ 0)]; congr 1; ring
  have e : roundMag x - x =
      ((roundHalfEven (x / 2 ^ (Int.log 2 x - 52)) : ℚ) - x / 2 ^ (Int.log 2 x - 52))
        * 2 ^ (Int.log 2 x - 52) := by
    simp only [roundMag, if_neg hx.ne']
    rw [sub_mul, div_mul_cancel₀ _ hk.ne']
  rw [e, abs_mul, abs_of_pos hk]
  have herr := roundHalfEven_err (x / 2 ^ (Int.log 2 x - 52))
  have hb : (2 : ℚ) ^ (Int.log 2 x - 52) ≤ x / 2 ^ 52 := by
    rw [le_div_iff₀ (by norm_num)]
    have : (2 : ℚ) ^ (52 : ℤ) = 2 ^ 52 := by norm_num
    rw [hsplit, this] at h1
    linarith
  calc |(roundHalfEven (x / 2 ^ (Int.log 2 x - 52)) : ℚ) - x / 2 ^ (Int.log 2 x - 52)|
        * 2 ^ (Int.log 2 x - 52)
      ≤ 1 / 2 * (x / 2 ^ 52) := mul_le_mul herr hb hk.le (by norm_num)
    _ = x / 2 ^ 53 := by ring

/-- The relative error of a float64 rounding is at most `2^-53`. -/
theorem round64_err (x : ℚ) : |round64 x - x| ≤ |x| / 2 ^ 53 := by
  unfold round64
  rcases lt_trichotomy x 0 with h | h | h
  · rw [if_pos h, abs_of_neg h]
    have := roundMag_err (x := -x) (by linarith)
    rw [abs_le] at this ⊢
    constructor <;> linarith [this.1, this.2]
  · subst h
    simp [roundMag]
  · rw [if_neg (by linarith), abs_of_pos h]
    exact roundMag_err h

theorem round64_le_add {x : ℚ} (hx : 0 ≤ x) : round64 x ≤ x + x * (1 / 2 ^ 53) := by
  have := round64_err x
  rw [abs_of_nonneg hx, abs_le] at this
  have e : x / 2 ^ 53 = x * (1 / 2 ^ 53) := by ring
  linarith [this.2]

theorem round64_ge_sub {x : ℚ} (hx : 0 ≤ x) : x - x * (1 / 2 ^ 53) ≤ round64 x := by
  have := round64_err x
  rw [abs_of_nonneg hx, abs_le] at this
  have e : x / 2 ^ 53 = x * (1 / 2 ^ 53) := by ring
  linarith [this.1]

theorem round64_ge_neg {x : ℚ} (hx : x ≤ 0) : x + x * (1 / 2 ^ 53) ≤ round64 x := by
  have := round64_err x
  rw [abs_of_nonpos hx, abs_le] at this
  have e : -x / 2 ^ 53 = -(x * (1 / 2 ^ 53)) := by ring
  linarith [this.1]

theorem truncate_le {x : ℚ} (hx : 0 ≤ x) : (truncate x : ℚ) ≤ x ∧ x - 1 < truncate x := by
  unfold truncate
  rw [if_pos hx]
  exact ⟨Int.floor_le x, by linarith [Int.lt_floor_add_one x]⟩

end goarith

namespace agent

/-- The delay at the upper extreme of the sample is less than one nanosecond above
`d × (1 + jitter)`. -/
theorem jitteredAt_upper (ovf : Int) (b : backoff) (d : ℤ) (hj : 0 ≤ b.jitter)
    (hj1 : b.jitter ≤ 1) (hd : 0 ≤ d) (hd50 : d ≤ 2 ^ 50) :
    (b.jitteredAt ovf 1 d : ℚ) < d * (1 + b.jitter) + 1 := by
  have hd53 : d < 2 ^ 53 := lt_of_le_of_lt hd50 (by norm_num)
  obtain ⟨r1, _⟩ := jitter_product_range b.jitter d hj hj1 hd hd53 (s := 1) (by norm_num)
    (by norm_num)
  rw [(jitteredAt_eq ovf b d hj hj1 hd hd53 (s := 1) (by norm_num) (by norm_num)).1]
  have ht := (goarith.truncate_le (by simpa using r1)).1
  refine lt_of_le_of_lt ht ?_
  have hdq : (0 : ℚ) ≤ d := by exact_mod_cast hd
  have hd50q : (d : ℚ) ≤ 2 ^ 50 := by exact_mod_cast hd50
  have e : goarith.ofInt d = d :=
    goarith.round64_intCast d (by rw [abs_of_nonneg hd]; exact hd53)
  have hD0 : 0 ≤ goarith.fmul b.jitter 1 := goarith.round64_nonneg (by linarith)
  have hS0 : (0 : ℚ) ≤ 1 + goarith.fmul b.jitter 1 := by linarith
  have hSnn : 0 ≤ goarith.fadd 1 (goarith.fmul b.jitter 1) := goarith.round64_nonneg hS0
  have k1 := goarith.round64_le_add (x := b.jitter * 1) (by linarith)
  have k2 := goarith.round64_le_add hS0
  have k3 := goarith.round64_le_add (x := (d : ℚ) * goarith.fadd 1 (goarith.fmul b.jitter 1))
    (mul_nonneg hdq hSnn)
  simp only [goarith.fmul, goarith.fadd, e, mul_one] at k1 k2 k3 hD0 hS0 hSnn ⊢
  have hdε : (d : ℚ) * (1 / 2 ^ 53) ≤ 1 / 8 := by
    have : (d : ℚ) * (1 / 2 ^ 53) ≤ 2 ^ 50 * (1 / 2 ^ 53) :=
      mul_le_mul_of_nonneg_right hd50q (by norm_num)
    linarith [show (2 : ℚ) ^ 50 * (1 / 2 ^ 53) = 1 / 8 by norm_num]
  have hε0 : (0 : ℚ) ≤ 1 / 2 ^ 53 := by norm_num
  have hε8 : (1 / 2 ^ 53 : ℚ) ≤ 1 / 8 := by norm_num
  generalize goarith.round64 b.jitter = D at *
  generalize goarith.round64 (1 + D) = S at *
  generalize goarith.round64 ((d : ℚ) * S) = P at *
  generalize (1 / 2 ^ 53 : ℚ) = ε at *
  have hεd : 0 ≤ (d : ℚ) * ε := mul_nonneg hdq hε0
  have hjε : b.jitter * ε ≤ ε := by
    have := mul_le_mul_of_nonneg_right hj1 hε0
    linarith
  have hD1 : D ≤ b.jitter + ε := by linarith
  have hD2 : 1 + D ≤ 17 / 8 := by linarith
  have hS1 : S ≤ 1 + D + 17 / 8 * ε := by
    have := mul_le_mul_of_nonneg_right hD2 hε0
    linarith
  have hS2 : S ≤ 3 := by linarith
  have ha : (d : ℚ) * S ≤ d * (1 + D + 17 / 8 * ε) := mul_le_mul_of_nonneg_left hS1 hdq
  have hb : (d : ℚ) * D ≤ d * (b.jitter + ε) := mul_le_mul_of_nonneg_left hD1 hdq
  have hc : (d : ℚ) * ε * S ≤ d * ε * 3 := mul_le_mul_of_nonneg_left hS2 hεd
  have hc' : (d : ℚ) * S * ε = d * ε * S := by ring
  rw [hc'] at k3
  linarith

/-- The delay at the lower extreme of the sample is less than two nanoseconds below
`d × (1 - jitter)`. -/
theorem jitteredAt_lower (ovf : Int) (b : backoff) (d : ℤ) (hj : 0 ≤ b.jitter)
    (hj1 : b.jitter ≤ 1) (hd : 0 ≤ d) (hd50 : d ≤ 2 ^ 50) :
    (d : ℚ) * (1 - b.jitter) - 2 < b.jitteredAt ovf (-1) d := by
  have hd53 : d < 2 ^ 53 := lt_of_le_of_lt hd50 (by norm_num)
  obtain ⟨r1, _⟩ := jitter_product_range b.jitter d hj hj1 hd hd53 (s := -1) (by norm_num)
    (by norm_num)
  rw [(jitteredAt_eq ovf b d hj hj1 hd hd53 (s := -1) (by norm_num) (by norm_num)).1]
  have ht := (goarith.truncate_le (by simpa using r1)).2
  refine lt_trans ?_ ht
  have hdq : (0 : ℚ) ≤ d := by exact_mod_cast hd
  have hd50q : (d : ℚ) ≤ 2 ^ 50 := by exact_mod_cast hd50
  have e : goarith.ofInt d = d :=
    goarith.round64_intCast d (by rw [abs_of_nonneg hd]; exact hd53)
  have hD1 : (-1 : ℚ) ≤ goarith.fmul b.jitter (-1) := by
    have := goarith.round64_ge_of_ge_int (x := b.jitter * (-1)) (-1) (by norm_num)
      (by push_cast; linarith)
    simpa [goarith.fmul] using this
  have hD0 : goarith.fmul b.jitter (-1) ≤ 0 := by
    have := goarith.round64_le_of_le_int (x := b.jitter * (-1)) 0 (by norm_num)
      (by push_cast; linarith)
    simpa [goarith.fmul] using this
  have hS0 : (0 : ℚ) ≤ 1 + goarith.fmul b.jitter (-1) := by linarith
  have hSnn : 0 ≤ goarith.fadd 1 (goarith.fmul b.jitter (-1)) := goarith.round64_nonneg hS0
  have hS1 : goarith.fadd 1 (goarith.fmul b.jitter (-1)) ≤ 1 := by
    have := goarith.round64_le_of_le_int (x := 1 + goarith.fmul b.jitter (-1)) 1 (by norm_num)
      (by push_cast; linarith)
    simpa [goarith.fadd] using this
  have k1 := goarith.round64_ge_neg (x := b.jitter * (-1)) (by linarith)
  have k2 := goarith.round64_ge_sub hS0
  have k3 := goarith.round64_ge_sub (x := (d : ℚ) * goarith.fadd 1 (goarith.fmul b.jitter (-1)))
    (mul_nonneg hdq hSnn)
  simp only [goarith.fmul, goarith.fadd, e] at k1 k2 k3 hD0 hD1 hS0 hSnn hS1 ⊢
  have hdε : (d : ℚ) * (1 / 2 ^ 53) ≤ 1 / 8 := by
    have : (d : ℚ) * (1 / 2 ^ 53) ≤ 2 ^ 50 * (1 / 2 ^ 53) :=
      mul_le_mul_of_nonneg_right hd50q (by norm_num)
    linarith [show (2 : ℚ) ^ 50 * (1 / 2 ^ 53) = 1 / 8 by norm_num]
  have hε0 : (0 : ℚ) ≤ 1 / 2 ^ 53 := by norm_num
  generalize goarith.round64 (b.jitter * (-1)) = D at *
  generalize goarith.round64 (1 + D) = S at *
  generalize goarith.round64 ((d : ℚ) * S) = P at *
  generalize (1 / 2 ^ 53 : ℚ) = ε at *
  have hεd : 0 ≤ (d : ℚ) * ε := mul_nonneg hdq hε0
  have hjε : b.jitter * ε ≤ ε := by
    have := mul_le_mul_of_nonneg_right hj1 hε0
    linarith
  have hDl : - b.jitter - ε ≤ D := by linarith
  have hSl : 1 - b.jitter - 2 * ε ≤ S := by
    have : (1 + D) * ε ≤ 1 * ε := mul_le_mul_of_nonneg_right (by linarith) hε0
    linarith
  have ha : (d : ℚ) * (1 - b.jitter - 2 * ε) ≤ d * S := mul_le_mul_of_nonneg_left hSl hdq
  have hc : (d : ℚ) * ε * S ≤ d * ε * 1 := mul_le_mul_of_nonneg_left hS1 hεd
  have hc' : (d : ℚ) * S * ε = d * ε * S := by ring
  rw [hc'] at k3
  linarith

end agent

namespace agent

/-- The actions that the wait phase adds to the trace. -/
theorem waitPhase_backoff_calls (caseTable : Char → Char) (ovf : Int) (a : Agent)
    (err : Option exec.WaitError) (u : ℚ) (stopWins exitedInTime : Bool) :
    (Action.backoffNext ∈
        ((a.waitPhase caseTable ovf err u stopWins exitedInTime).1.trace.drop a.trace.length) ↔
      a.shouldRestart (exitCodeOf err) err
        (classifyExit caseTable a.errLines (exitCodeOf err) err) = true) ∧
    (Action.backoffReset ∈
        ((a.waitPhase caseTable ovf err u stopWins exitedInTime).1.trace.drop a.trace.length) ↔
      (err = none ∧ a.shouldRestart (exitCodeOf err) err
        (classifyExit caseTable a.errLines (exitCodeOf err) err) = true)) := by
  have hterm : ∀ (b : Agent) (c : String), b.shouldRestart (exitCodeOf err) err c = true →
      ¬ (c = "auth" ∨ c = "hostkey") := by
    intro b c hb hc
    rw [shouldRestart_terminal b _ _ _ hc] at hb
    exact absurd hb (by decide)
  have hpol : ∀ (b : Agent) (c : String), b.policy = a.policy →
      b.shouldRestart (exitCodeOf err) err c = a.shouldRestart (exitCodeOf err) err c := by
    intro b c hb
    simp [Agent.shouldRestart, hb]
  clear hterm hpol
  generalize hcls : classifyExit caseTable a.errLines (exitCodeOf err) err = cls
  by_cases hc : cls = "auth" ∨ cls = "hostkey"
  · have hs : ∀ b : Agent, b.shouldRestart (exitCodeOf err) err cls = false :=
      fun b => shouldRestart_terminal b _ _ _ hc
    rcases err with _ | e
    · simp [Agent.waitPhase, Agent.recordExitSuccess, Agent.setLastClass, Agent.recordExit,
        Agent.act, hcls, hs]
    · by_cases hsum : stderrSummary a.errLines = ""
      · simp [Agent.waitPhase, Agent.recordExitFailure, Agent.setLastClass, Agent.recordExit,
          Agent.act, hcls, hs, hsum]
      · simp [Agent.waitPhase, Agent.recordExitFailure, Agent.setLastClass, Agent.recordExit,
          Agent.act, hcls, hs, hsum]
  · have hpol : ∀ b : Agent, b.policy = a.policy →
        b.shouldRestart (exitCodeOf err) err cls = a.shouldRestart (exitCodeOf err) err cls := by
      intro b hb
      simp [Agent.shouldRestart, hb]
    cases hs : a.shouldRestart (exitCodeOf err) err cls
    · have hsb : ∀ b : Agent, b.policy = a.policy →
          b.shouldRestart (exitCodeOf err) err cls = false := fun b hb => (hpol b hb).trans hs
      rcases err with _ | e
      · simp [Agent.waitPhase, Agent.recordExitSuccess, Agent.setLastClass, Agent.recordExit,
          Agent.act, hcls, hsb]
      · by_cases hsum : stderrSummary a.errLines = ""
        · simp [Agent.waitPhase, Agent.recordExitFailure, Agent.setLastClass, Agent.recordExit,
            Agent.act, hcls, hsb, hsum]
        · simp [Agent.waitPhase, Agent.recordExitFailure, Agent.setLastClass, Agent.recordExit,
            Agent.act, hcls, hsb, hsum]
    · have hsb : ∀ b : Agent, b.policy = a.policy →
          b.shouldRestart (exitCodeOf err) err cls = true := fun b hb => (hpol b hb).trans hs
      rcases err with _ | e
      · simp only [Agent.waitPhase, Agent.recordExitSuccess, Agent.setLastClass, Agent.recordExit,
          Agent.act, Agent.sleepWithBackoff, Agent.Stop]
        simp [hsb, hc, hcls]
        split_ifs <;> (try split) <;> simp
      · by_cases hsum : stderrSummary a.errLines = ""
        · simp only [Agent.waitPhase, Agent.recordExitFailure, Agent.setLastClass,
            Agent.recordExit, Agent.act, Agent.sleepWithBackoff, Agent.Stop]
          simp [hsb, hc, hsum, hcls]
          split_ifs <;> (try split) <;> simp
        · simp only [Agent.waitPhase, Agent.recordExitFailure, Agent.setLastClass,
            Agent.recordExit, Agent.act, Agent.sleepWithBackoff, Agent.Stop]
          simp [hsb, hc, hsum, hcls]
          split_ifs <;> (try split) <;> simp

end agent

namespace agent

/-- The backoff after a wait phase that decides to restart. -/
theorem waitPhase_backoff (caseTable : Char → Char) (ovf : Int) (a : Agent)
    (err : Option exec.WaitError) (u : ℚ) (stopWins exitedInTime : Bool)
    (hs : a.shouldRestart (exitCodeOf err) err
        (classifyExit caseTable a.errLines (exitCodeOf err) err) = true) :
    (a.waitPhase caseTable ovf err u stopWins exitedInTime).1.backoff =
      ((if err = none then a.backoff.Reset else a.backoff).Next ovf u).1 := by
  generalize hcls : classifyExit caseTable a.errLines (exitCodeOf err) err = cls at hs
  have hc : ¬ (cls = "auth" ∨ cls = "hostkey") := by
    intro hc
    rw [shouldRestart_terminal a _ _ _ hc] at hs
    exact absurd hs (by decide)
  have hsb : ∀ b : Agent, b.policy = a.policy →
      b.shouldRestart (exitCodeOf err) err cls = true := by
    intro b hb
    rw [← hs]
    simp [Agent.shouldRestart, hb]
  rcases err with _ | e
  · simp only [Agent.waitPhase, Agent.recordExitSuccess, Agent.setLastClass, Agent.recordExit,
      Agent.act, Agent.sleepWithBackoff, Agent.Stop]
    simp [hsb, hc, hcls]
    split_ifs <;> (try split) <;> simp
  · by_cases hsum : stderrSummary a.errLines = ""
    · simp only [Agent.waitPhase, Agent.recordExitFailure, Agent.setLastClass,
        Agent.recordExit, Agent.act, Agent.sleepWithBackoff, Agent.Stop]
      simp [hsb, hc, hsum, hcls]
      split_ifs <;> (try split) <;> simp
    · simp only [Agent.waitPhase, Agent.recordExitFailure, Agent.setLastClass,
        Agent.recordExit, Agent.act, Agent.sleepWithBackoff, Agent.Stop]
      simp [hsb, hc, hsum, hcls]
      split_ifs <;> (try split) <;> simp

theorem round64_neg_one : goarith.round64 (-1 : ℚ) = -1 := by
  have := goarith.round64_intCast (-1) (by norm_num)
  simpa using this

end agent

namespace restart

theorem Reset_toAgent (b : Backoff) : b.Reset.toAgent = b.toAgent.Reset := rfl

end restart

/-- C8 fails as stated: with `min = 1 ms`, `jitter = 1/128` and RNG sample 0 the delay after
`Reset` and `Next` is 992187 ns, below `min × (1 - jitter) = 992187.5` ns. -/
theorem C8_counterexample :
    (agent.backoff.Next (-9223372036854775808)
        (agent.backoff.Reset
          { min := 1000000, max := 30000000000, factor := 2, jitter := 1 / 128, cur := 8000000 })
        0).1.cur = 1000000 ∧
    (agent.backoff.Next (-9223372036854775808)
        (agent.backoff.Reset
          { min := 1000000, max := 30000000000, factor := 2, jitter := 1 / 128, cur := 8000000 })
        0).2 = 992187 ∧
    ¬ ((1000000 : ℚ) * (1 - 1 / 128) ≤ ((992187 : ℤ) : ℚ)) := by
  have hz : goarith.fmul 0 2 = 0 := by simp [goarith.fmul, goarith.round64_zero]
  have h1 : goarith.fsub 0 1 = -1 := by
    simp only [goarith.fsub, zero_sub]
    exact agent.round64_neg_one
  have h2 : goarith.fmul (1 / 128) (-1) = -(1 / 128) := by
    simp only [goarith.fmul]
    have := goarith.round64_of_eq (x := (1 / 128 : ℚ) * (-1)) (-1) (-7) (by norm_num)
      (by norm_num)
    rw [this]
    norm_num
  have h3 : goarith.fadd 1 (-(1 / 128)) = 127 / 128 := by
    simp only [goarith.fadd]
    have := goarith.round64_of_eq (x := (1 : ℚ) + -(1 / 128)) 127 (-7) (by norm_num)
      (by norm_num)
    rw [this]
    norm_num
  have h4 : goarith.ofInt 1000000 = 1000000 := by
    have := goarith.round64_intCast 1000000 (by norm_num)
    simpa [goarith.ofInt] using this
  have h5 : goarith.fmul 1000000 (127 / 128) = 1984375 / 2 := by
    simp only [goarith.fmul]
    have := goarith.round64_of_eq (x := (1000000 : ℚ) * (127 / 128)) 1984375 (-1)
      (by norm_num) (by norm_num)
    rw [this]
    norm_num
  have h6 : goarith.toInt64 (-9223372036854775808) (1984375 / 2) = 992187 := by
    have hf : ⌊(1984375 / 2 : ℚ)⌋ = 992187 := by
      rw [Int.floor_eq_iff]
      constructor <;> norm_num
    have ht : goarith.truncate (1984375 / 2) = 992187 := by
      unfold goarith.truncate
      rw [if_pos (by norm_num), hf]
    unfold goarith.toInt64
    simp only [ht]
    rw [if_pos (by norm_num)]
  obtain ⟨c1, c2⟩ := agent.Reset_Next_cur (-9223372036854775808)
    { min := 1000000, max := 30000000000, factor := 2, jitter := 1 / 128, cur := 8000000 } 0
    (by decide)
  refine ⟨c1, ?_, by norm_num⟩
  rw [c2]
  simp only [agent.backoff.jittered, agent.backoff.Reset]
  rw [if_neg (by norm_num), hz, h1, h2, h3, h4, h5, h6]
  decide

/-- C8 (amended): for every backoff with `min > 0`, whatever `cur` is, `Reset` followed by
`Next` sets the pre-jitter value `cur` to exactly `min`; the returned delay equals `min` when
`jitter ≤ 0` (in particular when it is 0); when `0 < jitter ≤ 1`, `min ≤ 2^50` ns and the RNG
sample lies in `[0, 1)`, the delay lies between the delays computed at the two extreme samples
(the float64 products `min × (1 - jitter)` and `min × (1 + jitter)` truncated to whole
nanoseconds), so it is more than `min × (1 - jitter) - 2` ns and less than
`min × (1 + jitter) + 1` ns; the same holds for the copy `restart.Backoff`; and the wait phase
calls `Reset` exactly when it restarts (calls `Next`) after a child exit with no error, in
which case `cur` is `min` afterwards. -/
theorem C8_reset_then_next (caseTable : Char → Char) (ovf : Int) (b : agent.backoff) (u : ℚ)
    (a : agent.Agent) (err : Option exec.WaitError) (stopWins exitedInTime : Bool)
    (hmin : 0 < b.min) :
    (b.Reset.Next ovf u).1.cur = b.min ∧
    (b.jitter ≤ 0 → (b.Reset.Next ovf u).2 = b.min) ∧
    (0 < b.jitter → b.jitter ≤ 1 → 0 ≤ u → u < 1 → b.min ≤ 2 ^ 50 →
      b.jitteredAt ovf (-1) b.min ≤ (b.Reset.Next ovf u).2 ∧
      (b.Reset.Next ovf u).2 ≤ b.jitteredAt ovf 1 b.min ∧
      (b.min : ℚ) * (1 - b.jitter) - 2 < (((b.Reset.Next ovf u).2 : ℤ) : ℚ) ∧
      ((((b.Reset.Next ovf u).2 : ℤ) : ℚ)) < (b.min : ℚ) * (1 + b.jitter) + 1) ∧
    (∀ B : restart.Backoff, B.toAgent = b →
      (B.Reset.Next ovf u).1.cur = B.min ∧ (B.Reset.Next ovf u).2 = (b.Reset.Next ovf u).2) ∧
    (agent.Action.backoffReset ∈
        ((a.waitPhase caseTable ovf err u stopWins exitedInTime).1.trace.drop a.trace.length) ↔
      (err = none ∧ agent.Action.backoffNext ∈
        ((a.waitPhase caseTable ovf err u stopWins exitedInTime).1.trace.drop
          a.trace.length))) ∧
    (agent.Action.backoffNext ∈
        ((a.waitPhase caseTable ovf err u stopWins exitedInTime).1.trace.drop a.trace.length) ↔
      a.shouldRestart (agent.exitCodeOf err) err
        (agent.classifyExit caseTable a.errLines (agent.exitCodeOf err) err) = true) ∧
    (err = none → 0 < a.backoff.min →
      a.shouldRestart (agent.exitCodeOf err) err
        (agent.classifyExit caseTable a.errLines (agent.exitCodeOf err) err) = true →
      (a.waitPhase caseTable ovf err u stopWins exitedInTime).1.backoff.cur = a.backoff.min) := by
  obtain ⟨c1, c2⟩ := agent.Reset_Next_cur ovf b u hmin
  obtain ⟨w1, w2⟩ := agent.waitPhase_backoff_calls caseTable ovf a err u stopWins exitedInTime
  refine ⟨c1, ?_, ?_, ?_, ?_, w1, ?_⟩
  · intro hj
    rw [c2]
    exact agent.jittered_of_nonpos ovf b.Reset u b.min hj
  · intro hj hj1 hu0 hu1 h50
    have h53 : b.min < 2 ^ 53 := lt_of_le_of_lt h50 (by norm_num)
    obtain ⟨s1, s2⟩ := agent.sample_range u hu0 hu1
    have e : (b.Reset.Next ovf u).2
        = b.jitteredAt ovf (goarith.fsub (goarith.fmul u 2) 1) b.min := by
      rw [c2, agent.jittered_eq_jitteredAt ovf b.Reset u b.min hj]
      rfl
    have lo := agent.jitteredAt_mono ovf b b.min hj.le hj1 hmin.le h53 (le_refl _) s1 s2
    have hi := agent.jitteredAt_mono ovf b b.min hj.le hj1 hmin.le h53 s1 s2 (le_refl _)
    have l2 := agent.jitteredAt_lower ovf b b.min hj.le hj1 hmin.le h50
    have u2 := agent.jitteredAt_upper ovf b b.min hj.le hj1 hmin.le h50
    rw [e]
    refine ⟨lo, hi, lt_of_lt_of_le l2 ?_, lt_of_le_of_lt ?_ u2⟩
    · exact_mod_cast lo
    · exact_mod_cast hi
  · intro B hB
    have n1 := (restart.Next_toAgent ovf B.Reset u)
    rw [restart.Reset_toAgent, hB] at n1
    constructor
    · have : (B.Reset.Next ovf u).1.cur = (B.Reset.Next ovf u).1.toAgent.cur := rfl
      rw [this, n1.1, c1, ← hB]
      rfl
    · exact n1.2
  · rw [w2, w1]
  · intro he hm hs
    rw [agent.waitPhase_backoff caseTable ovf a err u stopWins exitedInTime hs, if_pos he]
    exact (agent.Reset_Next_cur ovf a.backoff u hm).1

/-- C8 (amended), at a backoff with `min = 1 ms` in state `cur = 8 ms`. -/
theorem C8_reset_then_next_witness :
    (agent.backoff.Next (-9223372036854775808)
        (agent.backoff.Reset
          { min := 1000000, max := 30000000000, factor := 2, jitter := 1 / 128, cur := 8000000 })
        (1 / 2)).1.cur = 1000000 :=
  (C8_reset_then_next id (-9223372036854775808)
    { min := 1000000, max := 30000000000, factor := 2, jitter := 1 / 128, cur := 8000000 }
    (1 / 2) (Examples.connectedAgent 1000 []) none false true (by decide)).1

/-! ### Line ring -/

theorem agent.lineBuffer.foldl_Add_nonpos (c : Int) (hc : c ≤ 0) (xs : List String)
    (b : agent.lineBuffer) (hb : b.limit = c) : xs.foldl agent.lineBuffer.Add b = b := by
  induction xs with
  | nil => rfl
  | cons x xs ih =>
    have h : b.Add x = b := by simp [agent.lineBuffer.Add, hb, hc]
    simp [List.foldl_cons, h, ih]

theorem agent.lineBuffer.foldl_Add_pos (c : Int) (hc : 0 < c) (xs : List String) :
    xs.foldl agent.lineBuffer.Add (agent.newLineBuffer c) =
      { limit := c, lines := xs.drop (xs.length - c.toNat) } := by
  induction xs using List.reverseRecOn with
  | nil => simp [agent.newLineBuffer]
  | append_singleton xs x ih =>
    rw [List.foldl_append, ih]
    have hcn : (c.toNat : Int) = c := Int.toNat_of_nonneg hc.le
    simp only [List.foldl_cons, List.foldl_nil, agent.lineBuffer.Add, List.length_drop,
      List.length_append, List.length_singleton]
    rw [if_neg (not_le.mpr hc)]
    by_cases hfull : c.toNat ≤ xs.length
    · have h1 : ((xs.length - (xs.length - c.toNat) : Nat) : Int) ≥ c := by omega
      rw [if_pos h1, List.drop_drop]
      have h2 : xs.length + 1 - c.toNat ≤ xs.length := by omega
      rw [List.drop_append_of_le_length h2]
      have h3 : xs.length - c.toNat + 1 = xs.length + 1 - c.toNat := by omega
      rw [h3]
    · have h1 : ¬ ((xs.length - (xs.length - c.toNat) : Nat) : Int) ≥ c := by omega
      rw [if_neg h1]
      have h2 : xs.length - c.toNat = 0 := by omega
      have h3 : xs.length + 1 - c.toNat = 0 := by omega
      rw [h2, h3]; simp

theorem sshutil.LineBuffer.Add_foldl_nonpos (c : Int) (hc : c ≤ 0) (xs : List String)
    (b : sshutil.LineBuffer) (hb : b.limit = c) : xs.foldl sshutil.LineBuffer.Add b = b := by
  induction xs with
  | nil => rfl
  | cons x xs ih =>
    have h : b.Add x = b := by simp [sshutil.LineBuffer.Add, hb, hc]
    simp [List.foldl_cons, h, ih]

theorem sshutil.LineBuffer.Add_foldl_pos (c : Int) (hc : 0 < c) (xs : List String) :
    xs.foldl sshutil.LineBuffer.Add (sshutil.NewLineBuffer c) =
      { limit := c, lines := xs.drop (xs.length - c.toNat) } := by
  induction xs using List.reverseRecOn with
  | nil => simp [sshutil.NewLineBuffer]
  | append_singleton xs x ih =>
    rw [List.foldl_append, ih]
    have hcn : (c.toNat : Int) = c := Int.toNat_of_nonneg hc.le
    simp only [List.foldl_cons, List.foldl_nil, sshutil.LineBuffer.Add, List.length_drop,
      List.length_append, List.length_singleton]
    rw [if_neg (not_le.mpr hc)]
    by_cases hfull : c.toNat ≤ xs.length
    · have h1 : ((xs.length - (xs.length - c.toNat) : Nat) : Int) ≥ c := by omega
      rw [if_pos h1, List.drop_drop]
      have h2 : xs.length + 1 - c.toNat ≤ xs.length := by omega
      rw [List.drop_append_of_le_length h2]
      have h3 : xs.length - c.toNat + 1 = xs.length + 1 - c.toNat := by omega
      rw [h3]
    · have h1 : ¬ ((xs.length - (xs.length - c.toNat) : Nat) : Int) ≥ c := by omega
      rw [if_neg h1]
      have h2 : xs.length - c.toNat = 0 := by omega
      have h3 : xs.length + 1 - c.toNat = 0 := by omega
      rw [h2, h3]; simp

/-- C20: for every capacity `c` and every sequence `xs` of lines added to a fresh line buffer
of limit `c`, the agent buffer and the shared copy hold the same lines; `Lines` returns the last
`min xs.length c` lines in insertion order when `c > 0` and the empty list when `c ≤ 0`; and the
stored length is at most `max c 0`. -/
theorem C20_line_ring (c : Int) (xs : List String) :
    (xs.foldl agent.lineBuffer.Add (agent.newLineBuffer c)).Lines =
        (if 0 < c then Spec.lastN (min xs.length c.toNat) xs else []) ∧
      (xs.foldl sshutil.LineBuffer.Add (sshutil.NewLineBuffer c)).Lines =
        (if 0 < c then Spec.lastN (min xs.length c.toNat) xs else []) ∧
      (((xs.foldl agent.lineBuffer.Add (agent.newLineBuffer c)).Lines.length : Int) ≤ max c 0) ∧
      (((xs.foldl sshutil.LineBuffer.Add (sshutil.NewLineBuffer c)).Lines.length : Int)
        ≤ max c 0) := by
  by_cases hc : 0 < c
  · have hcn : (c.toNat : Int) = c := Int.toNat_of_nonneg hc.le
    have hd : xs.length - min xs.length c.toNat = xs.length - c.toNat := by omega
    rw [agent.lineBuffer.foldl_Add_pos c hc, sshutil.LineBuffer.Add_foldl_pos c hc]
    simp only [agent.lineBuffer.Lines, sshutil.LineBuffer.Lines, if_pos hc, Spec.lastN, hd,
      List.length_drop, true_and]
    have : ((xs.length - (xs.length - c.toNat) : Nat) : Int) ≤ max c 0 := by
      have := le_max_left c 0
      omega
    exact ⟨this, this⟩
  · have hc' : c ≤ 0 := not_lt.mp hc
    rw [agent.lineBuffer.foldl_Add_nonpos c hc' xs _ rfl,
      sshutil.LineBuffer.Add_foldl_nonpos c hc' xs _ rfl]
    simp [agent.lineBuffer.Lines, sshutil.LineBuffer.Lines, agent.newLineBuffer,
      sshutil.NewLineBuffer, if_neg hc]

/-! ### Restart triggers: dropped, accepted, skipped -/

namespace agent

theorem allowTrigger_nonpos (a : Agent) (window : time.Duration) (now : time.Time)
    (hw : window ≤ 0) : a.allowTrigger window now = (a, true) := by
  simp [Agent.allowTrigger, hw]

theorem allowTrigger_skip_sub (a : Agent) (window : time.Duration) (now : time.Time)
    (hw : 0 < window) (h0 : a.lastTrigger ≠ 0)
    (hlt : time.Time.Sub now a.lastTrigger < window) :
    a.allowTrigger window now = (a, false) := by
  simp [Agent.allowTrigger, not_le.mpr hw, time.Time.IsZero, h0, hlt]

/-- A trigger whose distance to the last accepted one is below the window is skipped. -/
theorem fire_skip_sub (a : Agent) (l : logging.Logger) (t : Trigger) (now : time.Time)
    (hconn : a.State = state.StateConnected) (hlog : a.logger = some l)
    (hw : 0 < a.debounceWindow) (h0 : a.lastTrigger ≠ 0)
    (hlt : time.Time.Sub now a.lastTrigger < a.debounceWindow) :
    (a.fire l t now).trace = a.trace ++ [skippedEvent t] ∧
    (a.fire l t now).lastTrigger = a.lastTrigger := by
  have hconn' : a.sm.state = state.StateConnected := hconn
  cases t with
  | monitor reason =>
    have h := allowTrigger_skip_sub (a.setLastTriggerReason reason)
      (a.setLastTriggerReason reason).debounceWindow now hw h0 hlt
    simp only [Agent.fire, Agent.triggerRestart, Agent.requestRestart, h, hconn, ne_eq,
      not_true_eq_false, if_false, Bool.not_false, if_true, reduceCtorEq, not_false_eq_true]
    simp [Agent.act, Agent.setLastTriggerReason, skippedEvent, Trigger.reason, Agent.State,
      hconn', hlog]
  | request reason =>
    have h := allowTrigger_skip_sub (a.setLastTriggerReason reason)
      (a.setLastTriggerReason reason).debounceWindow now hw h0 hlt
    simp only [Agent.fire, Agent.RequestRestart, Agent.requestRestart, h, hconn, hlog, ne_eq,
      not_true_eq_false, if_false, Bool.not_false, if_true, reduceCtorEq, not_false_eq_true]
    simp [Agent.act, Agent.setLastTriggerReason, skippedEvent, Trigger.reason, Agent.State,
      hconn', hlog]
  | periodic =>
    have h := allowTrigger_skip_sub a a.debounceWindow now hw h0 hlt
    simp only [Agent.fire, Agent.periodicTick, h, hconn, ne_eq,
      not_true_eq_false, if_false, Bool.not_false, if_true]
    simp [Agent.act, skippedEvent, Trigger.reason, Agent.State, hconn', hlog]

/-- With a window that is not positive every trigger is accepted and `lastTrigger` stays. -/
theorem fire_nonpos (a : Agent) (l : logging.Logger) (t : Trigger) (now : time.Time)
    (hconn : a.State = state.StateConnected) (hlog : a.logger = some l)
    (hw : a.debounceWindow ≤ 0) :
    (a.fire l t now).trace = a.trace ++ triggeredEvent t ::
      (if a.cmd = some { hasProcess := true } then [Action.signal Signal.SIGTERM] else []) ∧
    (a.fire l t now).lastTrigger = a.lastTrigger := by
  have hconn' : a.sm.state = state.StateConnected := hconn
  have hcmd : a.cmd = none ∨ a.cmd = some { hasProcess := false } ∨
      a.cmd = some { hasProcess := true } := by
    rcases hc : a.cmd with _ | ⟨_ | _⟩ <;> simp
  cases t with
  | monitor reason =>
    have h := allowTrigger_nonpos (a.setLastTriggerReason reason)
      (a.setLastTriggerReason reason).debounceWindow now hw
    simp only [Agent.fire, Agent.triggerRestart, Agent.requestRestart, h, hconn, ne_eq,
      not_true_eq_false, if_false, Bool.not_true, if_true, reduceCtorEq, not_false_eq_true,
      Bool.false_eq_true]
    rcases hcmd with hc | hc | hc <;>
    simp [Agent.act, Agent.setLastTriggerReason, triggeredEvent, Trigger.reason, Agent.State,
      Agent.terminateProcess, hc, hconn', hlog]
  | request reason =>
    have h := allowTrigger_nonpos (a.setLastTriggerReason reason)
      (a.setLastTriggerReason reason).debounceWindow now hw
    simp only [Agent.fire, Agent.RequestRestart, Agent.requestRestart, h, hconn, hlog, ne_eq,
      not_true_eq_false, if_false, Bool.not_true, if_true, reduceCtorEq, not_false_eq_true,
      Bool.false_eq_true]
    rcases hcmd with hc | hc | hc <;>
    simp [Agent.act, Agent.setLastTriggerReason, triggeredEvent, Trigger.reason, Agent.State,
      Agent.terminateProcess, hc, hconn', hlog]
  | periodic =>
    have h := allowTrigger_nonpos a a.debounceWindow now hw
    simp only [Agent.fire, Agent.periodicTick, h, hconn, ne_eq,
      not_true_eq_false, if_false, Bool.not_true, if_true, Bool.false_eq_true]
    rcases hcmd with hc | hc | hc <;>
    simp [Agent.act, triggeredEvent, Trigger.reason, Agent.State, Agent.terminateProcess,
      Agent.setLastTriggerReason, hc, hconn', hlog]

/-- Outside CONNECTED `requestRestart` returns at its first test. -/
theorem requestRestart_not_connected (a : Agent) (reason : String)
    (logger : Option logging.Logger) (now : time.Time)
    (h : a.State ≠ state.StateConnected) : a.requestRestart reason logger now = a := by
  simp [Agent.requestRestart, h]

end agent

/-- C11: for every reason, every logger and every supervisor whose FSM is STOPPED or
CONNECTING, `requestRestart` (and with it `RequestRestart`, `triggerRestart` and every trigger
of `fire`) returns the supervisor unchanged: `last_trigger_at`, `last_trigger_reason`, the
counters and the trace of logged events and signals are what they were. -/
theorem C11_trigger_dropped (a : agent.Agent) (reason : String)
    (logger : Option logging.Logger) (l : logging.Logger) (t : agent.Trigger) (now : time.Time)
    (h : a.State = state.StateStopped ∨ a.State = state.StateConnecting) :
    a.requestRestart reason logger now = a ∧
    a.RequestRestart reason now = a ∧
    a.triggerRestart l reason now = a ∧
    a.fire l t now = a ∧
    (a.requestRestart reason logger now).lastTrigger = a.lastTrigger ∧
    (a.requestRestart reason logger now).lastTriggerReason = a.lastTriggerReason ∧
    (a.requestRestart reason logger now).startSuccessCount = a.startSuccessCount ∧
    (a.requestRestart reason logger now).startFailureCount = a.startFailureCount ∧
    (a.requestRestart reason logger now).exitSuccessCount = a.exitSuccessCount ∧
    (a.requestRestart reason logger now).exitFailureCount = a.exitFailureCount ∧
    (a.requestRestart reason logger now).restartCount = a.restartCount ∧
    (a.requestRestart reason logger now).trace = a.trace := by
  have hne : a.State ≠ state.StateConnected := by
    rcases h with h | h <;> rw [h] <;> decide
  have hr : ∀ lg, a.requestRestart reason lg now = a :=
    fun lg => agent.requestRestart_not_connected a reason lg now hne
  have hf : a.fire l t now = a := by
    cases t with
    | monitor r => exact agent.requestRestart_not_connected a r (some l) now hne
    | request r => exact agent.requestRestart_not_connected a r a.logger now hne
    | periodic => simp [agent.Agent.fire, agent.Agent.periodicTick, hne]
  refine ⟨hr logger, hr a.logger, hr (some l), hf, ?_⟩
  rw [hr logger]
  simp

theorem C11_trigger_dropped_witness :
    ((agent.New id (Examples.sampleConfig 1000)).State = state.StateStopped ∨
      (agent.New id (Examples.sampleConfig 1000)).State = state.StateConnecting) ∧
    (agent.New id (Examples.sampleConfig 1000)).requestRestart "network change"
      (some Examples.sampleLogger) 1700000000000000000
      = agent.New id (Examples.sampleConfig 1000) :=
  ⟨Or.inl (by decide),
   (C11_trigger_dropped (agent.New id (Examples.sampleConfig 1000)) "network change"
      (some Examples.sampleLogger) Examples.sampleLogger agent.Trigger.periodic
      1700000000000000000 (Or.inl (by decide))).1⟩

/-- C12 fails as stated: with `debounce_ms = 0` a trigger at the instant 1700000000000000000
on a CONNECTED supervisor is accepted (`restart_triggered` is logged and SIGTERM is sent to the
child), and `last_trigger_at` is still the zero time afterwards. -/
theorem C12_counterexample :
    (Examples.connectedAgent 0 []).cfg.Agent.Restart.DebounceMs = 0 ∧
    (Examples.connectedAgent 0 []).State = state.StateConnected ∧
    ((Examples.connectedAgent 0 []).RequestRestart "network change" 1700000000000000000).trace
      = [agent.Action.event "INFO" "restart_triggered" [("reason", "network change")],
         agent.Action.signal agent.Signal.SIGTERM] ∧
    ((Examples.connectedAgent 0 []).RequestRestart "network change"
        1700000000000000000).lastTrigger = 0 ∧
    ((Examples.connectedAgent 0 []).RequestRestart "network change"
        1700000000000000000).lastTrigger ≠ 1700000000000000000 := by
  refine ⟨by decide, by decide, by decide, by decide, by decide⟩

namespace agent

/-- The window of a `debounce_ms` whose milliseconds fit in a `Duration`. -/
theorem debounceWindow_of_range (a : Agent) (h0 : 0 ≤ a.cfg.Agent.Restart.DebounceMs)
    (h1 : a.cfg.Agent.Restart.DebounceMs * 1000000 < 2 ^ 63) :
    a.debounceWindow = a.cfg.Agent.Restart.DebounceMs * 1000000 := by
  unfold Agent.debounceWindow time.Millisecond
  exact goarith.wrapInt64_of_range _ (by linarith) h1

/-- With `debounce_ms = 9223372036855`, which `Validate` accepts, the window wraps around to a
negative `Duration`: a trigger is accepted and `last_trigger_at` is not set. -/
theorem debounceWindow_wrap_negative :
    0 < (Examples.connectedAgent 9223372036855 []).cfg.Agent.Restart.DebounceMs ∧
    config.Validate id id (some (Examples.connectedAgent 9223372036855 []).cfg) = none ∧
    (Examples.connectedAgent 9223372036855 []).debounceWindow = -9223372036854551616 ∧
    ((Examples.connectedAgent 9223372036855 []).RequestRestart "network change"
        1700000000000000000).trace
      = [Action.event "INFO" "restart_triggered" [("reason", "network change")],
         Action.signal Signal.SIGTERM] ∧
    ((Examples.connectedAgent 9223372036855 []).RequestRestart "network change"
        1700000000000000000).lastTrigger = 0 := by
  refine ⟨by decide, by decide, by decide, by decide, by decide⟩

end agent

/-- C12 (amended): on a CONNECTED supervisor with a logger, for every trigger at the instant
`now`.  With `debounce_ms = w`, `0 < w` and `w` milliseconds representable as a `Duration`
(`w × 10^6 < 2^63`): a trigger that passes the debounce test (no trigger accepted before, or
`w` ms have elapsed since `last_trigger_at`) logs `restart_triggered`, signals the child and
sets `last_trigger_at` to `now`, and a trigger that does not pass logs `restart_skipped` and
leaves `last_trigger_at` unchanged.  With `debounce_ms = 0` every trigger is accepted
(`restart_triggered`, signal) and `last_trigger_at` is left unchanged.  For every
`debounce_ms`, the same holds by the sign of the `int64` window
`time.Duration(debounce_ms) * time.Millisecond` as the code computes it: positive, the two
cases of the debounce test with that window; not positive, every trigger accepted and
`last_trigger_at` unchanged. -/
theorem C12_accepted_trigger_instant (a : agent.Agent) (l : logging.Logger)
    (t : agent.Trigger) (now : time.Time)
    (hconn : a.State = state.StateConnected) (hlog : a.logger = some l) :
    (0 < a.cfg.Agent.Restart.DebounceMs → a.cfg.Agent.Restart.DebounceMs * 1000000 < 2 ^ 63 →
      (a.lastTrigger = 0 ∨
        a.cfg.Agent.Restart.DebounceMs * 1000000 ≤ time.Time.Sub now a.lastTrigger) →
        (a.fire l t now).lastTrigger = now ∧
        (a.fire l t now).trace = a.trace ++ agent.triggeredEvent t ::
          (if a.cmd = some { hasProcess := true } then [agent.Action.signal agent.Signal.SIGTERM]
           else [])) ∧
    (0 < a.cfg.Agent.Restart.DebounceMs → a.cfg.Agent.Restart.DebounceMs * 1000000 < 2 ^ 63 →
      (a.lastTrigger ≠ 0 ∧
        time.Time.Sub now a.lastTrigger < a.cfg.Agent.Restart.DebounceMs * 1000000) →
        (a.fire l t now).lastTrigger = a.lastTrigger ∧
        (a.fire l t now).trace = a.trace ++ [agent.skippedEvent t]) ∧
    (a.cfg.Agent.Restart.DebounceMs = 0 →
        (a.fire l t now).lastTrigger = a.lastTrigger ∧
        (a.fire l t now).trace = a.trace ++ agent.triggeredEvent t ::
          (if a.cmd = some { hasProcess := true } then [agent.Action.signal agent.Signal.SIGTERM]
           else [])) ∧
    (0 < a.debounceWindow →
      (a.lastTrigger = 0 ∨ a.debounceWindow ≤ time.Time.Sub now a.lastTrigger) →
        (a.fire l t now).lastTrigger = now ∧
        (a.fire l t now).trace = a.trace ++ agent.triggeredEvent t ::
          (if a.cmd = some { hasProcess := true } then [agent.Action.signal agent.Signal.SIGTERM]
           else [])) ∧
    (0 < a.debounceWindow →
      (a.lastTrigger ≠ 0 ∧ time.Time.Sub now a.lastTrigger < a.debounceWindow) →
        (a.fire l t now).lastTrigger = a.lastTrigger ∧
        (a.fire l t now).trace = a.trace ++ [agent.skippedEvent t]) ∧
    (a.debounceWindow ≤ 0 →
        (a.fire l t now).lastTrigger = a.lastTrigger ∧
        (a.fire l t now).trace = a.trace ++ agent.triggeredEvent t ::
          (if a.cmd = some { hasProcess := true } then [agent.Action.signal agent.Signal.SIGTERM]
           else [])) := by
  have acc : 0 < a.debounceWindow →
      (a.lastTrigger = 0 ∨ a.debounceWindow ≤ time.Time.Sub now a.lastTrigger) →
        (a.fire l t now).lastTrigger = now ∧
        (a.fire l t now).trace = a.trace ++ agent.triggeredEvent t ::
          (if a.cmd = some { hasProcess := true } then [agent.Action.signal agent.Signal.SIGTERM]
           else []) := by
    intro hw h
    obtain ⟨f1, f2, _⟩ := agent.fire_accept a l t now hconn hlog hw h
    exact ⟨f2, f1⟩
  have skip : 0 < a.debounceWindow →
      (a.lastTrigger ≠ 0 ∧ time.Time.Sub now a.lastTrigger < a.debounceWindow) →
        (a.fire l t now).lastTrigger = a.lastTrigger ∧
        (a.fire l t now).trace = a.trace ++ [agent.skippedEvent t] := by
    intro hw h
    obtain ⟨f1, f2⟩ := agent.fire_skip_sub a l t now hconn hlog hw h.1 h.2
    exact ⟨f2, f1⟩
  have off : a.debounceWindow ≤ 0 →
        (a.fire l t now).lastTrigger = a.lastTrigger ∧
        (a.fire l t now).trace = a.trace ++ agent.triggeredEvent t ::
          (if a.cmd = some { hasProcess := true } then [agent.Action.signal agent.Signal.SIGTERM]
           else []) := by
    intro hw
    obtain ⟨f1, f2⟩ := agent.fire_nonpos a l t now hconn hlog hw
    exact ⟨f2, f1⟩
  refine ⟨fun h0 h1 h => ?_, fun h0 h1 h => ?_, fun h0 => ?_, acc, skip, off⟩
  · have hwin := agent.debounceWindow_of_range a h0.le h1
    exact acc (by rw [hwin]; linarith) (by rw [hwin]; exact h)
  · have hwin := agent.debounceWindow_of_range a h0.le h1
    exact skip (by rw [hwin]; linarith) (by rw [hwin]; exact h)
  · have hwin := agent.debounceWindow_of_range a h0.ge (by rw [h0]; norm_num)
    exact off (by rw [hwin, h0]; norm_num)

theorem C12_accepted_trigger_instant_witness :
    (Examples.connectedAgent 1000 []).State = state.StateConnected ∧
    (Examples.connectedAgent 1000 []).logger = some Examples.sampleLogger ∧
    0 < (Examples.connectedAgent 1000 []).cfg.Agent.Restart.DebounceMs ∧
    (Examples.connectedAgent 1000 []).cfg.Agent.Restart.DebounceMs * 1000000 < 2 ^ 63 ∧
    (Examples.connectedAgent 1000 []).lastTrigger = 0 ∧
    ((Examples.connectedAgent 1000 []).fire Examples.sampleLogger
        (agent.Trigger.request "network change") 1700000000000000000).lastTrigger
      = 1700000000000000000 :=
  ⟨by decide, by decide, by decide, by decide, by decide,
   ((C12_accepted_trigger_instant (Examples.connectedAgent 1000 []) Examples.sampleLogger
      (agent.Trigger.request "network change") 1700000000000000000 (by decide) (by decide)).1
      (by decide) (by decide) (Or.inl (by decide))).1⟩

/-- C13, evaluated: a CONNECTED supervisor with `debounce_ms = 1000` and a running periodic
ticker (`periodic_restart_sec = 3600`) accepts the trigger "wake" at the instant
1700000000000000000.  One millisecond later a periodic tick and a call of
`requestRestart("periodic")` are both debounced: they log the same `restart_skipped` event,
send no signal and leave `last_trigger_at` alone, but the tick leaves `last_trigger_reason` at
"wake" while `requestRestart` sets it to "periodic". -/
theorem C13_periodic_tick_reason :
    Examples.periodicAgent.cfg.Agent.PeriodicRestartSec = 3600 ∧
    Examples.periodicAgent.cfg.Agent.Restart.DebounceMs = 1000 ∧
    ((Examples.periodicAgent.fire Examples.sampleLogger
        (agent.Trigger.monitor "wake") 1700000000000000000).periodicTick
        1700000000001000000).lastTriggerReason = "wake" ∧
    ((Examples.periodicAgent.fire Examples.sampleLogger
        (agent.Trigger.monitor "wake") 1700000000000000000).requestRestart "periodic"
        (some Examples.sampleLogger) 1700000000001000000).lastTriggerReason = "periodic" ∧
    ((Examples.periodicAgent.fire Examples.sampleLogger
        (agent.Trigger.monitor "wake") 1700000000000000000).periodicTick
        1700000000001000000).trace =
      ((Examples.periodicAgent.fire Examples.sampleLogger
        (agent.Trigger.monitor "wake") 1700000000000000000).requestRestart "periodic"
        (some Examples.sampleLogger) 1700000000001000000).trace ∧
    ((Examples.periodicAgent.fire Examples.sampleLogger
        (agent.Trigger.monitor "wake") 1700000000000000000).periodicTick
        1700000000001000000).trace =
      [agent.Action.event "INFO" "restart_triggered" [("reason", "wake")],
       agent.Action.signal agent.Signal.SIGTERM,
       agent.Action.event "INFO" "restart_skipped"
         [("reason", "periodic"), ("detail", "debounced")]] ∧
    ((Examples.periodicAgent.fire Examples.sampleLogger
        (agent.Trigger.monitor "wake") 1700000000000000000).periodicTick
        1700000000001000000).lastTrigger =
      ((Examples.periodicAgent.fire Examples.sampleLogger
        (agent.Trigger.monitor "wake") 1700000000000000000).requestRestart "periodic"
        (some Examples.sampleLogger) 1700000000001000000).lastTrigger := by
  refine ⟨by decide, by decide, by decide, by decide, by decide, by decide, by decide⟩

/-! ### Trimming -/

namespace strings

theorem TrimSpace_data (s : String) :
    (TrimSpace s).data = (s.data.dropWhile unicode.IsSpace).rdropWhile unicode.IsSpace := rfl

/-- The first character of a trimmed string is not white space. -/
theorem TrimSpace_head (s : String) (c : Char) (h : (TrimSpace s).data.head? = some c) :
    unicode.IsSpace c = false := by
  rw [TrimSpace_data] at h
  have hne : (s.data.dropWhile unicode.IsSpace).rdropWhile unicode.IsSpace ≠ [] := by
    intro h0; rw [h0] at h; simp at h
  have hpre := List.rdropWhile_prefix unicode.IsSpace (s.data.dropWhile unicode.IsSpace)
  have hne2 : s.data.dropWhile unicode.IsSpace ≠ [] := by
    intro h0; rw [h0] at hne; simp at hne
  have h1 := List.IsPrefix.head hpre hne
  have h2 := List.head_dropWhile_not unicode.IsSpace s.data hne2
  rw [List.head?_eq_head hne] at h
  have h3 : c = (s.data.dropWhile unicode.IsSpace).head hne2 := by
    rw [← h1]; exact (Option.some.inj h).symm
  rw [h3]; exact h2

/-- The last character of a trimmed string is not white space. -/
theorem TrimSpace_getLast (s : String) (c : Char) (h : (TrimSpace s).data.getLast? = some c) :
    unicode.IsSpace c = false := by
  rw [TrimSpace_data] at h
  have hne : (s.data.dropWhile unicode.IsSpace).rdropWhile unicode.IsSpace ≠ [] := by
    intro h0; rw [h0] at h; simp at h
  have h1 := List.rdropWhile_last_not unicode.IsSpace (s.data.dropWhile unicode.IsSpace) hne
  rw [List.getLast?_eq_getLast _ hne] at h
  rw [← Option.some.inj h]
  simpa using h1

/-- A string whose first and last characters are not white space is its own trimmed form. -/
theorem TrimSpace_eq_self (s : String)
    (hh : ∀ c, s.data.head? = some c → unicode.IsSpace c = false)
    (hl : ∀ c, s.data.getLast? = some c → unicode.IsSpace c = false) : TrimSpace s = s := by
  have h1 : s.data.dropWhile unicode.IsSpace = s.data := by
    rw [List.dropWhile_eq_self_iff]
    intro hlen
    have hg : ∀ (l : List Char) (h : 0 < l.length), l.head? = some (l.get ⟨0, h⟩) := by
      intro l h
      cases l with
      | nil => simp at h
      | cons x xs => rfl
    rw [Bool.not_eq_true]
    exact hh _ (hg s.data hlen)
  have h2 : s.data.rdropWhile unicode.IsSpace = s.data := by
    rw [List.rdropWhile_eq_self_iff]
    intro hne
    have : s.data.getLast? = some (s.data.getLast hne) := List.getLast?_eq_getLast _ hne
    rw [Bool.not_eq_true]
    exact hl _ this
  have h3 : (TrimSpace s).data = s.data := by rw [TrimSpace_data, h1, h2]
  exact String.ext h3

theorem TrimSpace_idem (s : String) : TrimSpace (TrimSpace s) = TrimSpace s :=
  TrimSpace_eq_self _ (TrimSpace_head s) (TrimSpace_getLast s)

end strings

/-! ### The canonical form of a forward list -/

namespace Spec

theorem firstOccurrences_of_nodup (xs : List String) (h : xs.Nodup) :
    firstOccurrences xs = xs := by
  unfold firstOccurrences
  rw [List.dedup_eq_self.mpr (List.nodup_reverse.mpr h), List.reverse_reverse]

theorem firstOccurrences_nodup (xs : List String) : (firstOccurrences xs).Nodup :=
  List.nodup_reverse.mpr (List.nodup_dedup _)

theorem mem_firstOccurrences (x : String) (xs : List String) :
    x ∈ firstOccurrences xs ↔ x ∈ xs := by
  simp [firstOccurrences]

/-- An entry that occurred before is dropped. -/
theorem firstOccurrences_append_mem (out rest : List String) (t : String) (h : t ∈ out) :
    firstOccurrences (out ++ t :: rest) = firstOccurrences (out ++ rest) := by
  unfold firstOccurrences
  congr 1
  have h1 : (out ++ t :: rest).reverse = rest.reverse ++ t :: out.reverse := by simp
  have h2 : (out ++ rest).reverse = rest.reverse ++ out.reverse := by simp
  rw [h1, h2, List.dedup_append, List.dedup_append,
    List.dedup_cons_of_mem (List.mem_reverse.mpr h)]

theorem normalize_canonical (xs : List String) : Canonical (normalize xs) := by
  refine ⟨firstOccurrences_nodup _, fun x hx => ?_⟩
  rw [normalize, mem_firstOccurrences, List.mem_filter, List.mem_map] at hx
  obtain ⟨⟨y, _, hy⟩, hne⟩ := hx
  refine ⟨by simpa using hne, ?_⟩
  rw [← hy]
  exact strings.TrimSpace_idem y

theorem normalize_of_canonical (xs : List String) (h : Canonical xs) : normalize xs = xs := by
  obtain ⟨hnd, hx⟩ := h
  have h1 : xs.map strings.TrimSpace = xs := by
    conv_rhs => rw [← List.map_id xs]
    exact List.map_congr_left (fun x hm => (hx x hm).2)
  have h2 : xs.filter (fun x => decide (x ≠ "")) = xs := by
    rw [List.filter_eq_self]
    intro x hm
    simpa using (hx x hm).1
  rw [normalize, h1, h2]
  exact firstOccurrences_of_nodup xs hnd

theorem normalize_idem (xs : List String) : normalize (normalize xs) = normalize xs :=
  normalize_of_canonical _ (normalize_canonical xs)

theorem normalize_nil : normalize [] = [] := by decide

theorem normalize_empty_string : normalize [""] = [] := by decide

end Spec

namespace config

/-- The loop with the map `seen` computes the first occurrences. -/
theorem foldl_addForward (xs out : List String) (hout : out.Nodup) :
    xs.foldl addForward out =
      Spec.firstOccurrences (out ++ (xs.map strings.TrimSpace).filter (fun x => x ≠ "")) := by
  induction xs generalizing out with
  | nil => simp [Spec.firstOccurrences_of_nodup out hout]
  | cons x xs ih =>
    rw [List.foldl_cons, List.map_cons]
    by_cases he : strings.TrimSpace x = ""
    · have ha : addForward out x = out := by simp [addForward, he]
      rw [ha, ih out hout]
      simp [List.filter_cons, he]
    · have hf : ((strings.TrimSpace x :: xs.map strings.TrimSpace).filter (fun x => x ≠ ""))
          = strings.TrimSpace x :: (xs.map strings.TrimSpace).filter (fun x => x ≠ "") := by
        simp [List.filter_cons, he]
      rw [hf]
      by_cases hm : strings.TrimSpace x ∈ out
      · have ha : addForward out x = out := by simp [addForward, he, hm]
        rw [ha, ih out hout, Spec.firstOccurrences_append_mem _ _ _ hm]
      · have ha : addForward out x = out ++ [strings.TrimSpace x] := by
          simp [addForward, he, hm]
        have hnd : (out ++ [strings.TrimSpace x]).Nodup := by
          rw [List.nodup_append]
          refine ⟨hout, List.nodup_singleton _, ?_⟩
          intro a h1 h2
          rw [List.mem_singleton] at h2
          exact hm (h2 ▸ h1)
        rw [ha, ih _ hnd, List.append_assoc, List.singleton_append]

theorem foldl_addForward_nil (xs : List String) :
    xs.foldl addForward [] = Spec.normalize xs := by
  rw [foldl_addForward xs [] List.nodup_nil, List.nil_append, Spec.normalize]

theorem NormalizeRemoteForwards_some (cfg : Config) :
    NormalizeRemoteForwards (some cfg) =
      Spec.normalize (cfg.SSH.RemoteForward :: cfg.SSH.RemoteForwards) := by
  rw [← foldl_addForward_nil]
  rfl

theorem SetRemoteForwards_some (cfg : Config) (xs : List String) :
    SetRemoteForwards (some cfg) xs =
      some { cfg with SSH := { cfg.SSH with
                                RemoteForward := (Spec.normalize xs).headD ""
                                RemoteForwards := (Spec.normalize xs).tail } } := by
  unfold SetRemoteForwards
  simp only [foldl_addForward_nil]
  rcases Spec.normalize xs with _ | ⟨x, _ | ⟨y, rest⟩⟩ <;> rfl

theorem Normalize_Set (cfg : Config) (xs : List String) :
    NormalizeRemoteForwards (SetRemoteForwards (some cfg) xs) = Spec.normalize xs := by
  rw [SetRemoteForwards_some, NormalizeRemoteForwards_some]
  have hc := Spec.normalize_canonical xs
  rcases hn : Spec.normalize xs with _ | ⟨x, rest⟩
  · exact Spec.normalize_empty_string
  · rw [hn] at hc
    exact Spec.normalize_of_canonical _ hc

end config

/-- C17: for every configuration pointer `c` (`nil` included), storing
`NormalizeRemoteForwards(c)` back with `SetRemoteForwards` and normalizing again yields the same
list. -/
theorem C17_normalize_idempotent (c : Option config.Config) :
    config.NormalizeRemoteForwards
        (config.SetRemoteForwards c (config.NormalizeRemoteForwards c))
      = config.NormalizeRemoteForwards c := by
  cases c with
  | none => rfl
  | some cfg =>
    rw [config.Normalize_Set, config.NormalizeRemoteForwards_some, Spec.normalize_idem]

/-- C18: for every configuration with scalar field `r` and list field `L`,
`NormalizeRemoteForwards` returns `[r] ++ L` with every entry trimmed, the entries that are
empty after trimming dropped, and only the first occurrence of each remaining string kept, in
the original order; the result has no duplicates, no empty string, and no entry whose first or
last character is white space (each entry is its own trimmed form). -/
theorem C18_normalize_spec (cfg : config.Config) :
    config.NormalizeRemoteForwards (some cfg)
      = Spec.normalize ([cfg.SSH.RemoteForward] ++ cfg.SSH.RemoteForwards) ∧
    (config.NormalizeRemoteForwards (some cfg)).Nodup ∧
    "" ∉ config.NormalizeRemoteForwards (some cfg) ∧
    ∀ x ∈ config.NormalizeRemoteForwards (some cfg),
      strings.TrimSpace x = x ∧
      (∀ c, x.data.head? = some c → unicode.IsSpace c = false) ∧
      (∀ c, x.data.getLast? = some c → unicode.IsSpace c = false) := by
  have hc := Spec.normalize_canonical (cfg.SSH.RemoteForward :: cfg.SSH.RemoteForwards)
  rw [config.NormalizeRemoteForwards_some, List.singleton_append]
  refine ⟨rfl, hc.1, fun h => (hc.2 "" h).1 rfl, fun x hx => ?_⟩
  have ht := (hc.2 x hx).2
  refine ⟨ht, fun c h => ?_, fun c h => ?_⟩
  · rw [← ht] at h
    exact strings.TrimSpace_head x c h
  · rw [← ht] at h
    exact strings.TrimSpace_getLast x c h

/-- C19: for every configuration and every list `xs` of forwards, with `N` the trimmed,
non-empty, first-occurrence form of `xs`, `SetRemoteForwards(cfg, xs)` changes only the scalar
and the list field: the scalar becomes `""` when `N` is empty and `N[0]` otherwise, the list
becomes `N[1:]` (empty when `N` has at most one entry), and `NormalizeRemoteForwards(cfg)`
afterwards is `N`. -/
theorem C19_set_forwards (cfg : config.Config) (xs : List String) :
    config.SetRemoteForwards (some cfg) xs =
      some { cfg with SSH := { cfg.SSH with
                                RemoteForward := (Spec.normalize xs).headD ""
                                RemoteForwards := (Spec.normalize xs).tail } } ∧
    (config.SetRemoteForwards (some cfg) xs).map (fun c => c.SSH.RemoteForward)
      = some (match Spec.normalize xs with
              | [] => ""
              | x :: _ => x) ∧
    (config.SetRemoteForwards (some cfg) xs).map (fun c => c.SSH.RemoteForwards)
      = some (match Spec.normalize xs with
              | [] => []
              | [_] => []
              | _ :: y :: rest => y :: rest) ∧
    (config.SetRemoteForwards (some cfg) xs).map (fun c => c.Agent) = some cfg.Agent ∧
    (config.SetRemoteForwards (some cfg) xs).map (fun c => c.Logging) = some cfg.Logging ∧
    (config.SetRemoteForwards (some cfg) xs).map
        (fun c => (c.SSH.User, c.SSH.Host, c.SSH.Port, c.SSH.IdentityFile, c.SSH.Options))
      = some (cfg.SSH.User, cfg.SSH.Host, cfg.SSH.Port, cfg.SSH.IdentityFile, cfg.SSH.Options) ∧
    config.NormalizeRemoteForwards (config.SetRemoteForwards (some cfg) xs)
      = Spec.normalize xs := by
  refine ⟨config.SetRemoteForwards_some cfg xs, ?_, ?_, ?_, ?_, ?_, config.Normalize_Set cfg xs⟩
  all_goals rw [config.SetRemoteForwards_some]
  · rcases Spec.normalize xs with _ | ⟨x, rest⟩ <;> rfl
  · rcases Spec.normalize xs with _ | ⟨x, _ | ⟨y, rest⟩⟩ <;> rfl
  · rfl
  · rfl
  · rfl

namespace Spec

theorem dedup_append_singleton (l : List String) (x : String) :
    (l ++ [x]).dedup = l.dedup.filter (fun y => y ≠ x) ++ [x] := by
  induction l with
  | nil => simp
  | cons a l ih =>
    rw [List.cons_append]
    by_cases hax : a = x
    · subst hax
      rw [List.dedup_cons_of_mem (by simp), ih]
      by_cases hm : a ∈ l
      · rw [List.dedup_cons_of_mem hm]
      · rw [List.dedup_cons_of_not_mem hm]
        simp [List.filter_cons]
    · by_cases hm : a ∈ l
      · rw [List.dedup_cons_of_mem (by simp [hm]), List.dedup_cons_of_mem hm, ih]
      · rw [List.dedup_cons_of_not_mem (by simp [hm, hax]), List.dedup_cons_of_not_mem hm, ih]
        simp [List.filter_cons, hax]

/-- The recursive reading of `firstOccurrences`: the head is kept and its later copies are
removed from the first occurrences of the tail. -/
theorem firstOccurrences_cons (x : String) (xs : List String) :
    firstOccurrences (x :: xs) = x :: (firstOccurrences xs).filter (fun y => y ≠ x) := by
  unfold firstOccurrences
  rw [List.reverse_cons, dedup_append_singleton, List.reverse_append, List.reverse_singleton,
    List.singleton_append, List.filter_reverse]

theorem firstOccurrences_nil : firstOccurrences [] = [] := rfl

end Spec

/-! ### Mutations of the forward set -/

namespace agent

theorem allowTrigger_frame (a : Agent) (window : time.Duration) (now : time.Time) :
    (a.allowTrigger window now).1.cfg = a.cfg ∧
    (a.allowTrigger window now).1.lastTriggerReason = a.lastTriggerReason ∧
    (a.allowTrigger window now).1.trace = a.trace ∧
    (a.allowTrigger window now).1.cmd = a.cmd := by
  unfold Agent.allowTrigger
  split_ifs <;> simp

theorem terminateProcess_frame (a : Agent) :
    a.terminateProcess.cfg = a.cfg ∧
    a.terminateProcess.lastTriggerReason = a.lastTriggerReason := by
  unfold Agent.terminateProcess
  rcases a.cmd with _ | ⟨_ | _⟩ <;> simp [Agent.act]

/-- A restart request never touches the configuration. -/
theorem requestRestart_cfg (a : Agent) (reason : String) (logger : Option logging.Logger)
    (now : time.Time) : (a.requestRestart reason logger now).cfg = a.cfg := by
  have h := allowTrigger_frame (a.setLastTriggerReason reason)
    (a.setLastTriggerReason reason).debounceWindow now
  have hb : (a.setLastTriggerReason reason).cfg = a.cfg := rfl
  unfold Agent.requestRestart
  simp only []
  generalize a.setLastTriggerReason reason = b at h hb ⊢
  generalize b.allowTrigger b.debounceWindow now = r at h ⊢
  split_ifs <;> simp [Agent.act, (terminateProcess_frame _).1, h.1, hb]

/-- In CONNECTED a restart request records its reason. -/
theorem requestRestart_reason (a : Agent) (reason : String) (logger : Option logging.Logger)
    (now : time.Time) (hconn : a.State = state.StateConnected) :
    (a.requestRestart reason logger now).lastTriggerReason = reason := by
  have h := allowTrigger_frame (a.setLastTriggerReason reason)
    (a.setLastTriggerReason reason).debounceWindow now
  have hb : (a.setLastTriggerReason reason).lastTriggerReason = reason := rfl
  unfold Agent.requestRestart
  simp only []
  rw [if_neg (by simp [hconn])]
  generalize a.setLastTriggerReason reason = b at h hb ⊢
  generalize b.allowTrigger b.debounceWindow now = r at h ⊢
  split_ifs <;> simp [Agent.act, (terminateProcess_frame _).2, h.2.1, hb]

theorem setForwards_eq (a : Agent) (xs : List String) :
    a.setForwards xs =
      { a with cfg := { a.cfg with SSH := { a.cfg.SSH with
                          RemoteForward := (Spec.normalize xs).headD ""
                          RemoteForwards := (Spec.normalize xs).tail } } } := by
  unfold Agent.setForwards
  rw [config.SetRemoteForwards_some]

theorem setForwards_current (a : Agent) (xs : List String) :
    (a.setForwards xs).currentRemoteForwards = Spec.normalize xs := by
  have h := config.Normalize_Set a.cfg xs
  unfold Agent.setForwards Agent.currentRemoteForwards
  rw [config.SetRemoteForwards_some] at h ⊢
  exact h

theorem currentRemoteForwards_canonical (a : Agent) :
    Spec.Canonical a.currentRemoteForwards := by
  unfold Agent.currentRemoteForwards
  rw [config.NormalizeRemoteForwards_some]
  exact Spec.normalize_canonical _

theorem currentRemoteForwards_congr (a b : Agent) (h : a.cfg = b.cfg) :
    a.currentRemoteForwards = b.currentRemoteForwards := by
  simp [Agent.currentRemoteForwards, h]

end agent

namespace Spec

theorem Canonical.append_singleton (xs : List String) (t : String) (h : Canonical xs)
    (hne : t ≠ "") (ht : strings.TrimSpace t = t) (hm : t ∉ xs) : Canonical (xs ++ [t]) := by
  refine ⟨?_, fun x hx => ?_⟩
  · rw [List.nodup_append]
    refine ⟨h.1, List.nodup_singleton _, ?_⟩
    intro a h1 h2
    rw [List.mem_singleton] at h2
    exact hm (h2 ▸ h1)
  · rw [List.mem_append, List.mem_singleton] at hx
    rcases hx with hx | hx
    · exact h.2 x hx
    · rw [hx]; exact ⟨hne, ht⟩

theorem Canonical.filter (xs : List String) (p : String → Bool) (h : Canonical xs) :
    Canonical (xs.filter p) :=
  ⟨h.1.filter p, fun x hx => h.2 x (List.mem_filter.mp hx).1⟩

end Spec

namespace agent

theorem RequestRestart_cfg (a : Agent) (reason : String) (now : time.Time) :
    (a.RequestRestart reason now).cfg = a.cfg :=
  requestRestart_cfg a reason a.logger now

theorem RequestRestart_reason (a : Agent) (reason : String) (now : time.Time)
    (hconn : a.State = state.StateConnected) :
    (a.RequestRestart reason now).lastTriggerReason = reason :=
  requestRestart_reason a reason a.logger now hconn

end agent

/-- C14: with `t` the trimmed argument and `F` the normalized forward list before the call,
`AddRemoteForward` returns the error "remote forward is required" and leaves the supervisor
unchanged when `t` is empty; returns `(false, nil)` and leaves the supervisor unchanged when
`t` is in `F`; otherwise it returns `(true, nil)`, the normalized forward list afterwards is
`F ++ [t]`, and `RequestRestart("remote forward added")` is called on the updated supervisor
(in CONNECTED this records the reason "remote forward added"). -/
theorem C14_add_remote_forward (a : agent.Agent) (s : String) (now : time.Time) :
    (strings.TrimSpace s = "" →
      a.AddRemoteForward s now = (a, false, some "remote forward is required")) ∧
    (strings.TrimSpace s ≠ "" → strings.TrimSpace s ∈ a.currentRemoteForwards →
      a.AddRemoteForward s now = (a, false, none)) ∧
    (strings.TrimSpace s ≠ "" → strings.TrimSpace s ∉ a.currentRemoteForwards →
      (a.AddRemoteForward s now).2 = (true, none) ∧
      (a.AddRemoteForward s now).1.currentRemoteForwards
        = a.currentRemoteForwards ++ [strings.TrimSpace s] ∧
      (a.AddRemoteForward s now).1
        = (a.setForwards (a.currentRemoteForwards ++ [strings.TrimSpace s])).RequestRestart
            "remote forward added" now ∧
      (a.State = state.StateConnected →
        (a.AddRemoteForward s now).1.lastTriggerReason = "remote forward added")) := by
  refine ⟨fun he => ?_, fun he hm => ?_, fun he hm => ?_⟩
  · simp [agent.Agent.AddRemoteForward, he]
  · have hm' : strings.TrimSpace s ∈ config.NormalizeRemoteForwards (some a.cfg) := hm
    simp [agent.Agent.AddRemoteForward, he, hm']
  · have hm' : strings.TrimSpace s ∉ config.NormalizeRemoteForwards (some a.cfg) := hm
    have hr : a.AddRemoteForward s now =
        ((a.setForwards (a.currentRemoteForwards ++ [strings.TrimSpace s])).RequestRestart
            "remote forward added" now, true, none) := by
      simp [agent.Agent.AddRemoteForward, he, hm', agent.Agent.currentRemoteForwards]
    have hcan := Spec.Canonical.append_singleton _ _ (agent.currentRemoteForwards_canonical a)
      he (strings.TrimSpace_idem s) hm
    rw [hr]
    refine ⟨rfl, ?_, rfl, fun hconn => ?_⟩
    · show (agent.Agent.RequestRestart _ _ _).currentRemoteForwards = _
      rw [agent.currentRemoteForwards_congr _ _
        (agent.RequestRestart_cfg _ "remote forward added" now),
        agent.setForwards_current, Spec.normalize_of_canonical _ hcan]
    · refine agent.RequestRestart_reason _ _ _ ?_
      rw [agent.setForwards_eq]
      exact hconn

theorem C14_add_remote_forward_witness :
    strings.TrimSpace " B " ≠ "" ∧
    strings.TrimSpace " B " ∉ (Examples.forwardAgent "A" []).currentRemoteForwards ∧
    (Examples.forwardAgent "A" []).currentRemoteForwards = ["A"] ∧
    ((Examples.forwardAgent "A" []).AddRemoteForward " B " 1700000000000000000).1.currentRemoteForwards
      = ["A"] ++ [strings.TrimSpace " B "] ∧
    ((Examples.forwardAgent "A" []).AddRemoteForward " B " 1700000000000000000).1.currentRemoteForwards
      = ["A", "B"] :=
  ⟨by decide, by decide, by decide,
   ((C14_add_remote_forward (Examples.forwardAgent "A" []) " B " 1700000000000000000).2.2
      (by decide) (by decide)).2.1,
   by decide⟩

namespace Spec

/-- Deleting the only entry of a list without duplicates is the one way to empty it. -/
theorem filter_ne_eq_nil (xs : List String) (t : String) (hnd : xs.Nodup) (hm : t ∈ xs)
    (h : xs.filter (fun x => x ≠ t) = []) : xs = [t] := by
  have hall : ∀ x ∈ xs, x = t := by
    intro x hx
    by_contra hne
    have : x ∈ xs.filter (fun x => x ≠ t) := List.mem_filter.mpr ⟨hx, by simpa using hne⟩
    rw [h] at this
    simp at this
  cases xs with
  | nil => simp at hm
  | cons x rest =>
    have hx : x = t := hall x (List.mem_cons_self _ _)
    have hrest : rest = [] := by
      rw [List.eq_nil_iff_forall_not_mem]
      intro y hy
      have hyt : y = t := hall y (List.mem_cons_of_mem _ hy)
      have hxn : x ∉ rest := (List.nodup_cons.mp hnd).1
      exact hxn (by rw [hx, ← hyt]; exact hy)
    rw [hx, hrest]

theorem erase_eq_filter_ne (xs : List String) (t : String) (hnd : xs.Nodup) :
    xs.erase t = xs.filter (fun x => x ≠ t) := by
  rw [hnd.erase_eq_filter]
  congr 1
  funext x
  by_cases h : x = t <;> simp [bne, h]

end Spec

/-- C15: with `t` the trimmed argument and `F` the normalized forward list before the call,
`RemoveRemoteForward` returns the error "remote forward is required" when `t` is empty,
`(false, nil)` when `t` is not in `F`, and the error "at least one remote forward is required"
when `F = [t]`; in these three cases the supervisor (forward set, `last_trigger_at`,
`last_trigger_reason`, trace) is unchanged.  Otherwise it returns `(true, nil)`, the normalized
forward list afterwards is `F` with `t` deleted and the other entries in their order, and
`RequestRestart("remote forward removed")` is called on the updated supervisor. -/
theorem C15_remove_remote_forward (a : agent.Agent) (s : String) (now : time.Time) :
    (strings.TrimSpace s = "" →
      a.RemoveRemoteForward s now = (a, false, some "remote forward is required")) ∧
    (strings.TrimSpace s ≠ "" → strings.TrimSpace s ∉ a.currentRemoteForwards →
      a.RemoveRemoteForward s now = (a, false, none)) ∧
    (a.currentRemoteForwards = [strings.TrimSpace s] →
      a.RemoveRemoteForward s now
        = (a, false, some "at least one remote forward is required")) ∧
    (strings.TrimSpace s ≠ "" → strings.TrimSpace s ∈ a.currentRemoteForwards →
      a.currentRemoteForwards ≠ [strings.TrimSpace s] →
      (a.RemoveRemoteForward s now).2 = (true, none) ∧
      (a.RemoveRemoteForward s now).1.currentRemoteForwards
        = a.currentRemoteForwards.erase (strings.TrimSpace s) ∧
      (a.RemoveRemoteForward s now).1.currentRemoteForwards
        = a.currentRemoteForwards.filter (fun x => x ≠ strings.TrimSpace s) ∧
      (a.RemoveRemoteForward s now).1
        = (a.setForwards
            (a.currentRemoteForwards.filter (fun x => x ≠ strings.TrimSpace s))).RequestRestart
            "remote forward removed" now ∧
      (a.State = state.StateConnected →
        (a.RemoveRemoteForward s now).1.lastTriggerReason = "remote forward removed")) := by
  have hF : config.NormalizeRemoteForwards (some a.cfg) = a.currentRemoteForwards := rfl
  have hcan := agent.currentRemoteForwards_canonical a
  refine ⟨fun he => ?_, fun he hm => ?_, fun h1 => ?_, fun he hm hne => ?_⟩
  · simp [agent.Agent.RemoveRemoteForward, he]
  · simp [agent.Agent.RemoveRemoteForward, he, hF, hm]
  · have he : strings.TrimSpace s ≠ "" := (hcan.2 _ (by rw [h1]; simp)).1
    simp [agent.Agent.RemoveRemoteForward, he, hF, h1]
  · have hnext : a.currentRemoteForwards.filter (fun x => x ≠ strings.TrimSpace s) ≠ [] :=
      fun h0 => hne (Spec.filter_ne_eq_nil _ _ hcan.1 hm h0)
    have hr : a.RemoveRemoteForward s now =
        ((a.setForwards
            (a.currentRemoteForwards.filter (fun x => x ≠ strings.TrimSpace s))).RequestRestart
            "remote forward removed" now, true, none) := by
      simp only [agent.Agent.RemoveRemoteForward, hF, if_neg he]
      have hany : a.currentRemoteForwards.any (fun existing => existing = strings.TrimSpace s)
          = true := by
        rw [List.any_eq_true]
        exact ⟨_, hm, by simp⟩
      rw [hany]
      have hex : ∃ x ∈ a.currentRemoteForwards, ¬x = strings.TrimSpace s := by
        simpa using hnext
      simp [hex]
    have hcan2 := Spec.Canonical.filter _ (fun x => x ≠ strings.TrimSpace s) hcan
    have hcur : ((a.setForwards
            (a.currentRemoteForwards.filter (fun x => x ≠ strings.TrimSpace s))).RequestRestart
            "remote forward removed" now).currentRemoteForwards
          = a.currentRemoteForwards.filter (fun x => x ≠ strings.TrimSpace s) := by
      rw [agent.currentRemoteForwards_congr _ _
        (agent.RequestRestart_cfg _ "remote forward removed" now),
        agent.setForwards_current, Spec.normalize_of_canonical _ hcan2]
    rw [hr]
    refine ⟨rfl, ?_, hcur, rfl, fun hconn => ?_⟩
    · rw [Spec.erase_eq_filter_ne _ _ hcan.1]
      exact hcur
    · refine agent.RequestRestart_reason _ _ _ ?_
      rw [agent.setForwards_eq]
      exact hconn

theorem C15_remove_remote_forward_witness :
    strings.TrimSpace "B\n" ≠ "" ∧
    (Examples.forwardAgent "A" ["B", "C"]).currentRemoteForwards = ["A", "B", "C"] ∧
    ((Examples.forwardAgent "A" ["B", "C"]).RemoveRemoteForward "B\n"
        1700000000000000000).1.currentRemoteForwards
      = (Examples.forwardAgent "A" ["B", "C"]).currentRemoteForwards.erase
          (strings.TrimSpace "B\n") ∧
    ((Examples.forwardAgent "A" ["B", "C"]).RemoveRemoteForward "B\n"
        1700000000000000000).1.currentRemoteForwards = ["A", "C"] ∧
    ((Examples.forwardAgent "A" []).RemoveRemoteForward "A" 1700000000000000000).2
      = (false, some "at least one remote forward is required") :=
  ⟨by decide, by decide,
   ((C15_remove_remote_forward (Examples.forwardAgent "A" ["B", "C"]) "B\n"
      1700000000000000000).2.2.2 (by decide) (by decide) (by decide)).2.1,
   by decide, by decide⟩

namespace agent

/-- What `Stop` leaves alone, and what it adds to the trace: signals to the child only. -/
theorem Stop_frame (a : Agent) (exitedInTime : Bool) :
    (a.Stop exitedInTime).1.cfg = a.cfg ∧
    (a.Stop exitedInTime).1.lastTrigger = a.lastTrigger ∧
    (a.Stop exitedInTime).1.lastTriggerReason = a.lastTriggerReason ∧
    (a.Stop exitedInTime).1.stopClosed = a.stopClosed ∧
    (∃ sigs, (a.Stop exitedInTime).1.trace = a.trace ++ sigs ∧
      ∀ x ∈ sigs, isSignal x = true) ∧
    (state.isNamed a.State → (a.Stop exitedInTime).1.State = state.StateStopped) := by
  unfold Agent.Stop
  simp only []
  refine ⟨?_, ?_, ?_, ?_, ?_, ?_⟩
  · rcases a.cmd with _ | ⟨_ | _⟩ <;> cases exitedInTime <;> simp [Agent.act]
  · rcases a.cmd with _ | ⟨_ | _⟩ <;> cases exitedInTime <;> simp [Agent.act]
  · rcases a.cmd with _ | ⟨_ | _⟩ <;> cases exitedInTime <;> simp [Agent.act]
  · rcases a.cmd with _ | ⟨_ | _⟩ <;> cases exitedInTime <;> simp [Agent.act]
  · rcases a.cmd with _ | ⟨_ | _⟩ <;> cases exitedInTime <;>
      simp [Agent.act, isSignal]
  · intro hn
    have hs : ∀ b : Agent, b.sm = a.sm →
        ({ b with sm := (b.sm.Transition state.StateStopped).1 } : Agent).State
          = state.StateStopped := by
      intro b hb
      have hal : state.allowedTransition a.sm.state state.StateStopped = true := by
        rcases hn with h | h | h <;>
          (have h' : a.sm.state = _ := h
           rw [h']
           decide)
      simp [Agent.State, hb, state.Transition_ok _ _ hal]
    rcases a.cmd with _ | ⟨_ | _⟩ <;> cases exitedInTime <;>
      simp only [Bool.false_eq_true, if_false, if_true] <;> exact hs _ rfl

end agent

namespace agent

/-- What `RequestStop` leaves alone and what it adds to the trace. -/
theorem RequestStop_frame (a : Agent) (exitedInTime : Bool) :
    (a.RequestStop exitedInTime).cfg = a.cfg ∧
    (a.RequestStop exitedInTime).lastTrigger = a.lastTrigger ∧
    (a.RequestStop exitedInTime).lastTriggerReason = a.lastTriggerReason ∧
    (a.RequestStop exitedInTime).stopClosed = true ∧
    (∃ acts, (a.RequestStop exitedInTime).trace = a.trace ++ acts ∧
      acts.countP (isEvent "restart_triggered") = 0 ∧
      (a.stopClosed = false → Action.closeStopCh ∈ acts)) ∧
    (a.stopClosed = false → state.isNamed a.State →
      (a.RequestStop exitedInTime).State = state.StateStopped) := by
  unfold Agent.RequestStop
  by_cases hc : a.stopClosed = true
  · rw [if_pos hc]
    exact ⟨rfl, rfl, rfl, hc, ⟨[], by simp, rfl, fun h => by rw [hc] at h; cases h⟩,
      fun h => by rw [hc] at h; cases h⟩
  · rw [if_neg hc]
    simp only []
    obtain ⟨s1, s2, s3, s4, ⟨sigs, s5, s6⟩, s7⟩ :=
      Stop_frame (({ a with stopClosed := true } : Agent).act Action.closeStopCh) exitedInTime
    refine ⟨s1, s2, s3, s4, ⟨Action.closeStopCh :: sigs, ?_, ?_, fun _ => by simp⟩,
      fun _ hn => s7 hn⟩
    · rw [s5]
      simp [Agent.act]
    · rw [List.countP_eq_zero]
      intro x hx
      rcases List.mem_cons.mp hx with hx | hx
      · rw [hx]; simp [isEvent]
      · have := s6 x hx
        cases x <;> simp_all [isSignal, isEvent]

end agent

/-- C16: for every supervisor whose normalized forward set is not empty,
`ClearRemoteForwards` returns true, writes the empty scalar and the empty list (the normalized
forward set afterwards is empty), and calls `RequestStop` on the updated supervisor:
`stopCh` is closed afterwards, `last_trigger_reason` and `last_trigger_at` are unchanged, no
`restart_triggered` event is logged, and when `stopCh` was open before, it is closed by this
call and the FSM (in one of its three states) ends in STOPPED. -/
theorem C16_clear_remote_forwards (a : agent.Agent) (exitedInTime : Bool)
    (h : a.currentRemoteForwards ≠ []) :
    (a.ClearRemoteForwards exitedInTime).2 = true ∧
    (a.ClearRemoteForwards exitedInTime).1.cfg.SSH.RemoteForward = "" ∧
    (a.ClearRemoteForwards exitedInTime).1.cfg.SSH.RemoteForwards = [] ∧
    (a.ClearRemoteForwards exitedInTime).1.currentRemoteForwards = [] ∧
    (a.ClearRemoteForwards exitedInTime).1 = (a.setForwards []).RequestStop exitedInTime ∧
    (a.ClearRemoteForwards exitedInTime).1.stopClosed = true ∧
    (a.ClearRemoteForwards exitedInTime).1.lastTriggerReason = a.lastTriggerReason ∧
    (a.ClearRemoteForwards exitedInTime).1.lastTrigger = a.lastTrigger ∧
    (∃ acts, (a.ClearRemoteForwards exitedInTime).1.trace = a.trace ++ acts ∧
      acts.countP (agent.isEvent "restart_triggered") = 0 ∧
      (a.stopClosed = false → agent.Action.closeStopCh ∈ acts)) ∧
    (a.stopClosed = false → state.isNamed a.State →
      (a.ClearRemoteForwards exitedInTime).1.State = state.StateStopped) := by
  have hF : config.NormalizeRemoteForwards (some a.cfg) = a.currentRemoteForwards := rfl
  have hr : a.ClearRemoteForwards exitedInTime
      = ((a.setForwards []).RequestStop exitedInTime, true) := by
    simp [agent.Agent.ClearRemoteForwards, hF, h]
  obtain ⟨s1, s2, s3, s4, s5, s6⟩ := agent.RequestStop_frame (a.setForwards []) exitedInTime
  have hset := agent.setForwards_eq a []
  rw [Spec.normalize_nil] at hset
  have hcfg : (a.setForwards []).cfg.SSH.RemoteForward = "" ∧
      (a.setForwards []).cfg.SSH.RemoteForwards = [] := by
    rw [hset]; exact ⟨rfl, rfl⟩
  have hcur : ((a.setForwards []).RequestStop exitedInTime).currentRemoteForwards = [] := by
    rw [agent.currentRemoteForwards_congr _ _ s1, agent.setForwards_current, Spec.normalize_nil]
  rw [hr]
  refine ⟨rfl, ?_, ?_, hcur, rfl, s4, ?_, ?_, ?_, ?_⟩
  · show ((a.setForwards []).RequestStop exitedInTime).cfg.SSH.RemoteForward = ""
    rw [s1]; exact hcfg.1
  · show ((a.setForwards []).RequestStop exitedInTime).cfg.SSH.RemoteForwards = []
    rw [s1]; exact hcfg.2
  · show ((a.setForwards []).RequestStop exitedInTime).lastTriggerReason = _
    rw [s3, hset]
  · show ((a.setForwards []).RequestStop exitedInTime).lastTrigger = _
    rw [s2, hset]
  · rw [hset] at s5
    exact s5
  · rw [hset] at s6
    exact s6

theorem C16_clear_remote_forwards_witness :
    (Examples.forwardAgent "A" ["B"]).currentRemoteForwards = ["A", "B"] ∧
    ((Examples.forwardAgent "A" ["B"]).ClearRemoteForwards true).1.currentRemoteForwards = [] ∧
    ((Examples.forwardAgent "A" ["B"]).ClearRemoteForwards true).1.State
      = state.StateStopped ∧
    ((Examples.forwardAgent "A" ["B"]).ClearRemoteForwards true).1.trace
      = [agent.Action.closeStopCh, agent.Action.signal agent.Signal.Interrupt] :=
  ⟨by decide,
   (C16_clear_remote_forwards (Examples.forwardAgent "A" ["B"]) true (by decide)).2.2.2.1,
   by decide, by decide⟩

namespace agent

/-- Outside the debounced case a periodic tick and `requestRestart("periodic")` with the
logger of the loop leave the same supervisor. -/
theorem periodicTick_eq_requestRestart (a : Agent) (l : logging.Logger) (now : time.Time)
    (h : a.State ≠ state.StateConnected ∨ a.debounceWindow ≤ 0 ∨ a.lastTrigger = 0 ∨
      a.debounceWindow ≤ time.Time.Sub now a.lastTrigger) :
    a.periodicTick now = a.requestRestart "periodic" (some l) now := by
  by_cases hconn : a.State = state.StateConnected
  · have hd : (a.setLastTriggerReason "periodic").debounceWindow = a.debounceWindow := rfl
    rcases h with h | h | h
    · exact absurd hconn h
    · have h1 := allowTrigger_nonpos a a.debounceWindow now h
      have h2 := allowTrigger_nonpos (a.setLastTriggerReason "periodic")
        (a.setLastTriggerReason "periodic").debounceWindow now h
      simp only [Agent.periodicTick, Agent.requestRestart, h1, h2, hconn, ne_eq,
        not_true_eq_false, if_false, Bool.not_true, if_true, reduceCtorEq, not_false_eq_true,
        Bool.false_eq_true]
    · by_cases hw : a.debounceWindow ≤ 0
      · have h1 := allowTrigger_nonpos a a.debounceWindow now hw
        have h2 := allowTrigger_nonpos (a.setLastTriggerReason "periodic")
          (a.setLastTriggerReason "periodic").debounceWindow now hw
        simp only [Agent.periodicTick, Agent.requestRestart, h1, h2, hconn, ne_eq,
          not_true_eq_false, if_false, Bool.not_true, if_true, reduceCtorEq,
          not_false_eq_true, Bool.false_eq_true]
      · have h1 := allowTrigger_accept a a.debounceWindow now (not_le.mp hw) h
        have h2 := allowTrigger_accept (a.setLastTriggerReason "periodic")
          (a.setLastTriggerReason "periodic").debounceWindow now (not_le.mp hw) h
        simp only [Agent.periodicTick, Agent.requestRestart, h1, h2, hconn, ne_eq,
          not_true_eq_false, if_false, Bool.not_true, if_true, reduceCtorEq,
          not_false_eq_true, Bool.false_eq_true]
        rfl
  · simp [Agent.periodicTick, Agent.requestRestart, hconn]

/-- In the debounced case a periodic tick and `requestRestart("periodic")` differ in
`lastTriggerReason` only. -/
theorem periodicTick_debounced (a : Agent) (l : logging.Logger) (now : time.Time)
    (hconn : a.State = state.StateConnected) (hw : 0 < a.debounceWindow)
    (h0 : a.lastTrigger ≠ 0) (hlt : time.Time.Sub now a.lastTrigger < a.debounceWindow) :
    (a.periodicTick now).lastTriggerReason = a.lastTriggerReason ∧
    (a.requestRestart "periodic" (some l) now).lastTriggerReason = "periodic" ∧
    a.requestRestart "periodic" (some l) now
      = (a.periodicTick now).setLastTriggerReason "periodic" := by
  have h1 := allowTrigger_skip_sub a a.debounceWindow now hw h0 hlt
  have h2 := allowTrigger_skip_sub (a.setLastTriggerReason "periodic")
    (a.setLastTriggerReason "periodic").debounceWindow now hw h0 hlt
  simp only [Agent.periodicTick, Agent.requestRestart, h1, h2, hconn, ne_eq,
    not_true_eq_false, if_false, Bool.not_false, if_true, reduceCtorEq, not_false_eq_true]
  exact ⟨rfl, rfl, rfl⟩

end agent

/-! ### Defaults -/

namespace config

theorem Config.mk_ite_Config (c : Prop) [Decidable c] (a a' : AgentConfig) (s s' : SSHConfig)
    (l l' : LoggingConfig) :
    (if c then Config.mk a s l else Config.mk a' s' l') =
      Config.mk (if c then a else a') (if c then s else s') (if c then l else l') := by
  split_ifs <;> rfl

theorem AgentConfig.mk_ite_AgentConfig (c : Prop) [Decidable c]
    (a1 a1' a2 a2' a3 a3' : String) (r r' : RestartConfig) (p p' q q' g g' n n' : Int) :
    (if c then AgentConfig.mk a1 a2 a3 r p q g n else AgentConfig.mk a1' a2' a3' r' p' q' g' n') =
      AgentConfig.mk (if c then a1 else a1') (if c then a2 else a2') (if c then a3 else a3')
        (if c then r else r') (if c then p else p') (if c then q else q') (if c then g else g')
        (if c then n else n') := by
  split_ifs <;> rfl

theorem RestartConfig.mk_ite_RestartConfig (c : Prop) [Decidable c] (a a' b b' : Int)
    (f f' j j' : ℚ) (d d' : Int) :
    (if c then RestartConfig.mk a b f j d else RestartConfig.mk a' b' f' j' d') =
      RestartConfig.mk (if c then a else a') (if c then b else b') (if c then f else f')
        (if c then j else j') (if c then d else d') := by
  split_ifs <;> rfl

theorem SSHConfig.mk_ite_SSHConfig (c : Prop) [Decidable c] (u u' h h' : String) (p p' : Int)
    (r r' : String) (rs rs' : List String) (i i' : String) (o o' : List String) :
    (if c then SSHConfig.mk u h p r rs i o else SSHConfig.mk u' h' p' r' rs' i' o') =
      SSHConfig.mk (if c then u else u') (if c then h else h') (if c then p else p')
        (if c then r else r') (if c then rs else rs') (if c then i else i')
        (if c then o else o') := by
  split_ifs <;> rfl

theorem LoggingConfig.mk_ite_LoggingConfig (c : Prop) [Decidable c] (a a' b b' : String) :
    (if c then LoggingConfig.mk a b else LoggingConfig.mk a' b') =
      LoggingConfig.mk (if c then a else a') (if c then b else b') := by
  split_ifs <;> rfl

/-- The statements of `applyDefaults` each test and assign one field: the configuration
afterwards, field by field. -/
theorem applyDefaults_eq (cfg : Config) :
    applyDefaults cfg =
      { Agent :=
          { Name := if cfg.Agent.Name = "" then "rpa-agent" else cfg.Agent.Name
            LaunchdLabel :=
              if cfg.Agent.LaunchdLabel = "" then "com.rpa.agent" else cfg.Agent.LaunchdLabel
            RestartPolicy :=
              if cfg.Agent.RestartPolicy = "" then "always" else cfg.Agent.RestartPolicy
            Restart :=
              { MinDelayMs :=
                  if cfg.Agent.Restart.MinDelayMs = 0 then 2000 else cfg.Agent.Restart.MinDelayMs
                MaxDelayMs :=
                  if cfg.Agent.Restart.MaxDelayMs = 0 then 30000 else cfg.Agent.Restart.MaxDelayMs
                Factor := if cfg.Agent.Restart.Factor = 0 then 2 else cfg.Agent.Restart.Factor
                Jitter :=
                  if cfg.Agent.Restart.Jitter = 0 then goarith.round64 (1 / 5)
                  else cfg.Agent.Restart.Jitter
                DebounceMs :=
                  if cfg.Agent.Restart.DebounceMs = 0 then 2000 else cfg.Agent.Restart.DebounceMs }
            PeriodicRestartSec :=
              if cfg.Agent.PeriodicRestartSec < 0 then 0 else cfg.Agent.PeriodicRestartSec
            SleepCheckSec := if cfg.Agent.SleepCheckSec = 0 then 5 else cfg.Agent.SleepCheckSec
            SleepGapSec := if cfg.Agent.SleepGapSec = 0 then 30 else cfg.Agent.SleepGapSec
            NetworkPollSec :=
              if cfg.Agent.NetworkPollSec = 0 then 5 else cfg.Agent.NetworkPollSec }
        SSH :=
          { User := cfg.SSH.User
            Host := cfg.SSH.Host
            Port := if cfg.SSH.Port = 0 then 22 else cfg.SSH.Port
            RemoteForward := cfg.SSH.RemoteForward
            RemoteForwards := cfg.SSH.RemoteForwards
            IdentityFile := cfg.SSH.IdentityFile
            Options :=
              if cfg.SSH.Options.length = 0 then
                ["ServerAliveInterval=30", "ServerAliveCountMax=3"]
              else cfg.SSH.Options }
        Logging :=
          { Level := if cfg.Logging.Level = "" then "info" else cfg.Logging.Level
            Path :=
              if cfg.Logging.Path = "" then "~/.rpa/logs/agent.log" else cfg.Logging.Path } } := by
  obtain ⟨⟨name, label, policy, ⟨mn, mx, fac, jit, deb⟩, per, sc, sg, np⟩,
    ⟨user, host, port, rf, rfs, idf, opts⟩, ⟨lvl, path⟩⟩ := cfg
  simp only [applyDefaults, Config.mk_ite_Config, AgentConfig.mk_ite_AgentConfig,
    RestartConfig.mk_ite_RestartConfig, SSHConfig.mk_ite_SSHConfig,
    LoggingConfig.mk_ite_LoggingConfig, ite_self]

theorem round64_fifth_pos : 0 < goarith.round64 (1 / 5) := by
  have h := goarith.round64_ge_sub (x := 1 / 5) (by norm_num)
  have : (0 : ℚ) < 1 / 5 - 1 / 5 * (1 / 2 ^ 53) := by norm_num
  linarith

end config

/-- C24: `ApplyDefaults` on the configuration whose fields are all zero-valued yields restart
policy "always", port 22, the two `ServerAlive` options, log path "~/.rpa/logs/agent.log", log
level "info", `min_delay_ms` 2000, `max_delay_ms` 30000, factor 2, jitter 0.2 (the `float64`
nearest to 1/5), `debounce_ms` 2000, `sleep_check_sec` 5, `sleep_gap_sec` 30 and
`network_poll_sec` 5; and for every configuration each of these fields keeps its value when it
is not zero (not empty), takes its default when it is, and is not zero afterwards. -/
theorem C24_apply_defaults (cfg : config.Config) :
    config.ApplyDefaults (some Examples.zeroConfig) =
      some
        { Agent :=
            { Name := "rpa-agent"
              LaunchdLabel := "com.rpa.agent"
              RestartPolicy := "always"
              Restart :=
                { MinDelayMs := 2000
                  MaxDelayMs := 30000
                  Factor := 2
                  Jitter := goarith.round64 (1 / 5)
                  DebounceMs := 2000 }
              PeriodicRestartSec := 0
              SleepCheckSec := 5
              SleepGapSec := 30
              NetworkPollSec := 5 }
          SSH :=
            { User := ""
              Host := ""
              Port := 22
              RemoteForward := ""
              RemoteForwards := []
              IdentityFile := ""
              Options := ["ServerAliveInterval=30", "ServerAliveCountMax=3"] }
          Logging := { Level := "info", Path := "~/.rpa/logs/agent.log" } } ∧
    config.ApplyDefaults (some cfg) = some (config.applyDefaults cfg) ∧
    ((config.applyDefaults cfg).Agent.RestartPolicy =
        (if cfg.Agent.RestartPolicy = "" then "always" else cfg.Agent.RestartPolicy) ∧
      (config.applyDefaults cfg).Agent.RestartPolicy ≠ "") ∧
    ((config.applyDefaults cfg).SSH.Port = (if cfg.SSH.Port = 0 then 22 else cfg.SSH.Port) ∧
      (config.applyDefaults cfg).SSH.Port ≠ 0) ∧
    ((config.applyDefaults cfg).SSH.Options =
        (if cfg.SSH.Options = [] then ["ServerAliveInterval=30", "ServerAliveCountMax=3"]
         else cfg.SSH.Options) ∧
      (config.applyDefaults cfg).SSH.Options ≠ []) ∧
    ((config.applyDefaults cfg).Logging.Path =
        (if cfg.Logging.Path = "" then "~/.rpa/logs/agent.log" else cfg.Logging.Path) ∧
      (config.applyDefaults cfg).Logging.Path ≠ "") ∧
    ((config.applyDefaults cfg).Logging.Level =
        (if cfg.Logging.Level = "" then "info" else cfg.Logging.Level) ∧
      (config.applyDefaults cfg).Logging.Level ≠ "") ∧
    ((config.applyDefaults cfg).Agent.Restart.MinDelayMs =
        (if cfg.Agent.Restart.MinDelayMs = 0 then 2000 else cfg.Agent.Restart.MinDelayMs) ∧
      (config.applyDefaults cfg).Agent.Restart.MinDelayMs ≠ 0) ∧
    ((config.applyDefaults cfg).Agent.Restart.MaxDelayMs =
        (if cfg.Agent.Restart.MaxDelayMs = 0 then 30000 else cfg.Agent.Restart.MaxDelayMs) ∧
      (config.applyDefaults cfg).Agent.Restart.MaxDelayMs ≠ 0) ∧
    ((config.applyDefaults cfg).Agent.Restart.Factor =
        (if cfg.Agent.Restart.Factor = 0 then 2 else cfg.Agent.Restart.Factor) ∧
      (config.applyDefaults cfg).Agent.Restart.Factor ≠ 0) ∧
    ((config.applyDefaults cfg).Agent.Restart.Jitter =
        (if cfg.Agent.Restart.Jitter = 0 then goarith.round64 (1 / 5)
         else cfg.Agent.Restart.Jitter) ∧
      (config.applyDefaults cfg).Agent.Restart.Jitter ≠ 0) ∧
    ((config.applyDefaults cfg).Agent.Restart.DebounceMs =
        (if cfg.Agent.Restart.DebounceMs = 0 then 2000 else cfg.Agent.Restart.DebounceMs) ∧
      (config.applyDefaults cfg).Agent.Restart.DebounceMs ≠ 0) ∧
    ((config.applyDefaults cfg).Agent.SleepCheckSec =
        (if cfg.Agent.SleepCheckSec = 0 then 5 else cfg.Agent.SleepCheckSec) ∧
      (config.applyDefaults cfg).Agent.SleepCheckSec ≠ 0) ∧
    ((config.applyDefaults cfg).Agent.SleepGapSec =
        (if cfg.Agent.SleepGapSec = 0 then 30 else cfg.Agent.SleepGapSec) ∧
      (config.applyDefaults cfg).Agent.SleepGapSec ≠ 0) ∧
    ((config.applyDefaults cfg).Agent.NetworkPollSec =
        (if cfg.Agent.NetworkPollSec = 0 then 5 else cfg.Agent.NetworkPollSec) ∧
      (config.applyDefaults cfg).Agent.NetworkPollSec ≠ 0) := by
  have hj : goarith.round64 (1 / 5) ≠ 0 := config.round64_fifth_pos.ne'
  refine ⟨?_, rfl, ?_⟩
  · show some (config.applyDefaults Examples.zeroConfig) = _
    rw [config.applyDefaults_eq]
    simp [Examples.zeroConfig]
  · rw [config.applyDefaults_eq]
    refine ⟨⟨?_, ?_⟩, ⟨?_, ?_⟩, ⟨?_, ?_⟩, ⟨?_, ?_⟩, ⟨?_, ?_⟩, ⟨?_, ?_⟩, ⟨?_, ?_⟩, ⟨?_, ?_⟩,
      ⟨?_, ?_⟩, ⟨?_, ?_⟩, ⟨?_, ?_⟩, ⟨?_, ?_⟩, ⟨?_, ?_⟩⟩
    all_goals (dsimp only <;> split_ifs <;> simp_all)

/-! ### Validation and the ssh command line -/

namespace config

/-- `Validate` returns `nil` exactly on the configurations that pass all of its tests. -/
theorem Validate_eq_none_iff (caseTable : Char → Char) (Quote : String → String)
    (cfg : Config) :
    Validate caseTable Quote (some cfg) = none ↔
      (strings.TrimSpace cfg.SSH.Host ≠ "" ∧
       strings.TrimSpace cfg.SSH.User ≠ "" ∧
       NormalizeRemoteForwards (some cfg) ≠ [] ∧
       0 < cfg.SSH.Port ∧
       (strings.ToLower caseTable cfg.Agent.RestartPolicy = "always" ∨
        strings.ToLower caseTable cfg.Agent.RestartPolicy = "on-failure") ∧
       0 ≤ cfg.Agent.Restart.MinDelayMs ∧
       0 ≤ cfg.Agent.Restart.MaxDelayMs ∧
       (0 < cfg.Agent.Restart.MaxDelayMs →
          cfg.Agent.Restart.MinDelayMs ≤ cfg.Agent.Restart.MaxDelayMs) ∧
       1 ≤ cfg.Agent.Restart.Factor ∧
       0 ≤ cfg.Agent.Restart.Jitter ∧
       cfg.Agent.Restart.Jitter ≤ 1 ∧
       0 ≤ cfg.Agent.Restart.DebounceMs ∧
       0 ≤ cfg.Agent.PeriodicRestartSec ∧
       0 ≤ cfg.Agent.SleepCheckSec ∧
       0 ≤ cfg.Agent.SleepGapSec ∧
       0 ≤ cfg.Agent.NetworkPollSec) := by
  unfold Validate
  change (if _ then _ else _) = none ↔ _
  by_cases h1 : strings.TrimSpace cfg.SSH.Host = ""
  · rw [if_pos h1]; exact ⟨(fun h => nomatch h), fun h => absurd h1 h.1⟩
  rw [if_neg h1]
  by_cases h2 : strings.TrimSpace cfg.SSH.User = ""
  · rw [if_pos h2]; exact ⟨(fun h => nomatch h), fun h => absurd h2 h.2.1⟩
  rw [if_neg h2]
  by_cases h3 : (NormalizeRemoteForwards (some cfg)).length = 0
  · rw [if_pos h3]
    exact ⟨(fun h => nomatch h), fun h => absurd (List.length_eq_zero.mp h3) h.2.2.1⟩
  rw [if_neg h3]
  by_cases h4 : cfg.SSH.Port ≤ 0
  · rw [if_pos h4]; exact ⟨(fun h => nomatch h), fun h => absurd h.2.2.2.1 (not_lt.mpr h4)⟩
  rw [if_neg h4]
  by_cases h5 : strings.ToLower caseTable cfg.Agent.RestartPolicy = "always" ∨
      strings.ToLower caseTable cfg.Agent.RestartPolicy = "on-failure"
  swap
  · rw [if_pos h5]; exact ⟨(fun h => nomatch h), fun h => absurd h.2.2.2.2.1 h5⟩
  rw [if_neg (not_not.mpr h5)]
  by_cases h6 : cfg.Agent.Restart.MinDelayMs < 0 ∨ cfg.Agent.Restart.MaxDelayMs < 0
  · rw [if_pos h6]
    refine ⟨(fun h => nomatch h), fun h => ?_⟩
    rcases h6 with c | c
    · exact absurd h.2.2.2.2.2.1 (not_le.mpr c)
    · exact absurd h.2.2.2.2.2.2.1 (not_le.mpr c)
  rw [if_neg h6]
  by_cases h7 : cfg.Agent.Restart.MaxDelayMs > 0 ∧
      cfg.Agent.Restart.MinDelayMs > cfg.Agent.Restart.MaxDelayMs
  · rw [if_pos h7]
    exact ⟨(fun h => nomatch h), fun h => absurd (h.2.2.2.2.2.2.2.1 h7.1) (not_le.mpr h7.2)⟩
  rw [if_neg h7]
  by_cases h8 : cfg.Agent.Restart.Factor < 1
  · rw [if_pos h8]
    exact ⟨(fun h => nomatch h), fun h => absurd h.2.2.2.2.2.2.2.2.1 (not_le.mpr h8)⟩
  rw [if_neg h8]
  by_cases h9 : cfg.Agent.Restart.Jitter < 0 ∨ cfg.Agent.Restart.Jitter > 1
  · rw [if_pos h9]
    refine ⟨(fun h => nomatch h), fun h => ?_⟩
    rcases h9 with c | c
    · exact absurd h.2.2.2.2.2.2.2.2.2.1 (not_le.mpr c)
    · exact absurd h.2.2.2.2.2.2.2.2.2.2.1 (not_le.mpr c)
  rw [if_neg h9]
  by_cases h10 : cfg.Agent.Restart.DebounceMs < 0
  · rw [if_pos h10]
    exact ⟨(fun h => nomatch h), fun h => absurd h.2.2.2.2.2.2.2.2.2.2.2.1 (not_le.mpr h10)⟩
  rw [if_neg h10]
  by_cases h11 : cfg.Agent.PeriodicRestartSec < 0
  · rw [if_pos h11]
    exact ⟨(fun h => nomatch h), fun h => absurd h.2.2.2.2.2.2.2.2.2.2.2.2.1 (not_le.mpr h11)⟩
  rw [if_neg h11]
  by_cases h12 : cfg.Agent.SleepCheckSec < 0
  · rw [if_pos h12]
    exact ⟨(fun h => nomatch h),
      fun h => absurd h.2.2.2.2.2.2.2.2.2.2.2.2.2.1 (not_le.mpr h12)⟩
  rw [if_neg h12]
  by_cases h13 : cfg.Agent.SleepGapSec < 0
  · rw [if_pos h13]
    exact ⟨(fun h => nomatch h),
      fun h => absurd h.2.2.2.2.2.2.2.2.2.2.2.2.2.2.1 (not_le.mpr h13)⟩
  rw [if_neg h13]
  by_cases h14 : cfg.Agent.NetworkPollSec < 0
  · rw [if_pos h14]
    exact ⟨(fun h => nomatch h),
      fun h => absurd h.2.2.2.2.2.2.2.2.2.2.2.2.2.2.2 (not_le.mpr h14)⟩
  rw [if_neg h14]
  refine ⟨fun _ => ⟨h1, h2, fun c => h3 (List.length_eq_zero.mpr c), not_le.mp h4, h5,
    not_lt.mp (fun c => h6 (Or.inl c)), not_lt.mp (fun c => h6 (Or.inr c)),
    fun c => not_lt.mp (fun d => h7 ⟨c, d⟩), not_lt.mp h8,
    not_lt.mp (fun c => h9 (Or.inl c)), not_lt.mp (fun c => h9 (Or.inr c)),
    not_lt.mp h10, not_lt.mp h11, not_lt.mp h12, not_lt.mp h13, not_lt.mp h14⟩,
    fun _ => rfl⟩

end config

namespace agent

theorem appendPairs_eq (flag : String) (values args : List String) :
    appendPairs flag args values = args ++ Spec.flagPairs flag values := by
  unfold appendPairs Spec.flagPairs
  induction values generalizing args with
  | nil => simp
  | cons v rest ih =>
    rw [List.foldl_cons, ih]
    by_cases hv : strings.TrimSpace v = ""
    · simp [hv, List.filter_cons]
    · simp [hv, List.filter_cons, List.flatMap_cons]

/-- When `Validate` returns an error the builder returns it and no command. -/
theorem buildSSHCommand_error (caseTable : Char → Char) (Quote : String → String)
    (env : os.Env) (cfg : Option config.Config) (remoteForwards : List String) (err : String)
    (h : config.Validate caseTable Quote cfg = some err) :
    buildSSHCommand caseTable Quote env cfg remoteForwards = Except.error err := by
  unfold buildSSHCommand
  rw [h]

/-- The command line for a configuration that `Validate` accepts. -/
theorem buildSSHCommand_ok (caseTable : Char → Char) (Quote : String → String)
    (env : os.Env) (cfg : config.Config) (remoteForwards : List String)
    (h : config.Validate caseTable Quote (some cfg) = none) :
    buildSSHCommand caseTable Quote env (some cfg) remoteForwards =
      Except.ok ("ssh" ::
        (["-N", "-T", "-o", "ExitOnForwardFailure=yes", "-o", "BatchMode=yes"] ++
          Spec.flagPairs "-R" remoteForwards ++
          (if cfg.SSH.IdentityFile = "" then []
           else ["-i", expandTilde env cfg.SSH.IdentityFile]) ++
          Spec.flagPairs "-o" cfg.SSH.Options ++
          ["-p", strconv.Itoa cfg.SSH.Port] ++
          [cfg.SSH.User ++ "@" ++ cfg.SSH.Host])) := by
  obtain ⟨_, hu, _, hp, _⟩ := (config.Validate_eq_none_iff caseTable Quote cfg).mp h
  have hu' : cfg.SSH.User ≠ "" := by
    intro c
    rw [c] at hu
    exact hu (by decide)
  unfold buildSSHCommand
  rw [h]
  simp only [appendPairs_eq, ne_eq, hu', not_false_eq_true, if_true, gt_iff_lt, hp]
  by_cases hi : cfg.SSH.IdentityFile = ""
  · simp [hi]
  · simp [hi]

end agent

namespace agent

/-- A command is built only for a configuration that `Validate` accepts. -/
theorem buildSSHCommand_ok_inv (caseTable : Char → Char) (Quote : String → String)
    (env : os.Env) (cfg : config.Config) (remoteForwards args : List String)
    (h : buildSSHCommand caseTable Quote env (some cfg) remoteForwards = Except.ok args) :
    config.Validate caseTable Quote (some cfg) = none := by
  rcases hv : config.Validate caseTable Quote (some cfg) with _ | err
  · rfl
  · rw [buildSSHCommand_error caseTable Quote env (some cfg) remoteForwards err hv] at h
    cases h

end agent

/-- C21: for every configuration that `Validate` accepts and every forward list `fs`, the
agent's `buildSSHCommand` succeeds and the arguments of the command are the program name `ssh`,
then `-N -T -o ExitOnForwardFailure=yes -o BatchMode=yes`, then `-R f` for each `f` of `fs` that
is not blank, in order, then `-i` and the expanded identity file when `identity_file` is not
empty, then `-o opt` for each option that is not blank, in order, then `-p` and the decimal
port, then the single final positional `user@host`. -/
theorem C21_ssh_command_line (caseTable : Char → Char) (Quote : String → String)
    (env : os.Env) (cfg : config.Config) (fs : List String)
    (h : config.Validate caseTable Quote (some cfg) = none) :
    agent.buildSSHCommand caseTable Quote env (some cfg) fs =
      Except.ok ("ssh" ::
        (["-N", "-T", "-o", "ExitOnForwardFailure=yes", "-o", "BatchMode=yes"] ++
          (fs.filter (fun f => strings.TrimSpace f ≠ "")).flatMap (fun f => ["-R", f]) ++
          (if cfg.SSH.IdentityFile = "" then []
           else ["-i", agent.expandTilde env cfg.SSH.IdentityFile]) ++
          (cfg.SSH.Options.filter (fun o => strings.TrimSpace o ≠ "")).flatMap
            (fun o => ["-o", o]) ++
          ["-p", strconv.Itoa cfg.SSH.Port] ++
          [cfg.SSH.User ++ "@" ++ cfg.SSH.Host])) := by
  have hb := agent.buildSSHCommand_ok caseTable Quote env cfg fs h
  unfold Spec.flagPairs at hb
  exact hb

theorem C21_ssh_command_line_witness :
    config.Validate id id
        (some (Examples.sshConfig "tunnel" "~/.ssh/id_ed25519"
          ["ServerAliveInterval=30", " "])) = none ∧
    agent.buildSSHCommand id id Examples.sampleEnv
        (some (Examples.sshConfig "tunnel" "~/.ssh/id_ed25519"
          ["ServerAliveInterval=30", " "])) ["A", "", "B"] =
      Except.ok ["ssh", "-N", "-T", "-o", "ExitOnForwardFailure=yes", "-o", "BatchMode=yes",
        "-R", "A", "-R", "B", "-i", "/home/tunnel/.ssh/id_ed25519",
        "-o", "ServerAliveInterval=30", "-p", "22", "tunnel@bastion.example.org"] :=
  ⟨by decide,
   (C21_ssh_command_line id id Examples.sampleEnv
      (Examples.sshConfig "tunnel" "~/.ssh/id_ed25519" ["ServerAliveInterval=30", " "])
      ["A", "", "B"] (by decide)).trans (congrArg Except.ok (by decide))⟩

/-- C22 fails as stated: for the sample configuration with an empty user (host, port, forward
and restart parameters as in the configuration that `Validate` accepts with user `tunnel`),
`buildSSHCommand` returns the error "ssh.user is required" and no argv. -/
theorem C22_counterexample :
    (Examples.sshConfig "" "" []).SSH.User = "" ∧
    (Examples.sshConfig "" "" []).SSH.Host = "bastion.example.org" ∧
    config.Validate id id (some (Examples.sshConfig "tunnel" "" [])) = none ∧
    agent.buildSSHCommand id id Examples.sampleEnv (some (Examples.sshConfig "" "" []))
        ["8080:localhost:22"] = Except.error "ssh.user is required" ∧
    (agent.buildSSHCommand id id Examples.sampleEnv (some (Examples.sshConfig "" "" []))
        ["8080:localhost:22"]).toOption = none := by
  have h := agent.buildSSHCommand_error id id Examples.sampleEnv
    (some (Examples.sshConfig "" "" [])) ["8080:localhost:22"] "ssh.user is required"
    (by decide)
  refine ⟨by decide, by decide, by decide, h, ?_⟩
  rw [h]
  rfl

/-- C22 (amended): for a configuration whose host is not blank and whose user is empty or
blank, the agent's `buildSSHCommand` returns the error "ssh.user is required" and no argv; and
whenever it returns a command, `Validate` has accepted the configuration, the user is not blank
and the final positional argument is `user@host`. -/
theorem C22_final_positional (caseTable : Char → Char) (Quote : String → String)
    (env : os.Env) (cfg : config.Config) (fs : List String) :
    (strings.TrimSpace cfg.SSH.Host ≠ "" → strings.TrimSpace cfg.SSH.User = "" →
      agent.buildSSHCommand caseTable Quote env (some cfg) fs
        = Except.error "ssh.user is required") ∧
    (∀ args, agent.buildSSHCommand caseTable Quote env (some cfg) fs = Except.ok args →
      config.Validate caseTable Quote (some cfg) = none ∧
      strings.TrimSpace cfg.SSH.User ≠ "" ∧
      cfg.SSH.User ≠ "" ∧
      args.getLast? = some (cfg.SSH.User ++ "@" ++ cfg.SSH.Host)) := by
  refine ⟨fun hh hu => ?_, fun args hok => ?_⟩
  · refine agent.buildSSHCommand_error caseTable Quote env (some cfg) fs _ ?_
    unfold config.Validate
    change (if _ then _ else _) = some _
    rw [if_neg hh, if_pos hu]
  · have hv := agent.buildSSHCommand_ok_inv caseTable Quote env cfg fs args hok
    have hu := ((config.Validate_eq_none_iff caseTable Quote cfg).mp hv).2.1
    have hu' : cfg.SSH.User ≠ "" := by
      intro c
      rw [c] at hu
      exact hu (by decide)
    rw [agent.buildSSHCommand_ok caseTable Quote env cfg fs hv] at hok
    have ha := Except.ok.inj hok
    refine ⟨hv, hu, hu', ?_⟩
    rw [← ha, ← List.cons_append, List.getLast?_append]
    rfl

theorem C22_final_positional_witness :
    strings.TrimSpace (Examples.sshConfig "  " "" []).SSH.Host ≠ "" ∧
    strings.TrimSpace (Examples.sshConfig "  " "" []).SSH.User = "" ∧
    agent.buildSSHCommand id id Examples.sampleEnv (some (Examples.sshConfig "  " "" []))
        ["8080:localhost:22"] = Except.error "ssh.user is required" :=
  ⟨by decide, by decide,
   (C22_final_positional id id Examples.sampleEnv (Examples.sshConfig "  " "" [])
      ["8080:localhost:22"]).1 (by decide) (by decide)⟩

/-! ### Sequences of forward mutations -/

namespace agent

/-- After `SetRemoteForwards` the stored representation is canonical. -/
theorem setForwards_storedCanonical (a : Agent) (xs : List String) :
    Spec.storedCanonical (a.setForwards xs).cfg := by
  have hc : config.NormalizeRemoteForwards (some (a.setForwards xs).cfg) = Spec.normalize xs :=
    setForwards_current a xs
  unfold Spec.storedCanonical
  rw [hc, setForwards_eq]
  exact ⟨rfl, rfl⟩

/-- A call of `AddRemoteForward` either returns false and leaves the supervisor unchanged, or
returns true and leaves a canonical, non-empty stored forward set. -/
theorem AddRemoteForward_cases (a : Agent) (s : String) (now : time.Time) :
    ((a.AddRemoteForward s now).1 = a ∧ (a.AddRemoteForward s now).2.1 = false) ∨
    ((a.AddRemoteForward s now).2.1 = true ∧
      Spec.storedCanonical (a.AddRemoteForward s now).1.cfg ∧
      (a.AddRemoteForward s now).1.currentRemoteForwards ≠ []) := by
  have hF : config.NormalizeRemoteForwards (some a.cfg) = a.currentRemoteForwards := rfl
  by_cases he : strings.TrimSpace s = ""
  · left
    have hr : a.AddRemoteForward s now = (a, false, some "remote forward is required") := by
      simp [Agent.AddRemoteForward, he]
    rw [hr]; exact ⟨rfl, rfl⟩
  by_cases hm : strings.TrimSpace s ∈ a.currentRemoteForwards
  · left
    have hr : a.AddRemoteForward s now = (a, false, none) := by
      simp [Agent.AddRemoteForward, he, hF, hm]
    rw [hr]; exact ⟨rfl, rfl⟩
  right
  have hr : a.AddRemoteForward s now =
      ((a.setForwards (a.currentRemoteForwards ++ [strings.TrimSpace s])).RequestRestart
          "remote forward added" now, true, none) := by
    simp [Agent.AddRemoteForward, he, hF, hm]
  have hcan := Spec.Canonical.append_singleton _ _ (currentRemoteForwards_canonical a)
    he (strings.TrimSpace_idem s) hm
  have hcfg := RequestRestart_cfg
    (a.setForwards (a.currentRemoteForwards ++ [strings.TrimSpace s])) "remote forward added" now
  rw [hr]
  refine ⟨rfl, ?_, ?_⟩
  · show Spec.storedCanonical (Agent.RequestRestart _ _ _).cfg
    rw [hcfg]
    exact setForwards_storedCanonical _ _
  · show (Agent.RequestRestart _ _ _).currentRemoteForwards ≠ []
    rw [currentRemoteForwards_congr _ _ hcfg, setForwards_current,
      Spec.normalize_of_canonical _ hcan]
    simp

/-- A call of `RemoveRemoteForward` either returns false and leaves the supervisor unchanged,
or returns true and leaves a canonical, non-empty stored forward set. -/
theorem RemoveRemoteForward_cases (a : Agent) (s : String) (now : time.Time) :
    ((a.RemoveRemoteForward s now).1 = a ∧ (a.RemoveRemoteForward s now).2.1 = false) ∨
    ((a.RemoveRemoteForward s now).2.1 = true ∧
      Spec.storedCanonical (a.RemoveRemoteForward s now).1.cfg ∧
      (a.RemoveRemoteForward s now).1.currentRemoteForwards ≠ []) := by
  have hF : config.NormalizeRemoteForwards (some a.cfg) = a.currentRemoteForwards := rfl
  have hcan := currentRemoteForwards_canonical a
  by_cases he : strings.TrimSpace s = ""
  · left
    have hr : a.RemoveRemoteForward s now = (a, false, some "remote forward is required") := by
      simp [Agent.RemoveRemoteForward, he]
    rw [hr]; exact ⟨rfl, rfl⟩
  by_cases hm : strings.TrimSpace s ∈ a.currentRemoteForwards
  swap
  · left
    have hr : a.RemoveRemoteForward s now = (a, false, none) := by
      simp [Agent.RemoveRemoteForward, he, hF, hm]
    rw [hr]; exact ⟨rfl, rfl⟩
  by_cases hnext : a.currentRemoteForwards.filter (fun x => x ≠ strings.TrimSpace s) = []
  · left
    have h1 := Spec.filter_ne_eq_nil _ _ hcan.1 hm hnext
    have hr : a.RemoveRemoteForward s now
        = (a, false, some "at least one remote forward is required") := by
      simp [Agent.RemoveRemoteForward, he, hF, h1]
    rw [hr]; exact ⟨rfl, rfl⟩
  right
  have hr : a.RemoveRemoteForward s now =
      ((a.setForwards
          (a.currentRemoteForwards.filter (fun x => x ≠ strings.TrimSpace s))).RequestRestart
          "remote forward removed" now, true, none) := by
    simp only [Agent.RemoveRemoteForward, hF, if_neg he]
    have hany : a.currentRemoteForwards.any (fun existing => existing = strings.TrimSpace s)
        = true := by
      rw [List.any_eq_true]
      exact ⟨_, hm, by simp⟩
    rw [hany]
    have hex : ∃ x ∈ a.currentRemoteForwards, ¬x = strings.TrimSpace s := by
      simpa using hnext
    simp [hex]
  have hcan2 := Spec.Canonical.filter _ (fun x => x ≠ strings.TrimSpace s) hcan
  have hcfg := RequestRestart_cfg
    (a.setForwards (a.currentRemoteForwards.filter (fun x => x ≠ strings.TrimSpace s)))
    "remote forward removed" now
  rw [hr]
  refine ⟨rfl, ?_, ?_⟩
  · show Spec.storedCanonical (Agent.RequestRestart _ _ _).cfg
    rw [hcfg]
    exact setForwards_storedCanonical _ _
  · show (Agent.RequestRestart _ _ _).currentRemoteForwards ≠ []
    rw [currentRemoteForwards_congr _ _ hcfg, setForwards_current,
      Spec.normalize_of_canonical _ hcan2]
    exact hnext

theorem forwardCall_cases (a : Agent) (c : ForwardCall) (now : time.Time) :
    ((a.forwardCall c now).1 = a ∧ (a.forwardCall c now).2.1 = false) ∨
    ((a.forwardCall c now).2.1 = true ∧
      Spec.storedCanonical (a.forwardCall c now).1.cfg ∧
      (a.forwardCall c now).1.currentRemoteForwards ≠ []) := by
  cases c with
  | add s => exact AddRemoteForward_cases a s now
  | remove s => exact RemoveRemoteForward_cases a s now

/-- The invariant of a sequence of forward mutations. -/
theorem forwardCalls_invariant (calls : List (ForwardCall × time.Time)) (a : Agent)
    (h : a.currentRemoteForwards ≠ []) :
    (a.forwardCalls calls).1.currentRemoteForwards ≠ [] ∧
    (Spec.storedCanonical a.cfg → Spec.storedCanonical (a.forwardCalls calls).1.cfg) ∧
    (true ∈ (a.forwardCalls calls).2 → Spec.storedCanonical (a.forwardCalls calls).1.cfg) ∧
    (true ∉ (a.forwardCalls calls).2 → (a.forwardCalls calls).1 = a) ∧
    (a.forwardCalls calls).2.length = calls.length := by
  induction calls generalizing a with
  | nil => exact ⟨h, id, fun c => by simp [Agent.forwardCalls] at c, fun _ => rfl, rfl⟩
  | cons p rest ih =>
    obtain ⟨c, now⟩ := p
    simp only [Agent.forwardCalls, List.mem_cons, List.length_cons]
    rcases forwardCall_cases a c now with ⟨h1, h2⟩ | ⟨h2, h3, h4⟩
    · obtain ⟨i1, i2, i3, i4, i5⟩ := ih (a.forwardCall c now).1 (by rw [h1]; exact h)
      refine ⟨i1, fun hs => i2 (by rw [h1]; exact hs), fun hs => ?_, fun hs => ?_, by rw [i5]⟩
      · rcases hs with hs | hs
        · rw [h2] at hs; cases hs
        · exact i3 hs
      · rw [i4 (fun c => hs (Or.inr c)), h1]
    · obtain ⟨i1, i2, i3, i4, i5⟩ := ih (a.forwardCall c now).1 h4
      exact ⟨i1, fun _ => i2 h3, fun _ => i2 h3, fun hs => absurd (Or.inl h2.symm) hs,
        by rw [i5]⟩

end agent

/-- C26 fails as stated: the configuration with an empty scalar field and the list field
`["A"]` has the normalized forward list `["A"]`; the calls `AddRemoteForward("A")`,
`RemoveRemoteForward("B")` and `AddRemoteForward(" ")` return false (a no-op, a no-op, an
error) and leave the stored fields as they were, so the scalar field is still empty and is not
the first entry of the normalized list. -/
theorem C26_counterexample :
    (Examples.forwardAgent "" ["A"]).currentRemoteForwards = ["A"] ∧
    ((Examples.forwardAgent "" ["A"]).forwardCalls
        [(agent.ForwardCall.add "A", 1700000000000000000),
         (agent.ForwardCall.remove "B", 1700000001000000000),
         (agent.ForwardCall.add " ", 1700000002000000000)]).2 = [false, false, false] ∧
    ((Examples.forwardAgent "" ["A"]).forwardCalls
        [(agent.ForwardCall.add "A", 1700000000000000000),
         (agent.ForwardCall.remove "B", 1700000001000000000),
         (agent.ForwardCall.add " ", 1700000002000000000)]).1.currentRemoteForwards = ["A"] ∧
    ((Examples.forwardAgent "" ["A"]).forwardCalls
        [(agent.ForwardCall.add "A", 1700000000000000000),
         (agent.ForwardCall.remove "B", 1700000001000000000),
         (agent.ForwardCall.add " ", 1700000002000000000)]).1.cfg.SSH.RemoteForward = "" ∧
    ¬ Spec.storedCanonical ((Examples.forwardAgent "" ["A"]).forwardCalls
        [(agent.ForwardCall.add "A", 1700000000000000000),
         (agent.ForwardCall.remove "B", 1700000001000000000),
         (agent.ForwardCall.add " ", 1700000002000000000)]).1.cfg := by
  refine ⟨by decide, by decide, by decide, by decide, by decide⟩

/-- C26 (amended): for every supervisor whose normalized forward list is not empty, after any
finite sequence of `AddRemoteForward` and `RemoveRemoteForward` calls with arbitrary arguments
the normalized forward list is still not empty, has no duplicate, no empty string and no entry
with surrounding white space; the stored representation is canonical (scalar field = first
entry, list field = the remaining entries) when it was canonical before the sequence or when
at least one call returned true; and when no call returned true the configuration is
unchanged. -/
theorem C26_forward_set_invariant (a : agent.Agent)
    (calls : List (agent.ForwardCall × time.Time)) (h : a.currentRemoteForwards ≠ []) :
    (a.forwardCalls calls).1.currentRemoteForwards ≠ [] ∧
    (a.forwardCalls calls).1.currentRemoteForwards.Nodup ∧
    "" ∉ (a.forwardCalls calls).1.currentRemoteForwards ∧
    (∀ x ∈ (a.forwardCalls calls).1.currentRemoteForwards, strings.TrimSpace x = x) ∧
    (Spec.storedCanonical a.cfg ∨ true ∈ (a.forwardCalls calls).2 →
      Spec.storedCanonical (a.forwardCalls calls).1.cfg) ∧
    (true ∉ (a.forwardCalls calls).2 → (a.forwardCalls calls).1.cfg = a.cfg) := by
  obtain ⟨i1, i2, i3, i4, _⟩ := agent.forwardCalls_invariant calls a h
  have hc := agent.currentRemoteForwards_canonical (a.forwardCalls calls).1
  refine ⟨i1, hc.1, fun hm => (hc.2 "" hm).1 rfl, fun x hx => (hc.2 x hx).2, ?_, ?_⟩
  · rintro (hs | hs)
    · exact i2 hs
    · exact i3 hs
  · intro hs
    rw [i4 hs]

theorem C26_forward_set_invariant_witness :
    (Examples.forwardAgent "A" []).currentRemoteForwards ≠ [] ∧
    ((Examples.forwardAgent "A" []).forwardCalls
        [(agent.ForwardCall.add " B", 1700000000000000000),
         (agent.ForwardCall.remove "A", 1700000001000000000),
         (agent.ForwardCall.remove "B", 1700000002000000000),
         (agent.ForwardCall.add "", 1700000003000000000)]).2 = [true, true, false, false] ∧
    ((Examples.forwardAgent "A" []).forwardCalls
        [(agent.ForwardCall.add " B", 1700000000000000000),
         (agent.ForwardCall.remove "A", 1700000001000000000),
         (agent.ForwardCall.remove "B", 1700000002000000000),
         (agent.ForwardCall.add "", 1700000003000000000)]).1.currentRemoteForwards = ["B"] ∧
    ((Examples.forwardAgent "A" []).forwardCalls
        [(agent.ForwardCall.add " B", 1700000000000000000),
         (agent.ForwardCall.remove "A", 1700000001000000000),
         (agent.ForwardCall.remove "B", 1700000002000000000),
         (agent.ForwardCall.add "", 1700000003000000000)]).1.currentRemoteForwards ≠ [] :=
  ⟨by decide, by decide, by decide,
   (C26_forward_set_invariant (Examples.forwardAgent "A" [])
      [(agent.ForwardCall.add " B", 1700000000000000000),
       (agent.ForwardCall.remove "A", 1700000001000000000),
       (agent.ForwardCall.remove "B", 1700000002000000000),
       (agent.ForwardCall.add "", 1700000003000000000)] (by decide)).1⟩
